import Mathlib

/-!
# Smart City Synthetic Data Generator: stream and ingest pipeline

A shallow embedding of `src/server.js` (record generators, the generate
endpoint, the WebSocket stream registry) and of the streaming part of
`src/public/app.js` (the ingest buffer and the stream view update).

Conventions of the embedding:

* a JavaScript value that came through JSON is a `JVal`; `undefined` is the
  `none` of `Option JVal`;
* a JavaScript number is a `JNum` (a rational, an infinity or NaN);
* a function that can throw returns `Except JsErr _`;
* values that come from outside the program (random draws, uuid, faker,
  the clock, string-to-number conversion, the Date library) are read from an
  `Env`, over which every theorem is universally quantified.
-/

namespace SmartCity

/-! ## JavaScript values -/

/-- A JavaScript number: NaN, an infinity, or a finite value. -/
inductive JNum where
  | nan
  | negInf
  | fin (q : ℚ)
  | posInf
  deriving DecidableEq

namespace JNum

/-- The function `Math.min` on two arguments. -/
def min : JNum → JNum → JNum
  | nan, _ => nan
  | _, nan => nan
  | negInf, _ => negInf
  | _, negInf => negInf
  | posInf, b => b
  | a, posInf => a
  | fin a, fin b => fin (Min.min a b)

/-- The function `Math.max` on two arguments. -/
def max : JNum → JNum → JNum
  | nan, _ => nan
  | _, nan => nan
  | posInf, _ => posInf
  | _, posInf => posInf
  | negInf, b => b
  | a, negInf => a
  | fin a, fin b => fin (Max.max a b)

/-- Truthiness of a number: NaN and zero are falsy. -/
def truthy : JNum → Bool
  | nan => false
  | fin q => decide (q ≠ 0)
  | _ => true

/-- The expression `n || d` for a number `n`. -/
def orElse (n d : JNum) : JNum := if n.truthy then n else d

end JNum

/-- A value produced by `JSON.parse` (or built by the generators). An object
is its property list; the first binding of a key is the effective one. -/
inductive JVal where
  | null
  | bool (b : Bool)
  | num (n : JNum)
  | str (s : String)
  | arr (xs : List JVal)
  | obj (kvs : List (String × JVal))

/-- Exceptions the modelled code can raise, told apart by class and message. -/
inductive JsErr where
  | invalidDataType   -- Error('Invalid data type')
  | syntaxError       -- JSON.parse on text that is not JSON
  | typeError         -- property read or destructuring of null / undefined
  | rangeError        -- toISOString on an invalid Date
  | fakerError        -- thrown by a faker helper
  deriving DecidableEq

namespace JVal

/-- JavaScript truthiness of a defined value. -/
def truthy : JVal → Bool
  | null => false
  | bool b => b
  | num n => n.truthy
  | str s => decide (s ≠ "")
  | arr _ => true
  | obj _ => true

/-- Own property `k` of a non-null value, for the identifier keys the program
reads; `none` is `undefined`. Only objects have such properties. -/
def field (v : JVal) (k : String) : Option JVal :=
  match v with
  | obj kvs => kvs.lookup k
  | _ => none

/-- The property read `v.k`: a TypeError on `null`. -/
def getProp (v : JVal) (k : String) : Except JsErr (Option JVal) :=
  match v with
  | null => .error .typeError
  | _ => .ok (v.field k)

/-- The keys of an object, in order. -/
def keys : JVal → List String
  | obj kvs => kvs.map Prod.fst
  | _ => []

end JVal

/-- Truthiness of a possibly undefined value. -/
def truthy? : Option JVal → Bool
  | none => false
  | some v => v.truthy

/-- The property read `v.k` where `v` may be `undefined`. -/
def getProp? (v : Option JVal) (k : String) : Except JsErr (Option JVal) :=
  match v with
  | none => .error .typeError
  | some w => w.getProp k

/-- The property read `v.k` on a value known to be truthy (hence not null). -/
def field? (v : Option JVal) (k : String) : Option JVal :=
  match v with
  | none => none
  | some w => w.field k

/-- The test `v === s` against a string literal. -/
def strictEqStr (v : Option JVal) (s : String) : Bool :=
  match v with
  | some (.str t) => decide (t = s)
  | _ => false

/-- The call `Number.isFinite(v)`. -/
def isFiniteNumber : Option JVal → Bool
  | some (.num (.fin _)) => true
  | _ => false

/-- The call `xs.slice(-n)`: the last `n` elements. -/
def sliceLast {α : Type} (n : Nat) (xs : List α) : List α :=
  xs.drop (xs.length - n)

/-! ## Client: ingest buffer and stream view update (`src/public/app.js`) -/

/-- A primitive drawn on the map and kept in `mapMarkers`: the position handed
to Leaflet and the record it was made from. -/
inductive Primitive where
  | circle (lat lng : Option JVal) (item : Option JVal)
  | polyline (startLat startLng endLat endLng : Option JVal) (item : Option JVal)

/-- A weighted point of the heat layer: `[lat, lng, Math.min(intensity, 10)]`. -/
structure HeatPoint where
  lat : Option JVal
  lng : Option JVal
  weight : JNum

/-- A framing of the map made by `updateMapView`: `fitBounds` on the marker
group, `fitBounds` on the heat points, or `setView` on the default centre. -/
inductive Framing where
  | toMarkers (markers : List Primitive)
  | toPoints (latlngs : List (Option JVal × Option JVal))
  | toCenter

/-- The constant `MAX_MARKERS`. -/
def MAX_MARKERS : Nat := 1000

/-- The constant `MAX_TABLE_ROWS`. -/
def MAX_TABLE_ROWS : Nat := 100

/-- The client's global variables that the stream path reads or writes.
Rendering (Leaflet, Chart.js, the DOM) is outside the model: each view field
holds the records last handed to the renderer. -/
structure Client where
  /-- The ingest buffer `currentData`; an element is `none` when the message
  had no `data`. -/
  currentData : List (Option JVal)
  mapMarkers : List Primitive
  lastUiUpdate : Int
  /-- The flag `window.__streamAutoFitPending`. -/
  autoFitPending : Bool
  /-- The list `window.__streamAutoFitPoints`. -/
  autoFitPoints : List (Option JVal × Option JVal)
  /-- The handle `window.__streamAutoFitTimer`. -/
  autoFitTimer : Option Nat
  /-- Each call of `tryFitToPoints` that had points, oldest first. -/
  fitCalls : List (List (Option JVal × Option JVal))
  /-- Records last handed to `updateChartView`. -/
  chartInput : List (Option JVal)
  /-- Records last handed to `updateTableView`. -/
  tableInput : List (Option JVal)
  /-- Records last handed to `updateRawView`. -/
  rawInput : List (Option JVal)
  /-- The global `window.heatmapLayer`: the points of the heat layer on the
  map, `none` when there is no layer. -/
  heatmapLayer : Option (List HeatPoint) := none
  /-- Each framing of the map made by `updateMapView`, oldest first. -/
  mapFrames : List Framing := []
  /-- The handles of the timeouts that `setTimeout` scheduled for the auto-fit
  and that have neither fired nor been cancelled by `clearTimeout`. -/
  timeouts : List Nat := []
  /-- The next handle `setTimeout` returns (handles are positive). -/
  nextHandle : Nat := 1
  /-- The global `ws`: the socket the client holds, by identity. -/
  ws : Option Nat := none
  /-- The identity of the next `new WebSocket`. -/
  nextSocket : Nat := 0

/-- The client state on page load. -/
def Client.init : Client :=
  { currentData := [], mapMarkers := [], lastUiUpdate := 0,
    autoFitPending := false, autoFitPoints := [], autoFitTimer := none,
    fitCalls := [], chartInput := [], tableInput := [], rawInput := [] }

/-- The function `addMapMarker`: push the marker, evict the oldest one when the
set is over `MAX_MARKERS`. -/
def addMapMarker (c : Client) (lat lng item : Option JVal) : Client :=
  let ms := c.mapMarkers ++ [Primitive.circle lat lng item]
  { c with mapMarkers := if ms.length > MAX_MARKERS then ms.tail else ms }

/-- The function `tryFitToPoints`. -/
def tryFitToPoints (c : Client) (points : List (Option JVal × Option JVal)) : Client :=
  if points.length = 0 then c else { c with fitCalls := c.fitCalls ++ [points] }

/-- The statement `if (timer) { clearTimeout(timer); timer = null }` on the
global `window.__streamAutoFitTimer`. -/
def clearAutoFitTimer (c : Client) : Client :=
  match c.autoFitTimer with
  | none => c
  | some handle =>
    { c with timeouts := c.timeouts.filter (fun h => h ≠ handle), autoFitTimer := none }

/-- The function `collectAutoFitPoint`. -/
def collectAutoFitPoint (c : Client) (lat lng : Option JVal) : Client :=
  if !isFiniteNumber lat || !isFiniteNumber lng then c
  else
    let c1 := { c with autoFitPoints := c.autoFitPoints ++ [(lat, lng)] }
    if c1.autoFitPoints.length ≥ 12 then
      let c2 := tryFitToPoints c1 c1.autoFitPoints
      clearAutoFitTimer { c2 with autoFitPending := false }
    else c1

/-- The marker step shared by the three position shapes of
`updateStreamVisualization`: add the marker, then collect the point while the
auto-fit is pending. -/
def placeStreamMarker (c : Client) (lat lng item : Option JVal) : Client :=
  let c1 := addMapMarker c lat lng item
  if c1.autoFitPending then collectAutoFitPoint c1 lat lng else c1

/-- The throttled part of `updateStreamVisualization` (lines 610-623). -/
def throttledViews (c : Client) (now : Int) : Client :=
  if now - c.lastUiUpdate > 250 then
    let recentData := sliceLast MAX_TABLE_ROWS c.currentData
    { c with chartInput := sliceLast 50 c.currentData,
             tableInput := recentData,
             rawInput := recentData,
             lastUiUpdate := now }
  else c

/-- The function `updateStreamVisualization`. The result is the state the
function leaves behind and the exception it raised, if any (reading a property
of a `null` or `undefined` record). -/
def updateStreamVisualization (c : Client) (now : Int) (newData : Option JVal) :
    Client × Option JsErr :=
  match getProp? newData "lat" with
  | .error e => (c, some e)
  | .ok _ =>
    let lat := field? newData "lat"
    let lng := field? newData "lng"
    let location := field? newData "location"
    let coordinates := field? newData "coordinates"
    let c1 :=
      if truthy? lat && truthy? lng then
        placeStreamMarker c lat lng newData
      else if truthy? location then
        placeStreamMarker c (field? location "lat") (field? location "lng") newData
      else if truthy? coordinates then
        let start := field? coordinates "start"
        if truthy? start then
          placeStreamMarker c (field? start "lat") (field? start "lng") newData
        else c
      else c
    (throttledViews c1 now, none)

/-- The ingest step of `ws.onmessage` (lines 497-500): push, then one `shift`
when the length exceeds 1000. -/
def ingest (buf : List (Option JVal)) (record : Option JVal) : List (Option JVal) :=
  let buf1 := buf ++ [record]
  if buf1.length > 1000 then buf1.tail else buf1

/-- The handler `ws.onmessage` of the client. `frame` is the outcome of
`JSON.parse(event.data)` (`none` when it throws a SyntaxError) and `now` the
value of `Date.now()`. The result is the state left behind and the exception
that escaped the handler, if any. -/
def onmessage (c : Client) (now : Int) (frame : Option JVal) : Client × Option JsErr :=
  match frame with
  | none => (c, some .syntaxError)
  | some message =>
    match message.getProp "type" with
    | .error e => (c, some e)
    | .ok type =>
      if strictEqStr type "stream_data" then
        let data := message.field "data"
        let c1 := { c with currentData := ingest c.currentData data }
        updateStreamVisualization c1 now data
      else (c, none)

/-- The one-shot path of `generateData` on a successful response (line 373):
the buffer is replaced by the records of the response. -/
def storeGenerated (c : Client) (data : List (Option JVal)) : Client :=
  { c with currentData := data }

/-- The client after a sequence of inbound frames, each with its clock value. -/
def receiveAll (c : Client) (frames : List (Int × Option JVal)) : Client :=
  frames.foldl (fun st f => (onmessage st f.1 f.2).1) c

/-- A frame that the handler treats as a `stream_data` message. -/
def isStreamData (frame : Option JVal) : Prop :=
  ∃ message, frame = some message ∧ message ≠ JVal.null ∧
    strictEqStr (message.field "type") "stream_data" = true

/-- The record carried by a frame: `message.data`. -/
def frameData (frame : Option JVal) : Option JVal :=
  field? frame "data"

/-! ## Server: record generators (`src/server.js`) -/

/-- What the server reads from outside the program. `value i k` is the value
that the random, uuid, faker, clock and floating-point expressions give to
field `k` of the `i`-th record of a call; `chance i k` is the outcome of a
random test. -/
structure Env where
  value : Nat → String → JVal
  chance : Nat → String → Bool
  /-- The conversion `Number(s)` of a string. -/
  stringToNumber : String → JNum
  /-- The conversion `Number(v)` of an array or object. -/
  objectToNumber : JVal → JNum
  /-- Time value of `new Date()`. -/
  now : Int
  /-- Time value of `new Date(v)`; `none` is an Invalid Date. -/
  dateOfValue : JVal → Option Int
  /-- Time value after `d.setHours(d.getHours() + h)` on a valid date. -/
  setHours : Int → JVal → Option Int
  /-- The call `faker.random.arrayElement(xs)` made for the `i`-th record;
  the outer `none` is a thrown FakerError, the inner one `undefined`. -/
  arrayElement : JVal → Nat → Option (Option JVal)
  /-- The string `new Date().toISOString()` put on an outgoing message. -/
  timestamp : JVal

/-- The conversion `Number(v)`. -/
def toNumber (env : Env) : Option JVal → JNum
  | none => .nan
  | some .null => .fin 0
  | some (.bool b) => .fin (if b then 1 else 0)
  | some (.num n) => n
  | some (.str s) => env.stringToNumber s
  | some v => env.objectToNumber v

/-- Number of iterations of `for (let i = 0; i < count; i++)`. -/
def loopCount (count : ℚ) : Nat := Nat.ceil count

/-- A loop whose body pushes one record and cannot throw. -/
def pushEach (n : Nat) (body : Nat → JVal) : List JVal :=
  (List.range n).map body

/-- Destructuring the `options` argument: a TypeError on `null`. -/
def destructure (options : JVal) : Except JsErr Unit :=
  match options with
  | .null => .error .typeError
  | _ => .ok ()

/-- A destructured flag with default `true`, as tested by `if (flag)`. -/
def flagOr (options : JVal) (k : String) : Bool :=
  match options.field k with
  | none => true
  | some v => v.truthy

/-- An object literal whose values are read from the environment. -/
def drawn (env : Env) (i : Nat) (pre : String) (ks : List String) : List (String × JVal) :=
  ks.map fun k => (k, env.value i (pre ++ k))

/-- One point of `generateGeoData`. -/
def geoPoint (env : Env) (includeMetadata : Bool) (i : Nat) : JVal :=
  .obj (drawn env i "" ["id", "lat", "lng", "timestamp", "type"] ++
    (if includeMetadata then
      [("metadata", JVal.obj (drawn env i "metadata."
        ["address", "city", "district", "postalCode", "country", "elevation",
         "population_density", "building_height"]))]
     else []))

/-- The method `generateGeoData`. -/
def generateGeoData (env : Env) (count : ℚ) (options : JVal) : Except JsErr (List JVal) :=
  match destructure options with
  | .error e => .error e
  | .ok _ => .ok (pushEach (loopCount count) (geoPoint env (flagOr options "includeMetadata")))

/-- One segment of `generateTrafficData`. The inner vehicle list is a single
drawn array. -/
def trafficPoint (env : Env) (includeVehicles : Bool) (i : Nat) : JVal :=
  .obj ([("id", env.value i "id"), ("segment_id", env.value i "segment_id"),
         ("coordinates", JVal.obj
            [("start", JVal.obj (drawn env i "coordinates.start." ["lat", "lng"])),
             ("end", JVal.obj (drawn env i "coordinates.end." ["lat", "lng"]))])] ++
    drawn env i "" ["road_type", "current_speed", "speed_limit", "congestion_level",
                    "vehicle_count", "timestamp"] ++
    (if includeVehicles then [("vehicles", env.value i "vehicles")] else []) ++
    (if env.chance i "incident" then
      [("incident", JVal.obj (drawn env i "incident." ["type", "severity", "estimated_delay"]))]
     else []))

/-- The method `generateTrafficData`. -/
def generateTrafficData (env : Env) (count : ℚ) (options : JVal) : Except JsErr (List JVal) :=
  match destructure options with
  | .error e => .error e
  | .ok _ => .ok (pushEach (loopCount count) (trafficPoint env (flagOr options "includeVehicles")))

/-- One person of `generateSocialData`. -/
def person (env : Env) (includeDetails : Bool) (i : Nat) : JVal :=
  .obj (drawn env i "" ["id", "name", "age", "gender", "occupation", "income_bracket",
                        "education_level", "district", "household_size"] ++
    (if includeDetails then
      [("details", JVal.obj (drawn env i "details."
        ["employment_status", "marital_status", "has_children", "transportation_mode",
         "internet_usage_hours", "social_participation", "health_insurance",
         "voting_participation"]))]
     else []))

/-- The method `generateSocialData`. -/
def generateSocialData (env : Env) (count : ℚ) (options : JVal) : Except JsErr (List JVal) :=
  match destructure options with
  | .error e => .error e
  | .ok _ => .ok (pushEach (loopCount count) (person env (flagOr options "includeDetails")))

/-- One transaction of `generateFinancialData`. -/
def transaction (env : Env) (i : Nat) : JVal :=
  .obj (drawn env i "" ["transaction_id", "timestamp", "amount", "currency", "type",
                        "category", "merchant"] ++
    [("location", JVal.obj (drawn env i "location." ["lat", "lng"])),
     ("payment_method", env.value i "payment_method")])

/-- The budget categories of `generateFinancialData`. -/
def budgetCategories : List String :=
  ["infrastructure", "education", "healthcare", "public_safety", "transportation",
   "environment", "culture", "administration"]

/-- One budget line of `generateFinancialData`; `i` is the position of the
category. -/
def budgetLine (env : Env) (i : Nat) (category : String) : JVal :=
  .obj ([("id", env.value i "id"), ("category", JVal.str category)] ++
    drawn env i "" ["allocated_budget", "spent", "year", "quarter", "projects_count",
                    "efficiency_score"])

/-- The method `generateFinancialData`: `count` transactions, or one line per
budget category, or nothing, by `options.dataType`. -/
def generateFinancialData (env : Env) (count : ℚ) (options : JVal) : Except JsErr (List JVal) :=
  match destructure options with
  | .error e => .error e
  | .ok _ =>
    let dataType : Option JVal :=
      match options.field "dataType" with
      | none => some (.str "transactions")
      | some v => some v
    if strictEqStr dataType "transactions" then
      .ok (pushEach (loopCount count) (transaction env))
    else if strictEqStr dataType "budget" then
      .ok (budgetCategories.enum.map fun p => budgetLine env p.1 p.2)
    else .ok []

/-- One reading of `generateClimateData`. -/
def climateRecord (env : Env) (i : Nat) : JVal :=
  .obj (drawn env i "" ["id", "timestamp", "temperature", "humidity", "pressure",
                        "wind_speed", "wind_direction", "precipitation", "air_quality_index",
                        "pm25", "pm10", "co2_level", "uv_index", "visibility",
                        "weather_condition"])

/-- The loop of `generateClimateData` from index `i` with `n` iterations left:
`toISOString` throws a RangeError when `currentDate` is invalid. -/
def climateLoop (env : Env) (intervalHours : JVal) :
    Nat → Nat → Option Int → Except JsErr (List JVal)
  | 0, _, _ => .ok []
  | n + 1, i, currentDate =>
    match currentDate with
    | none => .error .rangeError
    | some t =>
      match climateLoop env intervalHours n (i + 1) (env.setHours t intervalHours) with
      | .error e => .error e
      | .ok rest => .ok (climateRecord env i :: rest)

/-- The time value of `currentDate` before the loop of `generateClimateData`:
`new Date(startDate)`, where `startDate` defaults to `new Date()`; `none` is an
Invalid Date. -/
def climateStart (env : Env) (options : JVal) : Option Int :=
  match options.field "startDate" with
  | none => some env.now
  | some v => env.dateOfValue v

/-- The destructured `intervalHours` of `generateClimateData`, default 1. -/
def climateInterval (options : JVal) : JVal :=
  (options.field "intervalHours").getD (.num (.fin 1))

/-- The method `generateClimateData`. -/
def generateClimateData (env : Env) (count : ℚ) (options : JVal) : Except JsErr (List JVal) :=
  match destructure options with
  | .error e => .error e
  | .ok _ =>
    climateLoop env (climateInterval options) (loopCount count) 0 (climateStart env options)

/-- The constant `allSensorTypes`. -/
def allSensorTypes : List String :=
  ["parking", "waste", "lighting", "water", "energy", "noise"]

/-- The element read `v[0]`: a TypeError on `null`. -/
def index0 (v : JVal) : Except JsErr (Option JVal) :=
  match v with
  | .null => .error .typeError
  | .arr xs => .ok xs.head?
  | .str s => .ok (match s.toList with
      | [] => none
      | ch :: _ => some (.str (String.singleton ch)))
  | _ => .ok none

/-- The type-specific `data` object of an IoT sensor (the `switch`). -/
def sensorData (env : Env) (i : Nat) (sensorType : Option JVal) : List (String × JVal) :=
  if strictEqStr sensorType "parking" then
    [("data", JVal.obj (drawn env i "data." ["occupied", "duration_minutes", "zone"]))]
  else if strictEqStr sensorType "waste" then
    [("data", JVal.obj (drawn env i "data." ["fill_level", "temperature", "last_collection"]))]
  else if strictEqStr sensorType "lighting" then
    [("data", JVal.obj (drawn env i "data." ["brightness", "power_consumption", "operational"]))]
  else if strictEqStr sensorType "water" then
    [("data", JVal.obj (drawn env i "data."
      ["flow_rate", "pressure", "quality_index", "leak_detected"]))]
  else if strictEqStr sensorType "energy" then
    [("data", JVal.obj (drawn env i "data."
      ["consumption_kwh", "voltage", "current", "power_factor"]))]
  else if strictEqStr sensorType "noise" then
    [("data", JVal.obj (drawn env i "data." ["decibel_level", "peak_frequency", "violation"]))]
  else []

/-- One sensor of `generateIoTData`; an undefined `type` leaves no key. -/
def sensor (env : Env) (i : Nat) (sensorType : Option JVal) : JVal :=
  .obj ([("sensor_id", env.value i "sensor_id")] ++
    (match sensorType with
     | none => []
     | some t => [("type", t)]) ++
    [("location", JVal.obj (drawn env i "location." ["lat", "lng"]))] ++
    drawn env i "" ["timestamp", "status", "battery_level"] ++
    sensorData env i sensorType)

/-- The loop of `generateIoTData` from index `i` with `n` iterations left. -/
def iotLoop (env : Env) (types : JVal) : Nat → Nat → Except JsErr (List JVal)
  | 0, _ => .ok []
  | n + 1, i =>
    match env.arrayElement types i with
    | none => .error .fakerError
    | some sensorType =>
      match iotLoop env types n (i + 1) with
      | .error e => .error e
      | .ok rest => .ok (sensor env i sensorType :: rest)

/-- The sensor types drawn from: `sensorTypes[0] === 'all' ? allSensorTypes :
sensorTypes`. -/
def iotTypes (options : JVal) : Except JsErr JVal :=
  let sensorTypes : JVal := (options.field "sensorTypes").getD (.arr [.str "all"])
  match index0 sensorTypes with
  | .error e => .error e
  | .ok first =>
    .ok (if strictEqStr first "all" then .arr (allSensorTypes.map JVal.str) else sensorTypes)

/-- The method `generateIoTData`. -/
def generateIoTData (env : Env) (count : ℚ) (options : JVal) : Except JsErr (List JVal) :=
  match destructure options with
  | .error e => .error e
  | .ok _ =>
    match iotTypes options with
    | .error e => .error e
    | .ok types => iotLoop env types (loopCount count) 0

/-- One vehicle of `generatePublicTransportData`. -/
def vehicle (env : Env) (i : Nat) : JVal :=
  .obj (drawn env i "" ["vehicle_id", "type", "line_number"] ++
    [("current_location", JVal.obj (drawn env i "current_location." ["lat", "lng"]))] ++
    drawn env i "" ["next_stop", "capacity", "occupancy", "delay_minutes", "speed_kmh",
                    "timestamp", "status"])

/-- The method `generatePublicTransportData`. -/
def generatePublicTransportData (env : Env) (count : ℚ) (options : JVal) :
    Except JsErr (List JVal) :=
  match destructure options with
  | .error e => .error e
  | .ok _ => .ok (pushEach (loopCount count) (vehicle env))

/-- One incident of `generateEmergencyData`. -/
def incident (env : Env) (i : Nat) : JVal :=
  .obj (drawn env i "" ["incident_id", "type", "severity"] ++
    [("location", JVal.obj (drawn env i "location." ["lat", "lng", "address"]))] ++
    drawn env i "" ["reported_at", "response_time_minutes", "units_dispatched", "status",
                    "description", "affected_people"])

/-- The method `generateEmergencyData`. -/
def generateEmergencyData (env : Env) (count : ℚ) (options : JVal) : Except JsErr (List JVal) :=
  match destructure options with
  | .error e => .error e
  | .ok _ => .ok (pushEach (loopCount count) (incident env))

/-- The method `SyntheticDataGenerator.generateData`: the `switch` over
`dataType`. -/
def generateData (env : Env) (dataType : Option JVal) (count : ℚ) (options : JVal) :
    Except JsErr (List JVal) :=
  if strictEqStr dataType "geo" then generateGeoData env count options
  else if strictEqStr dataType "traffic" then generateTrafficData env count options
  else if strictEqStr dataType "social" then generateSocialData env count options
  else if strictEqStr dataType "demographic" then generateSocialData env count options
  else if strictEqStr dataType "financial" then generateFinancialData env count options
  else if strictEqStr dataType "climate" then generateClimateData env count options
  else if strictEqStr dataType "iot" then generateIoTData env count options
  else if strictEqStr dataType "transport" then generatePublicTransportData env count options
  else if strictEqStr dataType "emergency" then generateEmergencyData env count options
  else .error .invalidDataType

/-- The method `generateSingleData`: element 0 of a one-record generation,
`undefined` when the generation is empty. -/
def generateSingleData (env : Env) (dataType : Option JVal) (options : JVal) :
    Except JsErr (Option JVal) :=
  match generateData env dataType 1 options with
  | .error e => .error e
  | .ok data => .ok data.head?

/-- The data types the `switch` of `generateData` has a case for. -/
def dataTypes : List String :=
  ["geo", "traffic", "social", "demographic", "financial", "climate", "iot", "transport",
   "emergency"]

/-- A `dataType` value is recognised when it is one of the nine strings. -/
def recognised (dataType : Option JVal) : Prop :=
  ∃ s ∈ dataTypes, dataType = some (.str s)

/-! ## Server: the generate endpoint -/

namespace JNum

/-- The rational of a finite number (used only on clamped, finite values). -/
def toRat : JNum → ℚ
  | fin q => q
  | _ => 0

end JNum

/-- The response of `POST /api/generate`. -/
inductive HttpResponse where
  /-- Status 200 with `success: true`, `dataType`, `count` and `data`. -/
  | success (dataType : Option JVal) (count : Nat) (data : List JVal)
  /-- Status 400 with the message of the caught error. -/
  | badRequest (error : JsErr)

/-- The clamp `Math.max(1, Math.min(10000, Number(count) || 100))`. -/
def clampCount (env : Env) (count : Option JVal) : JNum :=
  JNum.max (.fin 1) (JNum.min (.fin 10000) ((toNumber env count).orElse (.fin 100)))

/-- The clamped `count` of a request body: the destructured `count` (default
100) through `clampCount`. -/
def requestCount (env : Env) (body : JVal) : ℚ :=
  (clampCount env (some ((body.field "count").getD (.num (.fin 100))))).toRat

/-- The destructured `options` of a request body, default the empty object. -/
def requestOptions (body : JVal) : JVal :=
  (body.field "options").getD (.obj [])

/-- The handler of `POST /api/generate` on a parsed body. Reading the body
happens outside the `try`; every exception of `generateData` is caught. -/
def postGenerate (env : Env) (body : JVal) : Except JsErr HttpResponse :=
  match body.getProp "dataType" with
  | .error e => .error e
  | .ok dataType =>
    match generateData env dataType (requestCount env body) (requestOptions body) with
    | .ok data => .ok (.success dataType data.length data)
    | .error e => .ok (.badRequest e)

/-! ## Server: the stream session registry -/

/-- A WebSocket connection, by identity. -/
abbrev Conn := Nat

/-- A message the server sends on a connection. -/
inductive ServerMsg where
  | stream_started (dataType : Option JVal) (interval : JNum)
  | stream_data (dataType : Option JVal) (data : Option JVal) (timestamp : JVal)
  | stream_stopped

/-- A live interval timer: its handle and what its callback closes over. -/
structure Timer where
  id : Nat
  ws : Conn
  dataType : Option JVal
  options : JVal
  safeInterval : JNum

/-- The server state: the map `activeStreams` (connection to timer handle), the
timers that `setInterval` made and `clearInterval` has not cancelled, the next
fresh handle, and every `ws.send` so far, oldest first. -/
structure Server where
  activeStreams : List (Conn × Nat)
  timers : List Timer
  nextTimer : Nat
  sent : List (Conn × ServerMsg)

/-- The server state at start-up. -/
def Server.init : Server :=
  { activeStreams := [], timers := [], nextTimer := 0, sent := [] }

namespace Server

/-- The call `activeStreams.get(ws)`; `none` when `has(ws)` is false. -/
def get (s : Server) (ws : Conn) : Option Nat := s.activeStreams.lookup ws

/-- The call `activeStreams.has(ws)`. -/
def has (s : Server) (ws : Conn) : Bool := (s.get ws).isSome

/-- The call `activeStreams.set(ws, id)`. -/
def set (s : Server) (ws : Conn) (id : Nat) : Server :=
  { s with activeStreams := (ws, id) :: s.activeStreams.filter (fun p => p.1 ≠ ws) }

/-- The call `activeStreams.delete(ws)`. -/
def delete (s : Server) (ws : Conn) : Server :=
  { s with activeStreams := s.activeStreams.filter (fun p => p.1 ≠ ws) }

/-- The call `clearInterval(handle)`. -/
def clearInterval (s : Server) (handle : Option Nat) : Server :=
  match handle with
  | none => s
  | some id => { s with timers := s.timers.filter (fun t => t.id ≠ id) }

/-- The call `ws.send(JSON.stringify(msg))`. -/
def send (s : Server) (ws : Conn) (msg : ServerMsg) : Server :=
  { s with sent := s.sent ++ [(ws, msg)] }

/-- The live timers whose callback sends on `ws`. -/
def liveTimers (s : Server) (ws : Conn) : List Timer :=
  s.timers.filter (fun t => t.ws = ws)

end Server

/-- The clamp `Math.max(100, Math.min(10000, Number(interval) || 1000))`. -/
def safeInterval (env : Env) (interval : Option JVal) : JNum :=
  JNum.max (.fin 100) (JNum.min (.fin 10000) ((toNumber env interval).orElse (.fin 1000)))

/-- The `start_stream` branch of the message handler (lines 485-515). -/
def startStream (env : Env) (s : Server) (ws : Conn) (request : JVal) : Server :=
  let dataType := request.field "dataType"
  let interval : Option JVal := some ((request.field "interval").getD (.num (.fin 1000)))
  let options : JVal := (request.field "options").getD (.obj [])
  let s1 := if s.has ws then s.clearInterval (s.get ws) else s
  let safe := safeInterval env interval
  let streamInterval : Timer :=
    { id := s1.nextTimer, ws := ws, dataType := dataType, options := options,
      safeInterval := safe }
  let s2 := { s1 with timers := s1.timers ++ [streamInterval], nextTimer := s1.nextTimer + 1 }
  let s3 := s2.set ws streamInterval.id
  s3.send ws (.stream_started dataType safe)

/-- The `stop_stream` branch of the message handler (lines 518-524). -/
def stopStream (s : Server) (ws : Conn) : Server :=
  if s.has ws then
    ((s.clearInterval (s.get ws)).delete ws).send ws .stream_stopped
  else s

/-- The handler `ws.on('message')`. `frame` is the outcome of
`JSON.parse(message)`, `none` when it throws (caught: the frame is ignored).
An exception of the handler escapes to the transport layer. -/
def onMessage (env : Env) (s : Server) (ws : Conn) (frame : Option JVal) :
    Except JsErr Server :=
  match frame with
  | none => .ok s
  | some request =>
    match request.getProp "action" with
    | .error e => .error e
    | .ok action =>
      let s1 := if strictEqStr action "start_stream" then startStream env s ws request else s
      let s2 := if strictEqStr action "stop_stream" then stopStream s1 ws else s1
      .ok s2

/-- The handler `ws.on('close')`. -/
def onClose (s : Server) (ws : Conn) : Server :=
  if s.has ws then (s.clearInterval (s.get ws)).delete ws else s

/-- The callback of the interval timer (lines 495-507), run for timer `t` with
the environment of that tick: a generation error is caught and logged. -/
def tickCallback (env : Env) (s : Server) (t : Timer) : Server :=
  match generateSingleData env t.dataType t.options with
  | .ok data => s.send t.ws (.stream_data t.dataType data env.timestamp)
  | .error _ => s

/-- One firing of the timer with handle `id`; a cancelled timer does not
fire. -/
def tick (env : Env) (s : Server) (id : Nat) : Server :=
  match s.timers.find? (fun t => t.id = id) with
  | none => s
  | some t => tickCallback env s t

/-- An event of the server's event loop. -/
inductive Event where
  | message (ws : Conn) (frame : Option JVal)
  | close (ws : Conn)
  | tick (id : Nat) (env : Env)

/-- One event handled in state `s`. -/
def step (env : Env) (s : Server) : Event → Except JsErr Server
  | .message ws frame => onMessage env s ws frame
  | .close ws => .ok (onClose s ws)
  | .tick id tickEnv => .ok (SmartCity.tick tickEnv s id)

/-- A sequence of events handled in order; an escaping exception ends the
run. -/
def run (env : Env) (s : Server) : List Event → Except JsErr Server
  | [] => .ok s
  | e :: es =>
    match step env s e with
    | .error err => .error err
    | .ok s1 => run env s1 es

/-- The event is a `start_stream` request on connection `ws`. -/
def Event.startsOn (ws : Conn) : Event → Bool
  | .message c (some request) => decide (c = ws) && strictEqStr (request.field "action") "start_stream"
  | _ => false

/-- The `stream_data` messages sent on `ws`, as the `dataType` tags they
carry, oldest first. -/
def dataTags (ws : Conn) (sent : List (Conn × ServerMsg)) : List (Option JVal) :=
  sent.filterMap fun p =>
    match p.2 with
    | .stream_data dataType _ _ => if p.1 = ws then some dataType else none
    | _ => none

/-- The number of `stream_stopped` acknowledgements sent on `ws`. -/
def stoppedCount (ws : Conn) (sent : List (Conn × ServerMsg)) : Nat :=
  (sent.filter fun p =>
    match p.2 with
    | .stream_stopped => decide (p.1 = ws)
    | _ => false).length

/-- A `start_stream` request object. -/
def startRequest (dataType : JVal) (interval : JVal) (options : JVal) : JVal :=
  .obj [("action", .str "start_stream"), ("dataType", dataType), ("interval", interval),
        ("options", options)]

/-- The `stop_stream` request object. -/
def stopRequest : JVal := .obj [("action", .str "stop_stream")]

/-! ## Client: map mode, map view and one-shot generation (`src/public/app.js`) -/

namespace JNum

/-- The product `n * k` with a positive finite constant `k`. -/
def mulPos (n : JNum) (k : ℚ) : JNum :=
  match n with
  | fin q => fin (q * k)
  | other => other

/-- The quotient `n / k` by a positive finite constant `k`. -/
def divPos (n : JNum) (k : ℚ) : JNum :=
  match n with
  | fin q => fin (q / k)
  | other => other

/-- The difference `n - k` with a finite constant `k`. -/
def subConst (n : JNum) (k : ℚ) : JNum :=
  match n with
  | fin q => fin (q - k)
  | other => other

end JNum

/-- What the map-mode code reads from the page: the value of the element
`mapVisualizationMode` (`none` when the page has no such element), the
`data-map-mode` buttons in document order with their `active` class, and the
`mapMode` entry of `localStorage`. -/
structure Dom where
  mapModeSelect : Option String
  modeButtons : List (String × Bool)
  savedMode : Option String

/-- The function `setMapMode`. -/
def setMapMode (dom : Dom) (mode : String) : Dom :=
  { dom with savedMode := some mode,
             modeButtons := dom.modeButtons.map fun b => (b.1, decide (b.1 = mode)) }

/-- The function `getMapMode`: the mode of the first active button, else the
saved mode, else `points`. -/
def getMapMode (dom : Dom) : String :=
  match dom.modeButtons.find? (fun b => b.2) with
  | some active => active.1
  | none =>
    match dom.savedMode with
    | some saved => if saved ≠ "" then saved else "points"
    | none => "points"

/-- The set `pointHeavyTypes` of `maybeSwitchToHeatmap`. -/
def pointHeavyTypes : List String := ["geo", "traffic", "iot", "transport"]

/-- The function `maybeSwitchToHeatmap` (the notification is not modelled). -/
def maybeSwitchToHeatmap (dom : Dom) (dataType : String) (count : Nat) : Dom :=
  match dom.mapModeSelect with
  | none => dom
  | some value =>
    if decide (dataType ∈ pointHeavyTypes) && decide (count > 2000) && decide (value = "points")
    then { dom with mapModeSelect := some "heatmap" }
    else dom

/-- The function `clearMapMarkers`. -/
def clearMapMarkers (c : Client) : Client :=
  { c with mapMarkers := [], heatmapLayer := none }

/-- The position chain of the heatmap branch of `updateMapView` (lines
660-672): the values of `lat` and `lng` after it. -/
def heatPosition (item : Option JVal) : Option JVal × Option JVal :=
  let location := field? item "location"
  let coordinates := field? item "coordinates"
  let current_location := field? item "current_location"
  if truthy? (field? item "lat") && truthy? (field? item "lng") then
    (field? item "lat", field? item "lng")
  else if truthy? location then
    (field? location "lat", field? location "lng")
  else if truthy? coordinates && truthy? (field? coordinates "start") then
    (field? (field? coordinates "start") "lat", field? (field? coordinates "start") "lng")
  else if truthy? current_location then
    (field? current_location "lat", field? current_location "lng")
  else (none, none)

/-- The intensity chain of the heatmap branch (lines 676-686), default 1. -/
def heatIntensity (env : Env) (item : Option JVal) : JNum :=
  if truthy? (field? item "population_density") then
    (toNumber env (field? item "population_density")).divPos 100
  else if truthy? (field? item "congestion_level") then
    (toNumber env (field? item "congestion_level")).mulPos 10
  else if truthy? (field? item "temperature") then
    ((toNumber env (field? item "temperature")).subConst 10).mulPos 2
  else if truthy? (field? item "air_quality_index") then
    (toNumber env (field? item "air_quality_index")).divPos 20
  else if (field? item "occupancy").isSome then
    (toNumber env (field? item "occupancy")).divPos 10
  else .fin 1

/-- The point that a record contributes to `heatmapData`, if any: the test
`if (lat && lng)` and the push of `[lat, lng, Math.min(intensity, 10)]`. -/
def heatPoint (env : Env) (item : Option JVal) : Option HeatPoint :=
  let pos := heatPosition item
  if truthy? pos.1 && truthy? pos.2 then
    some { lat := pos.1, lng := pos.2, weight := JNum.min (heatIntensity env item) (.fin 10) }
  else none

/-- The loop `data.forEach` of the heatmap branch: reading `item.lat` on a
`null` or `undefined` item throws. -/
def heatmapData (env : Env) : List (Option JVal) → Except JsErr (List HeatPoint)
  | [] => .ok []
  | item :: rest =>
    match getProp? item "lat" with
    | .error e => .error e
    | .ok _ =>
      match heatmapData env rest with
      | .error e => .error e
      | .ok points => .ok ((heatPoint env item).toList ++ points)

/-- The points handed to `L.heatLayer`: the last 5000 when there are more. -/
def limitHeat (heatmapData : List HeatPoint) : List HeatPoint :=
  if heatmapData.length > 5000 then sliceLast 5000 heatmapData else heatmapData

/-- One record of the points branch of `updateMapView` (lines 714-739). A
segment is drawn as a line and pushed to `mapMarkers` directly; reading
`item.coordinates.end.lat` throws when the segment has no `end`. -/
def placePoint (c : Client) (item : Option JVal) : Client × Option JsErr :=
  match getProp? item "lat" with
  | .error e => (c, some e)
  | .ok _ =>
    let location := field? item "location"
    let coordinates := field? item "coordinates"
    let current_location := field? item "current_location"
    if truthy? (field? item "lat") && truthy? (field? item "lng") then
      (addMapMarker c (field? item "lat") (field? item "lng") item, none)
    else if truthy? location then
      (addMapMarker c (field? location "lat") (field? location "lng") item, none)
    else if truthy? coordinates then
      let start := field? coordinates "start"
      if truthy? start then
        match getProp? (field? coordinates "end") "lat" with
        | .error e => (c, some e)
        | .ok _ =>
          let polyline := Primitive.polyline (field? start "lat") (field? start "lng")
            (field? (field? coordinates "end") "lat") (field? (field? coordinates "end") "lng")
            item
          ({ c with mapMarkers := c.mapMarkers ++ [polyline] }, none)
      else (c, none)
    else if truthy? current_location then
      (addMapMarker c (field? current_location "lat") (field? current_location "lng") item,
        none)
    else (c, none)

/-- The loop `data.forEach` of the points branch; an exception ends it. -/
def placePoints (c : Client) : List (Option JVal) → Client × Option JsErr
  | [] => (c, none)
  | item :: rest =>
    match placePoint c item with
    | (c1, some e) => (c1, some e)
    | (c1, none) => placePoints c1 rest

/-- The function `updateMapView`, with the page it reads the mode from. The
result is the state left behind and the exception raised, if any. The
validity test of the Leaflet bounds is outside the model. -/
def updateMapView (env : Env) (dom : Dom) (c : Client) (data : List (Option JVal)) :
    Client × Option JsErr :=
  let c0 := clearMapMarkers c
  if getMapMode dom = "heatmap" then
    match heatmapData env data with
    | .error e => (c0, some e)
    | .ok heat =>
      if heat.length > 0 then
        let limited := limitHeat heat
        ({ c0 with heatmapLayer := some limited,
                   mapFrames := c0.mapFrames ++
                     [Framing.toPoints (limited.map fun p => (p.lat, p.lng))] }, none)
      else ({ c0 with mapFrames := c0.mapFrames ++ [Framing.toCenter] }, none)
  else
    match placePoints c0 data with
    | (c1, some e) => (c1, some e)
    | (c1, none) =>
      if c1.mapMarkers.length > 0 then
        ({ c1 with mapFrames := c1.mapFrames ++ [Framing.toMarkers c1.mapMarkers] }, none)
      else ({ c1 with mapFrames := c1.mapFrames ++ [Framing.toCenter] }, none)

/-- The function `visualizeData`: the map view, then the chart, table and raw
views on the whole data set. -/
def visualizeData (env : Env) (dom : Dom) (c : Client) (data : List (Option JVal)) :
    Client × Option JsErr :=
  match updateMapView env dom c data with
  | (c1, some e) => (c1, some e)
  | (c1, none) => ({ c1 with chartInput := data, tableInput := data, rawInput := data }, none)

/-- The success path of the one-shot `generateData` of the client (lines
372-378): store the records, call `maybeSwitchToHeatmap`, visualise. -/
def generateStatic (env : Env) (dom : Dom) (c : Client) (dataType : String)
    (data : List (Option JVal)) : Dom × Client × Option JsErr :=
  let c1 := storeGenerated c data
  let dom1 := maybeSwitchToHeatmap dom dataType c1.currentData.length
  (dom1, visualizeData env dom1 c1 data)

/-- The rows that `updateTableView` renders: `data.slice(0, MAX_TABLE_ROWS)`. -/
def tableRows (c : Client) : List (Option JVal) :=
  c.tableInput.take MAX_TABLE_ROWS

/-- A sequence of `addMapMarker` calls, each with its position and record. -/
def addMarkers (c : Client) (items : List (Option JVal × Option JVal × Option JVal)) : Client :=
  items.foldl (fun st m => addMapMarker st m.1 m.2.1 m.2.2) c

/-- The clock values at which the handler ran the throttled view update while
receiving `frames`: the frames on which `lastUiUpdate` was rewritten. -/
def viewUpdateTimes (c : Client) : List (Int × Option JVal) → List Int
  | [] => []
  | f :: rest =>
    (if (onmessage c f.1 f.2).1.lastUiUpdate ≠ c.lastUiUpdate then [f.1] else []) ++
      viewUpdateTimes (onmessage c f.1 f.2).1 rest

/-- A streamed record is a data object here when it is defined and not
`null`, so that reading its properties does not throw. -/
def isRecord (data : Option JVal) : Prop :=
  ∃ v, data = some v ∧ v ≠ JVal.null

/-- A page with the two mode buttons, `points` active, and a mode selector
showing `points`. -/
def pointsDom : Dom :=
  { mapModeSelect := some "points",
    modeButtons := [("points", true), ("heatmap", false)],
    savedMode := some "points" }

/-- A traffic segment with both ends and nothing else. -/
def segmentRecord : JVal :=
  .obj [("coordinates", .obj
    [("start", .obj [("lat", .num (.fin 50)), ("lng", .num (.fin 7))]),
     ("end", .obj [("lat", .num (.fin 51)), ("lng", .num (.fin 8))])])]

/-- A public-transport record: its position is under `current_location`. -/
def transportRecord : JVal :=
  .obj [("vehicle_id", .str "v1"), ("type", .str "bus"),
        ("current_location", .obj [("lat", .num (.fin 50)), ("lng", .num (.fin 7))]),
        ("occupancy", .num (.fin 40))]

/-- A geo record on the equator: `lat` is the number 0. -/
def equatorRecord : JVal :=
  .obj [("id", .str "a"), ("lat", .num (.fin 0)), ("lng", .num (.fin 7))]

/-- A page with the two mode buttons, `heatmap` active. -/
def heatDom : Dom :=
  { mapModeSelect := none,
    modeButtons := [("points", false), ("heatmap", true)],
    savedMode := some "heatmap" }

/-- Two client states agree on the buffer, the throttle clock and the inputs of
the chart, table and raw views. -/
def SameViews (a b : Client) : Prop :=
  a.currentData = b.currentData ∧ a.lastUiUpdate = b.lastUiUpdate ∧
  a.chartInput = b.chartInput ∧ a.tableInput = b.tableInput ∧ a.rawInput = b.rawInput

/-! ## Client: stream session, auto-fit controller, clamp, export, buttons -/

/-- The function `clamp` of the client: `min` when `Number(num)` is NaN, else
`Math.max(min, Math.min(max, n))`. -/
def clamp (env : Env) (num : Option JVal) (min max : ℚ) : JNum :=
  let n := toNumber env num
  if n = JNum.nan then .fin min else JNum.max (.fin min) (JNum.min (.fin max) n)

/-- What `ws.onopen` leaves behind: the client state, the value assigned to
the interval input (`intervalInput.value = interval`) and the frame sent. -/
structure Opened where
  client : Client
  inputValue : JNum
  request : JVal

namespace Client

/-- The function `startStream` of the client (lines 450-464), up to the
installation of the handlers: the old socket, if any, is told to close (its
close event comes later), a new socket becomes `ws`, the auto-fit timeout is
cancelled, and the auto-fit controller is armed with no points. -/
def startStream (c : Client) : Client :=
  { clearAutoFitTimer c with
    ws := some c.nextSocket, nextSocket := c.nextSocket + 1,
    autoFitPending := true, autoFitPoints := [] }

/-- The handler `ws.onopen`: the value `interval` it computes from the interval
input, writes back to that input and sends in the `start_stream` frame, and the
state after `setTimeout` has scheduled the fallback auto-fit. -/
def onopen (env : Env) (c : Client) (intervalValue : String) (dataType options : JVal) :
    Opened :=
  let interval := clamp env (some (.str intervalValue)) 100 10000
  { client := { c with autoFitTimer := some c.nextHandle,
                       timeouts := c.timeouts ++ [c.nextHandle],
                       nextHandle := c.nextHandle + 1 }
    inputValue := interval
    request := startRequest dataType (.num interval) options }

/-- The callback of the fallback timeout (lines 483-488). -/
def fallbackAutoFit (c : Client) : Client :=
  if c.autoFitPending && decide (c.autoFitPoints.length > 0) then
    { tryFitToPoints c c.autoFitPoints with autoFitPending := false }
  else c

/-- The timeout with handle `handle` comes due: its callback runs if the
timeout is still scheduled, and never again. -/
def fireTimeout (c : Client) (handle : Nat) : Client :=
  if handle ∈ c.timeouts then
    fallbackAutoFit { c with timeouts := c.timeouts.filter (fun h => h ≠ handle) }
  else c

/-- The handler `ws.onclose` (lines 518-526), of the held socket or of one
that `startStream` replaced: it works on the globals. -/
def onclose (c : Client) : Client :=
  { clearAutoFitTimer c with autoFitPending := false }

/-- The function `stopStream` of the client: the socket is told to stop and
close, and `ws` is reset. -/
def stopStream (c : Client) : Client :=
  { c with ws := none }

end Client

/-- An event of a stream session on the client after its socket has opened:
an inbound frame with its clock value, a timeout coming due, or a close
event. -/
inductive SessionEvent where
  | message (now : Int) (frame : Option JVal)
  | timeout (handle : Nat)
  | close

/-- One session event handled in state `c`. -/
def sessionStep (c : Client) : SessionEvent → Client
  | .message now frame => (onmessage c now frame).1
  | .timeout handle => c.fireTimeout handle
  | .close => c.onclose

/-- A sequence of session events handled in order. -/
def runSession (c : Client) (events : List SessionEvent) : Client :=
  events.foldl sessionStep c

/-- The session events of a sequence of inbound frames, each with its clock
value. -/
def messageEvents (frames : List (Int × Option JVal)) : List SessionEvent :=
  frames.map fun f => SessionEvent.message f.1 f.2

/-- The client after `startStream` and the open event of the new socket. -/
def openStream (env : Env) (c : Client) (intervalValue : String) (dataType options : JVal) :
    Client :=
  (c.startStream.onopen env intervalValue dataType options).client

/-- The auto-fit controller's part of the client state: the pending flag, the
collected points, the timer handle, the scheduled timeouts and the fits
made. -/
def autoFitState (c : Client) :
    Bool × List (Option JVal × Option JVal) × Option Nat × List Nat ×
      List (List (Option JVal × Option JVal)) :=
  (c.autoFitPending, c.autoFitPoints, c.autoFitTimer, c.timeouts, c.fitCalls)

/-- The position that `updateStreamVisualization` finds on a record, if any:
direct `lat`/`lng`, else `location`, else `coordinates.start`. -/
def streamPosition (data : Option JVal) : Option (Option JVal × Option JVal) :=
  if truthy? (field? data "lat") && truthy? (field? data "lng") then
    some (field? data "lat", field? data "lng")
  else if truthy? (field? data "location") then
    some (field? (field? data "location") "lat", field? (field? data "location") "lng")
  else if truthy? (field? data "coordinates") then
    if truthy? (field? (field? data "coordinates") "start") then
      some (field? (field? (field? data "coordinates") "start") "lat",
            field? (field? (field? data "coordinates") "start") "lng")
    else none
  else none

/-- The finite coordinate pair that an inbound frame offers to the auto-fit
controller, as a list of at most one element. -/
def frameCoords (frame : Option JVal) : List (Option JVal × Option JVal) :=
  if strictEqStr (field? frame "type") "stream_data" then
    match streamPosition (frameData frame) with
    | some p => if isFiniteNumber p.1 && isFiniteNumber p.2 then [p] else []
    | none => []
  else []

/-- The finite coordinate pairs that the frames of a session offer, in
arrival order. -/
def sessionCoords : List SessionEvent → List (Option JVal × Option JVal)
  | [] => []
  | .message _ frame :: rest => frameCoords frame ++ sessionCoords rest
  | _ :: rest => sessionCoords rest

/-- The state of the two controls that `setButtonsEnabled` writes: the
`disabled` flag of the generate button and of the stop button, `none` when
the page has no such button. -/
structure Buttons where
  generateDisabled : Option Bool
  stopDisabled : Option Bool

/-- The function `setButtonsEnabled`, with the global `ws` it reads. -/
def setButtonsEnabled (b : Buttons) (enabled : Bool) (ws : Option Nat) : Buttons :=
  { generateDisabled := b.generateDisabled.map fun _ => !enabled
    stopDisabled := b.stopDisabled.map fun _ => !enabled && ws.isNone }

/-- The test `typeof v === 'object' && v !== null`. -/
def isObject : JVal → Bool
  | .arr _ => true
  | .obj _ => true
  | _ => false

/-- The assignment `flat[k] = v` on a row: an existing column keeps its
place. -/
def setProp (flat : List (String × JVal)) (k : String) (v : JVal) : List (String × JVal) :=
  if flat.any (fun p => p.1 = k) then flat.map (fun p => if p.1 = k then (k, v) else p)
  else flat ++ [(k, v)]

/-- The properties that `for (const key in item)` visits, in order. The
property list of an object stands for its enumeration order. -/
def ownEntries : Option JVal → List (String × JVal)
  | some (.obj kvs) => kvs
  | some (.arr xs) => xs.enum.map fun p => (toString p.1, p.2)
  | some (.str s) => s.toList.enum.map fun p => (toString p.1, JVal.str (String.singleton p.2))
  | _ => []

/-- The body of the loop of `exportCSV` (lines 1264-1273) for one property;
`stringify` is `JSON.stringify`. -/
def flattenInto (stringify : JVal → String) (flat : List (String × JVal))
    (entry : String × JVal) : List (String × JVal) :=
  if isObject entry.2 then
    match entry.2.field "lat", entry.2.field "lng" with
    | some lat, some lng => setProp (setProp flat (entry.1 ++ "_lat") lat) (entry.1 ++ "_lng") lng
    | _, _ => setProp flat entry.1 (.str (stringify entry.2))
  else setProp flat entry.1 entry.2

/-- The row that `exportCSV` makes of one record. -/
def flattenItem (stringify : JVal → String) (item : Option JVal) : List (String × JVal) :=
  (ownEntries item).foldl (flattenInto stringify) []

/-- The rows that `exportCSV` hands to the CSV writer. -/
def flattenedData (stringify : JVal → String) (c : Client) : List (List (String × JVal)) :=
  c.currentData.map (flattenItem stringify)

/-- The columns that one property contributes to the row: two for a nested
object with `lat` and `lng`, else one. -/
def columnsOf (stringify : JVal → String) (entry : String × JVal) : List (String × JVal) :=
  if isObject entry.2 then
    match entry.2.field "lat", entry.2.field "lng" with
    | some lat, some lng => [(entry.1 ++ "_lat", lat), (entry.1 ++ "_lng", lng)]
    | _, _ => [(entry.1, .str (stringify entry.2))]
  else [(entry.1, entry.2)]

/-- A record with a position and a congestion level of 0. -/
def freeFlowRecord : JVal :=
  .obj [("lat", .num (.fin 50)), ("lng", .num (.fin 7)), ("congestion_level", .num (.fin 0))]

/-- A record with a position and a temperature of 5 degrees. -/
def coldRecord : JVal :=
  .obj [("lat", .num (.fin 50)), ("lng", .num (.fin 7)), ("temperature", .num (.fin 5))]

/-- An emergency-like record: a scalar field, a nested position and a nested
list. -/
def incidentRow : JVal :=
  .obj [("status", .str "reported"),
        ("location", .obj [("lat", .num (.fin 50)), ("lng", .num (.fin 7))]),
        ("units", .arr [.num (.fin 1)])]

/-- A record with a nested position `location` after a scalar field named
`location_lat`. -/
def overlappingRow : JVal :=
  .obj [("location_lat", .num (.fin 3)),
        ("location", .obj [("lat", .num (.fin 50)), ("lng", .num (.fin 7))])]

/-- The invariant of the auto-fit controller over a stream session that began
with the fits `base`, where `coords` are the finite coordinates offered so far:
the collected points are the first of the coordinates, at most 12; while
pending, every coordinate has been collected, there are fewer than 12 and no
fit was made; and at most one fit was made, with the collected points. -/
structure AutoFitInv (base : List (List (Option JVal × Option JVal)))
    (coords : List (Option JVal × Option JVal)) (c : Client) : Prop where
  collected : ∃ t, coords = c.autoFitPoints ++ t
  bounded : c.autoFitPoints.length ≤ 12
  pending : c.autoFitPending = true →
    c.autoFitPoints = coords ∧ c.autoFitPoints.length < 12 ∧ c.fitCalls = base
  once : c.fitCalls = base ∨
    (c.fitCalls = base ++ [c.autoFitPoints] ∧ 0 < c.autoFitPoints.length ∧
      c.autoFitPending = false)

/-- The registry and the timers agree: every live timer is the one registered
for its connection, every registered handle is a live timer of that
connection, and handles are distinct and below the next fresh one. -/
structure Server.WF (s : Server) : Prop where
  registered : ∀ t ∈ s.timers, s.get t.ws = some t.id
  live : ∀ ws id, s.get ws = some id → ∃ t ∈ s.timers, t.id = id ∧ t.ws = ws
  fresh : ∀ t ∈ s.timers, t.id < s.nextTimer
  distinct : (s.timers.map Timer.id).Nodup

/-- The timer that a `start_stream` request installs in state `s`. -/
def startTimer (env : Env) (s : Server) (ws : Conn) (request : JVal) : Timer :=
  { id := s.nextTimer, ws := ws, dataType := request.field "dataType",
    options := (request.field "options").getD (.obj []),
    safeInterval := safeInterval env (some ((request.field "interval").getD (.num (.fin 1000)))) }

/-- A concrete environment: every drawn value is the name of its field, no
random test succeeds, only numbers convert to numbers, and `arrayElement`
returns the first element. -/
def sampleEnv : Env :=
  { value := fun _ k => .str k
    chance := fun _ _ => false
    stringToNumber := fun _ => .nan
    objectToNumber := fun _ => .nan
    now := 0
    dateOfValue := fun _ => none
    setHours := fun t _ => some (t + 3600000)
    arrayElement := fun xs _ =>
      match xs with
      | .arr (x :: _) => some (some x)
      | _ => none
    timestamp := .str "2024-01-01T00:00:00.000Z" }

/-- The number of records the financial generator returns for `count`, by
`options.dataType`: `count` for transactions (the default), the eight budget
lines for `budget`, none for any other value. -/
def financialCount (options : JVal) (count : Nat) : Nat :=
  match options.field "dataType" with
  | none => count
  | some v =>
    if strictEqStr (some v) "transactions" then count
    else if strictEqStr (some v) "budget" then 8
    else 0

/-- What `JSON.stringify` writes for a property of an object literal: nothing
when the value is `undefined`. -/
def jsonProp (k : String) (v : Option JVal) : List (String × JVal) :=
  match v with
  | none => []
  | some w => [(k, w)]

/-- The frame that the client's `JSON.parse` reads from a message the server
sent with `ws.send(JSON.stringify(...))` (server.js lines 497-502, 511-515 and
522): a property whose value is `undefined` is left out, and a number that is
not finite is written as `null`. -/
def ServerMsg.toFrame : ServerMsg → JVal
  | .stream_started dataType interval =>
    .obj ([("type", .str "stream_started")] ++ jsonProp "dataType" dataType ++
      [("interval", match interval with
                    | .fin q => .num (.fin q)
                    | _ => .null)])
  | .stream_data dataType data timestamp =>
    .obj ([("type", .str "stream_data")] ++ jsonProp "dataType" dataType ++
      jsonProp "data" data ++ [("timestamp", timestamp)])
  | .stream_stopped => .obj [("type", .str "stream_stopped")]

/-- A `stream_data` frame carrying `data`. -/
def streamDataFrame (data : JVal) : Option JVal :=
  some (.obj [("type", .str "stream_data"), ("dataType", .str "geo"), ("data", data)])

/-! ## Theorems: the client ingest buffer -/

theorem sliceLast_length {α : Type} (n : Nat) (xs : List α) :
    (sliceLast n xs).length = Nat.min xs.length n := by
  simp only [sliceLast, List.length_drop]
  show xs.length - (xs.length - n) = min xs.length n
  omega

theorem ingest_sliceLast (xs : List (Option JVal)) (r : Option JVal) :
    ingest (sliceLast 1000 xs) r = sliceLast 1000 (xs ++ [r]) := by
  unfold ingest sliceLast
  by_cases h : xs.length < 1000
  · have h0 : xs.length - 1000 = 0 := by omega
    have h1 : (xs ++ [r]).length - 1000 = 0 := by simp; omega
    simp only [h0, h1, List.drop_zero]
    have h2 : ¬ (xs ++ [r]).length > 1000 := by simp; omega
    simp only [h2, if_false]
  · have hlen : (List.drop (xs.length - 1000) xs ++ [r]).length > 1000 := by
      simp only [List.length_append, List.length_drop, List.length_singleton]; omega
    simp only [hlen, if_true]
    have hne : List.drop (xs.length - 1000) xs ≠ [] := by
      intro hnil
      have := congrArg List.length hnil
      simp only [List.length_drop, List.length_nil] at this
      omega
    rw [List.tail_append_of_ne_nil hne, List.tail_drop]
    have h3 : (xs ++ [r]).length - 1000 = xs.length - 1000 + 1 := by
      simp only [List.length_append, List.length_singleton]; omega
    rw [h3, List.drop_append_of_le_length (by omega)]

theorem ingest_getLast (buf : List (Option JVal)) (r : Option JVal) :
    (ingest buf r).getLast? = some r := by
  unfold ingest
  dsimp only
  split
  · rename_i h
    cases buf with
    | nil => simp at h
    | cons b bs => simp [List.getLast?_append]
  · simp [List.getLast?_append]

theorem ingest_length (buf : List (Option JVal)) (r : Option JVal) :
    (ingest buf r).length = if 1000 ≤ buf.length then buf.length else buf.length + 1 := by
  unfold ingest
  dsimp only
  by_cases h : 1000 ≤ buf.length
  · have h1 : (buf ++ [r]).length > 1000 := by
      simp only [List.length_append, List.length_singleton]; omega
    rw [if_pos h1, if_pos h, List.length_tail, List.length_append, List.length_singleton]
    omega
  · have h1 : ¬ (buf ++ [r]).length > 1000 := by
      simp only [List.length_append, List.length_singleton]; omega
    rw [if_neg h1, if_neg h, List.length_append, List.length_singleton]

theorem addMapMarker_currentData (c : Client) (lat lng item : Option JVal) :
    (addMapMarker c lat lng item).currentData = c.currentData := rfl

/-- Cancelling the auto-fit timeout touches only the timeout list and the
global that holds the handle. -/
theorem clearAutoFitTimer_fields (c : Client) :
    (clearAutoFitTimer c).currentData = c.currentData ∧
    (clearAutoFitTimer c).mapMarkers = c.mapMarkers ∧
    (clearAutoFitTimer c).lastUiUpdate = c.lastUiUpdate ∧
    (clearAutoFitTimer c).chartInput = c.chartInput ∧
    (clearAutoFitTimer c).tableInput = c.tableInput ∧
    (clearAutoFitTimer c).rawInput = c.rawInput ∧
    (clearAutoFitTimer c).fitCalls = c.fitCalls ∧
    (clearAutoFitTimer c).autoFitPending = c.autoFitPending ∧
    (clearAutoFitTimer c).autoFitPoints = c.autoFitPoints := by
  unfold clearAutoFitTimer
  split <;> exact ⟨rfl, rfl, rfl, rfl, rfl, rfl, rfl, rfl, rfl⟩

theorem collectAutoFitPoint_currentData (c : Client) (lat lng : Option JVal) :
    (collectAutoFitPoint c lat lng).currentData = c.currentData := by
  unfold collectAutoFitPoint
  dsimp only
  split
  · rfl
  · split
    · rw [(clearAutoFitTimer_fields _).1]
      unfold tryFitToPoints
      split <;> rfl
    · rfl

theorem placeStreamMarker_currentData (c : Client) (lat lng item : Option JVal) :
    (placeStreamMarker c lat lng item).currentData = c.currentData := by
  unfold placeStreamMarker
  dsimp only
  split
  · rw [collectAutoFitPoint_currentData, addMapMarker_currentData]
  · rfl

theorem throttledViews_currentData (c : Client) (now : Int) :
    (throttledViews c now).currentData = c.currentData := by
  unfold throttledViews
  split <;> rfl

theorem updateStreamVisualization_currentData (c : Client) (now : Int)
    (newData : Option JVal) :
    (updateStreamVisualization c now newData).1.currentData = c.currentData := by
  unfold updateStreamVisualization
  split
  · rfl
  · simp only [throttledViews_currentData]
    split_ifs <;> simp only [placeStreamMarker_currentData]

theorem onmessage_currentData (c : Client) (now : Int) (frame : Option JVal)
    (h : isStreamData frame) :
    (onmessage c now frame).1.currentData = ingest c.currentData (frameData frame) := by
  obtain ⟨message, rfl, hnull, htype⟩ := h
  have hget : message.getProp "type" = .ok (message.field "type") := by
    cases message <;> first | rfl | exact absurd rfl hnull
  simp only [onmessage, hget, htype, if_true, updateStreamVisualization_currentData,
    frameData, field?]

theorem receiveAll_currentData (frames : List (Int × Option JVal)) :
    ∀ (c : Client) (pre : List (Option JVal)),
      (∀ f ∈ frames, isStreamData f.2) →
      c.currentData = sliceLast 1000 pre →
      (receiveAll c frames).currentData =
        sliceLast 1000 (pre ++ frames.map fun f => frameData f.2) := by
  induction frames with
  | nil => intro c pre _ hc; simpa [receiveAll] using hc
  | cons f fs ih =>
    intro c pre hall hc
    have hf : isStreamData f.2 := hall f (List.mem_cons_self _ _)
    have hrest : ∀ g ∈ fs, isStreamData g.2 := fun g hg => hall g (List.mem_cons_of_mem _ hg)
    have hstep : (onmessage c f.1 f.2).1.currentData =
        sliceLast 1000 (pre ++ [frameData f.2]) := by
      rw [onmessage_currentData c f.1 f.2 hf, hc, ingest_sliceLast]
    have := ih (onmessage c f.1 f.2).1 (pre ++ [frameData f.2]) hrest hstep
    simpa [receiveAll, List.append_assoc] using this

/-- C1: starting from the empty buffer, after any sequence of N `stream_data`
messages the buffer holds exactly the most recent min(N, 1000) records in
arrival order and has that length; and in any state, at any clock value
(throttled or not), the record of a `stream_data` message is inserted as the
newest element of the buffer. -/
theorem ingest_buffer_most_recent (frames : List (Int × Option JVal))
    (h : ∀ f ∈ frames, isStreamData f.2) :
    (receiveAll Client.init frames).currentData =
        sliceLast 1000 (frames.map fun f => frameData f.2) ∧
    (receiveAll Client.init frames).currentData.length = Nat.min frames.length 1000 ∧
    (∀ (c : Client) (now : Int) (frame : Option JVal), isStreamData frame →
        (onmessage c now frame).1.currentData = ingest c.currentData (frameData frame) ∧
        (onmessage c now frame).1.currentData.getLast? = some (frameData frame)) := by
  have hmain := receiveAll_currentData frames Client.init [] h (by simp [Client.init, sliceLast])
  simp only [List.nil_append] at hmain
  refine ⟨hmain, ?_, ?_⟩
  · rw [hmain, sliceLast_length, List.length_map]
  · intro c now frame hf
    rw [onmessage_currentData c now frame hf]
    exact ⟨rfl, ingest_getLast _ _⟩

theorem streamDataFrame_isStreamData (data : JVal) : isStreamData (streamDataFrame data) :=
  ⟨_, rfl, fun h => JVal.noConfusion h, by simp [JVal.field, List.lookup, strictEqStr]⟩


/-- Witness of C1: two messages into the empty buffer. -/
theorem ingest_buffer_most_recent_witness :
    (receiveAll Client.init
        [(0, streamDataFrame (.num (.fin 1))), (50, streamDataFrame (.num (.fin 2)))]).currentData
      = sliceLast 1000 ([(0, streamDataFrame (.num (.fin 1))),
          (50, streamDataFrame (.num (.fin 2)))].map fun f => frameData f.2) :=
  (ingest_buffer_most_recent
    [(0, streamDataFrame (.num (.fin 1))), (50, streamDataFrame (.num (.fin 2)))]
    (by
      intro f hf
      simp only [List.mem_cons, List.mem_singleton, List.not_mem_nil, or_false] at hf
      rcases hf with rfl | rfl <;> exact streamDataFrame_isStreamData _)).1

/-- C2 (the code at the failing input): a one-shot generation has stored 1001
records; after the next streamed record is inserted the buffer still holds
1001 records, because the handler shifts once instead of shifting down to
1000. -/
theorem ingest_after_oneshot_exceeds_cap :
    (onmessage (storeGenerated Client.init (List.replicate 1001 (some JVal.null))) 0
        (streamDataFrame (.obj []))).1.currentData.length = 1001 := by
  rw [onmessage_currentData _ _ _ (streamDataFrame_isStreamData _), ingest_length]
  simp only [storeGenerated, List.length_replicate]
  decide

/-! ## Theorems: the stream session registry -/

theorem lookup_filter_ne (ws c : Conn) (l : List (Conn × Nat)) :
    (l.filter (fun p => p.1 ≠ ws)).lookup c = if c = ws then none else l.lookup c := by
  induction l with
  | nil => simp
  | cons a l ih =>
    obtain ⟨a1, a2⟩ := a
    simp only [ne_eq, decide_not] at ih ⊢
    by_cases h : a1 = ws
    · subst h
      have hf : List.filter (fun p : Conn × Nat => !decide (p.1 = a1)) ((a1, a2) :: l)
          = List.filter (fun p => !decide (p.1 = a1)) l := by
        simp [List.filter_cons]
      rw [hf, ih]
      by_cases hc : c = a1
      · simp [hc]
      · have : (c == a1) = false := by simpa using hc
        simp [hc, List.lookup_cons, this]
    · have hf : List.filter (fun p : Conn × Nat => !decide (p.1 = ws)) ((a1, a2) :: l)
          = (a1, a2) :: List.filter (fun p => !decide (p.1 = ws)) l := by
        simp [List.filter_cons, h]
      rw [hf]
      by_cases hc : c = a1
      · subst hc
        simp [h, List.lookup_cons]
      · have : (c == a1) = false := by simpa using hc
        simp only [List.lookup_cons, this, ih]

theorem Server.get_delete (s : Server) (ws c : Conn) :
    (s.delete ws).get c = if c = ws then none else s.get c :=
  lookup_filter_ne ws c s.activeStreams

theorem Server.get_set (s : Server) (ws c : Conn) (id : Nat) :
    (s.set ws id).get c = if c = ws then some id else s.get c := by
  unfold Server.set Server.get
  by_cases hc : c = ws
  · subst hc
    simp [List.lookup_cons]
  · have : (c == ws) = false := by simpa using hc
    simp only [List.lookup_cons, this, lookup_filter_ne, if_neg hc]

theorem Server.clear_if_has (s : Server) (ws : Conn) :
    (if s.has ws then s.clearInterval (s.get ws) else s) = s.clearInterval (s.get ws) := by
  unfold Server.has
  cases h : s.get ws with
  | none => simp [Server.clearInterval]
  | some id => simp

theorem Server.WF.timer_eq {s : Server} (h : s.WF) {a b : Timer}
    (ha : a ∈ s.timers) (hb : b ∈ s.timers) (hid : a.id = b.id) : a = b :=
  List.inj_on_of_nodup_map h.distinct ha hb hid

theorem Server.WF.ws_iff_id {s : Server} (h : s.WF) {ws : Conn} {old : Nat}
    (hget : s.get ws = some old) {t : Timer} (ht : t ∈ s.timers) :
    t.id = old ↔ t.ws = ws := by
  constructor
  · intro hid
    obtain ⟨u, hu, huid, huws⟩ := h.live ws old hget
    have : t = u := h.timer_eq ht hu (hid.trans huid.symm)
    rw [this]; exact huws
  · intro hws
    have := h.registered t ht
    rw [hws, hget] at this
    exact (Option.some.inj this).symm

theorem Server.WF.timers_clear {s : Server} (h : s.WF) (ws : Conn) :
    (s.clearInterval (s.get ws)).timers = s.timers.filter (fun t => t.ws ≠ ws) := by
  cases hget : s.get ws with
  | none =>
    simp only [Server.clearInterval]
    symm
    rw [List.filter_eq_self]
    intro t ht
    have := h.registered t ht
    have hne : t.ws ≠ ws := by
      intro hws
      rw [hws, hget] at this
      cases this
    simpa using hne
  | some old =>
    simp only [Server.clearInterval]
    apply List.filter_congr
    intro t ht
    have := h.ws_iff_id hget ht
    by_cases hid : t.id = old
    · have hws := this.mp hid
      simp [hid, hws]
    · have hws : t.ws ≠ ws := fun hw => hid (this.mpr hw)
      simp [hid, hws]

theorem Server.clear_rest (s : Server) (h : Option Nat) :
    (s.clearInterval h).activeStreams = s.activeStreams ∧
    (s.clearInterval h).nextTimer = s.nextTimer ∧
    (s.clearInterval h).sent = s.sent := by
  cases h <;> exact ⟨rfl, rfl, rfl⟩

/-- The cleanup shared by `stop_stream` and `close`: cancel, then delete. -/
theorem Server.WF.of_cleanup {s : Server} (h : s.WF) (ws : Conn) :
    ((s.clearInterval (s.get ws)).delete ws).WF := by
  have ht := h.timers_clear ws
  obtain ⟨ha, hn, _⟩ := s.clear_rest (s.get ws)
  have hgetc : ∀ c, ((s.clearInterval (s.get ws)).delete ws).get c =
      if c = ws then none else s.get c := by
    intro c
    rw [Server.get_delete]
    show (if c = ws then none else List.lookup c (s.clearInterval (s.get ws)).activeStreams) = _
    rw [ha]
    rfl
  refine ⟨?_, ?_, ?_, ?_⟩
  · intro t htm
    have htm2 : t ∈ (s.clearInterval (s.get ws)).timers := htm
    rw [ht, List.mem_filter] at htm2
    have hne : t.ws ≠ ws := by simpa using htm2.2
    rw [hgetc, if_neg hne]
    exact h.registered t htm2.1
  · intro c id hc
    rw [hgetc] at hc
    by_cases hcw : c = ws
    · rw [if_pos hcw] at hc; cases hc
    · rw [if_neg hcw] at hc
      obtain ⟨t, htm, hid, hws⟩ := h.live c id hc
      refine ⟨t, ?_, hid, hws⟩
      show t ∈ (s.clearInterval (s.get ws)).timers
      rw [ht, List.mem_filter]
      exact ⟨htm, by simpa [hws] using hcw⟩
  · intro t htm
    have htm2 : t ∈ (s.clearInterval (s.get ws)).timers := htm
    rw [ht, List.mem_filter] at htm2
    show t.id < (s.clearInterval (s.get ws)).nextTimer
    rw [hn]
    exact h.fresh t htm2.1
  · show (List.map Timer.id (s.clearInterval (s.get ws)).timers).Nodup
    rw [ht]
    exact List.Nodup.sublist ((List.filter_sublist _).map _) h.distinct

theorem Server.WF.of_send {s : Server} (h : s.WF) (ws : Conn) (msg : ServerMsg) :
    (s.send ws msg).WF :=
  ⟨h.registered, h.live, h.fresh, h.distinct⟩

theorem Server.WF.of_init : Server.init.WF :=
  ⟨fun t ht => (by cases ht), fun ws id h => (by cases h), fun t ht => (by cases ht),
    List.nodup_nil⟩

theorem Server.WF.clear_eq {s : Server} (h : s.WF) (ws : Conn) :
    s.clearInterval (s.get ws) = { s with timers := s.timers.filter (fun t => t.ws ≠ ws) } := by
  have h1 : s.clearInterval (s.get ws) =
      { s with timers := (s.clearInterval (s.get ws)).timers } := by
    cases s.get ws <;> rfl
  rw [h1, h.timers_clear ws]

theorem Server.WF.startStream_eq {s : Server} (h : s.WF) (env : Env) (ws : Conn)
    (request : JVal) :
    startStream env s ws request =
      { activeStreams := (ws, s.nextTimer) :: s.activeStreams.filter (fun p => p.1 ≠ ws),
        timers := s.timers.filter (fun t => t.ws ≠ ws) ++ [startTimer env s ws request],
        nextTimer := s.nextTimer + 1,
        sent := s.sent ++ [(ws, .stream_started (request.field "dataType")
          (startTimer env s ws request).safeInterval)] } := by
  unfold startStream
  simp only [Server.clear_if_has]
  rw [h.clear_eq ws]
  rfl

theorem Server.WF.stopStream_eq {s : Server} (h : s.WF) (ws : Conn) :
    stopStream s ws =
      if s.has ws then
        { s with activeStreams := s.activeStreams.filter (fun p => p.1 ≠ ws),
                 timers := s.timers.filter (fun t => t.ws ≠ ws),
                 sent := s.sent ++ [(ws, .stream_stopped)] }
      else s := by
  unfold stopStream
  rw [h.clear_eq ws]
  rfl

theorem Server.WF.onClose_eq {s : Server} (h : s.WF) (ws : Conn) :
    onClose s ws =
      if s.has ws then
        { s with activeStreams := s.activeStreams.filter (fun p => p.1 ≠ ws),
                 timers := s.timers.filter (fun t => t.ws ≠ ws) }
      else s := by
  unfold onClose
  rw [h.clear_eq ws]
  rfl

theorem Server.WF.of_start {s : Server} (h : s.WF) (env : Env) (ws : Conn)
    (request : JVal) : (startStream env s ws request).WF := by
  rw [h.startStream_eq]
  have hget : ∀ c, Server.get
      { activeStreams := (ws, s.nextTimer) :: s.activeStreams.filter (fun p => p.1 ≠ ws),
        timers := s.timers.filter (fun t => t.ws ≠ ws) ++ [startTimer env s ws request],
        nextTimer := s.nextTimer + 1,
        sent := s.sent ++ [(ws, .stream_started (request.field "dataType")
          (startTimer env s ws request).safeInterval)] } c =
      if c = ws then some s.nextTimer else s.get c := fun c => Server.get_set s ws c s.nextTimer
  refine ⟨?_, ?_, ?_, ?_⟩
  · intro t ht
    rw [hget]
    simp only [List.mem_append, List.mem_filter, List.mem_singleton] at ht
    rcases ht with ⟨htm, hne⟩ | rfl
    · have hne2 : t.ws ≠ ws := by simpa using hne
      rw [if_neg hne2]
      exact h.registered t htm
    · simp [startTimer]
  · intro c id hc
    rw [hget] at hc
    by_cases hcw : c = ws
    · rw [if_pos hcw] at hc
      refine ⟨startTimer env s ws request, ?_, ?_, ?_⟩
      · simp
      · exact Option.some.inj hc
      · exact hcw.symm
    · rw [if_neg hcw] at hc
      obtain ⟨t, htm, hid, hws⟩ := h.live c id hc
      refine ⟨t, ?_, hid, hws⟩
      simp only [List.mem_append, List.mem_filter, List.mem_singleton]
      exact Or.inl ⟨htm, by simpa [hws] using hcw⟩
  · intro t ht
    simp only [List.mem_append, List.mem_filter, List.mem_singleton] at ht
    rcases ht with ⟨htm, _⟩ | rfl
    · exact Nat.lt_succ_of_lt (h.fresh t htm)
    · exact Nat.lt_succ_self _
  · show (List.map Timer.id
      (s.timers.filter (fun t => t.ws ≠ ws) ++ [startTimer env s ws request])).Nodup
    rw [List.map_append, List.nodup_append]
    refine ⟨List.Nodup.sublist ((List.filter_sublist _).map _) h.distinct, by simp, ?_⟩
    intro x hx hx2
    simp only [List.map_cons, List.map_nil, List.mem_singleton] at hx2
    obtain ⟨t, ht, rfl⟩ := List.mem_map.mp hx
    have := h.fresh t (List.mem_filter.mp ht).1
    rw [hx2] at this
    exact Nat.lt_irrefl _ this

theorem Server.WF.of_stop {s : Server} (h : s.WF) (ws : Conn) : (stopStream s ws).WF := by
  unfold SmartCity.stopStream
  split
  · exact (h.of_cleanup ws).of_send ws _
  · exact h

theorem Server.WF.of_close {s : Server} (h : s.WF) (ws : Conn) : (onClose s ws).WF := by
  unfold SmartCity.onClose
  split
  · exact h.of_cleanup ws
  · exact h

theorem Server.WF.of_tick {s : Server} (h : s.WF) (env : Env) (id : Nat) : (tick env s id).WF := by
  unfold SmartCity.tick tickCallback
  split
  · exact h
  · split
    · exact h.of_send _ _
    · exact h

theorem Server.WF.of_step {s s1 : Server} (h : s.WF) (env : Env) (e : Event)
    (hs : step env s e = .ok s1) : s1.WF := by
  cases e with
  | message ws frame =>
    simp only [SmartCity.step, onMessage] at hs
    cases frame with
    | none => simp only [Except.ok.injEq] at hs; exact hs ▸ h
    | some request =>
      simp only at hs
      split at hs
      · cases hs
      · rename_i action _
        simp only [Except.ok.injEq] at hs
        subst hs
        have h1 : (if strictEqStr action "start_stream" = true then
            startStream env s ws request else s).WF := by
          split
          · exact h.of_start env ws request
          · exact h
        split
        · exact h1.of_stop ws
        · exact h1
  | close ws =>
    simp only [SmartCity.step, Except.ok.injEq] at hs
    exact hs ▸ h.of_close ws
  | tick id tickEnv =>
    simp only [SmartCity.step, Except.ok.injEq] at hs
    exact hs ▸ h.of_tick tickEnv id

theorem Server.WF.of_run (env : Env) (es : List Event) :
    ∀ {s s1 : Server}, s.WF → run env s es = .ok s1 → s1.WF := by
  induction es with
  | nil => intro s s1 h hr; simp only [SmartCity.run, Except.ok.injEq] at hr; exact hr ▸ h
  | cons e es ih =>
    intro s s1 h hr
    simp only [SmartCity.run] at hr
    split at hr
    · cases hr
    · rename_i s2 hs
      exact ih (h.of_step env e hs) hr

theorem eq_singleton_of_nodup {α : Type} {l : List α} {a : α} (hn : l.Nodup) (ha : a ∈ l)
    (hall : ∀ x ∈ l, x = a) : l = [a] := by
  cases l with
  | nil => cases ha
  | cons x xs =>
    have hx : x = a := hall x (List.mem_cons_self _ _)
    subst hx
    have hxs : xs = [] := by
      apply List.eq_nil_iff_forall_not_mem.mpr
      intro y hy
      have hyx : y = x := hall y (List.mem_cons_of_mem _ hy)
      subst hyx
      exact (List.nodup_cons.mp hn).1 hy
    rw [hxs]

theorem Server.WF.liveTimers_ids {s : Server} (h : s.WF) (ws : Conn) :
    (s.liveTimers ws).map Timer.id = (s.get ws).toList := by
  unfold Server.liveTimers
  cases hget : s.get ws with
  | none =>
    have : s.timers.filter (fun t => t.ws = ws) = [] := by
      rw [List.filter_eq_nil_iff]
      intro t ht hws
      have hw : t.ws = ws := by simpa using hws
      have := h.registered t ht
      rw [hw, hget] at this
      cases this
    rw [this]; rfl
  | some old =>
    obtain ⟨u, hu, huid, huws⟩ := h.live ws old hget
    have hnd : (s.timers.filter (fun t => t.ws = ws)).Nodup :=
      (List.Nodup.of_map _ h.distinct).filter _
    have hmem : u ∈ s.timers.filter (fun t => t.ws = ws) := by
      rw [List.mem_filter]; exact ⟨hu, by simpa using huws⟩
    have hall : ∀ x ∈ s.timers.filter (fun t => t.ws = ws), x = u := by
      intro x hx
      rw [List.mem_filter] at hx
      have hxw : x.ws = ws := by simpa using hx.2
      have hxid : x.id = old := (h.ws_iff_id hget hx.1).mpr hxw
      exact h.timer_eq hx.1 hu (hxid.trans huid.symm)
    rw [eq_singleton_of_nodup hnd hmem hall]
    simp [huid]

theorem strictEqStr_field_obj {request : JVal} {k s : String}
    (h : strictEqStr (request.field k) s = true) :
    request.getProp k = .ok (request.field k) := by
  cases request <;> first | rfl | simp [JVal.field, strictEqStr] at h

theorem strictEqStr_eq {v : Option JVal} {s : String} (h : strictEqStr v s = true) :
    v = some (.str s) := by
  unfold strictEqStr at h
  split at h
  · rename_i t
    have : t = s := by simpa using h
    rw [this]
  · cases h

theorem onMessage_start (env : Env) (s : Server) (ws : Conn) (request : JVal)
    (h : strictEqStr (request.field "action") "start_stream" = true) :
    onMessage env s ws (some request) = .ok (startStream env s ws request) := by
  have hstop : strictEqStr (request.field "action") "stop_stream" = false := by
    rw [strictEqStr_eq h]; decide
  simp only [onMessage, strictEqStr_field_obj h, h, hstop, if_true]
  rfl

theorem clearInterval_mem {s : Server} {h : Option Nat} {t : Timer}
    (ht : t ∈ (s.clearInterval h).timers) : t ∈ s.timers := by
  cases h with
  | none => exact ht
  | some id => exact (List.mem_filter.mp ht).1

theorem startStream_mem {env : Env} {s : Server} {c : Conn} {request : JVal} {t : Timer}
    (ht : t ∈ (startStream env s c request).timers) : t ∈ s.timers ∨ t.ws = c := by
  unfold startStream at ht
  simp only [Server.clear_if_has] at ht
  have ht2 : t ∈ (s.clearInterval (s.get c)).timers ++
      [({ id := (s.clearInterval (s.get c)).nextTimer, ws := c,
          dataType := request.field "dataType",
          options := (request.field "options").getD (.obj []),
          safeInterval := safeInterval env
            (some ((request.field "interval").getD (.num (.fin 1000)))) } : Timer)] := ht
  rw [List.mem_append, List.mem_singleton] at ht2
  rcases ht2 with h1 | h2
  · exact Or.inl (clearInterval_mem h1)
  · right; rw [h2]

theorem startStream_sent (env : Env) (s : Server) (c : Conn) (request : JVal) :
    ∃ interval, (startStream env s c request).sent =
      s.sent ++ [(c, .stream_started (request.field "dataType") interval)] := by
  refine ⟨safeInterval env (some ((request.field "interval").getD (.num (.fin 1000)))), ?_⟩
  unfold startStream
  simp only [Server.clear_if_has]
  show (s.clearInterval (s.get c)).sent ++ _ = _
  rw [(s.clear_rest _).2.2]

theorem stopStream_mem {s : Server} {c : Conn} {t : Timer}
    (ht : t ∈ (stopStream s c).timers) : t ∈ s.timers := by
  unfold stopStream at ht
  split at ht
  · exact clearInterval_mem (h := s.get c) ht
  · exact ht

theorem stopStream_sent (s : Server) (c : Conn) :
    (stopStream s c).sent = s.sent ++ (if s.has c then [(c, .stream_stopped)] else []) := by
  unfold stopStream
  split
  · show (s.clearInterval (s.get c)).sent ++ _ = _
    rw [(s.clear_rest _).2.2]
  · simp

theorem onClose_mem {s : Server} {c : Conn} {t : Timer}
    (ht : t ∈ (onClose s c).timers) : t ∈ s.timers := by
  unfold onClose at ht
  split at ht
  · exact clearInterval_mem (h := s.get c) ht
  · exact ht

theorem onClose_sent (s : Server) (c : Conn) : (onClose s c).sent = s.sent := by
  unfold onClose
  split
  · show (s.clearInterval (s.get c)).sent = _
    rw [(s.clear_rest _).2.2]
  · rfl

theorem tick_timers (env : Env) (s : Server) (id : Nat) : (tick env s id).timers = s.timers := by
  unfold tick tickCallback
  split
  · rfl
  · split <;> rfl

theorem tick_sent (env : Env) (s : Server) (id : Nat) :
    (tick env s id).sent = s.sent ∨
    ∃ t data, t ∈ s.timers ∧
      (tick env s id).sent = s.sent ++ [(t.ws, .stream_data t.dataType data env.timestamp)] := by
  unfold tick tickCallback
  split
  · exact Or.inl rfl
  · rename_i t hfind
    split
    · rename_i data _
      exact Or.inr ⟨t, data, List.mem_of_find?_eq_some hfind, rfl⟩
    · exact Or.inl rfl

theorem dataTags_append (ws : Conn) (a b : List (Conn × ServerMsg)) :
    dataTags ws (a ++ b) = dataTags ws a ++ dataTags ws b := by
  unfold dataTags
  rw [List.filterMap_append]

theorem dataTags_single (ws c : Conn) (dataType data : Option JVal) (timestamp : JVal) :
    dataTags ws [(c, .stream_data dataType data timestamp)] =
      if c = ws then [dataType] else [] := by
  by_cases h : c = ws
  · simp [dataTags, h]
  · simp [dataTags, h]

theorem dataTags_stopped (ws c : Conn) (b : Bool) :
    dataTags ws (if b = true then [(c, ServerMsg.stream_stopped)] else []) = [] := by
  cases b <;> rfl

theorem step_keeps_owner (env : Env) (ws : Conn) (T : Timer) {s s1 : Server} (e : Event)
    (hP : ∀ t ∈ s.timers, t.ws = ws → t = T) (he : e.startsOn ws = false)
    (hs : step env s e = .ok s1) :
    (∀ t ∈ s1.timers, t.ws = ws → t = T) ∧
    ∃ newer, s1.sent = s.sent ++ newer ∧ ∀ tag ∈ dataTags ws newer, tag = T.dataType := by
  cases e with
  | message c frame =>
    cases frame with
    | none =>
      simp only [step, onMessage, Except.ok.injEq] at hs
      subst hs
      exact ⟨hP, [], by simp, by simp [dataTags]⟩
    | some request =>
      simp only [step, onMessage] at hs
      split at hs
      · cases hs
      · rename_i action hget
        simp only [Except.ok.injEq] at hs
        have hact : action = request.field "action" := by
          cases request <;> simp [JVal.getProp] at hget <;> exact hget.symm
        subst hact
        -- the state after the first `if`
        have h1 : ∀ t ∈ (if strictEqStr (request.field "action") "start_stream" = true then
            startStream env s c request else s).timers, t.ws = ws → t = T := by
          intro t ht hws
          split at ht
          · rename_i hstart
            rcases startStream_mem ht with hin | hc
            · exact hP t hin hws
            · exfalso
              have : c = ws := hc.symm.trans hws
              simp [Event.startsOn, this, hstart] at he
          · exact hP t ht hws
        have h1s : ∃ l1, (if strictEqStr (request.field "action") "start_stream" = true then
            startStream env s c request else s).sent = s.sent ++ l1 ∧ dataTags ws l1 = [] := by
          split
          · obtain ⟨interval, hi⟩ := startStream_sent env s c request
            exact ⟨_, hi, by simp [dataTags]⟩
          · exact ⟨[], by simp, by simp [dataTags]⟩
        obtain ⟨l1, hl1, hl1t⟩ := h1s
        subst hs
        split
        · refine ⟨fun t ht hws => h1 t (stopStream_mem ht) hws, ?_⟩
          rw [stopStream_sent, hl1, List.append_assoc]
          refine ⟨_, rfl, ?_⟩
          rw [dataTags_append, hl1t, dataTags_stopped]
          intro tag htag
          cases htag
        · refine ⟨h1, l1, hl1, ?_⟩
          rw [hl1t]; intro tag htag; cases htag
  | close c =>
    simp only [step, Except.ok.injEq] at hs
    subst hs
    refine ⟨fun t ht hws => hP t (onClose_mem ht) hws, [], ?_, by simp [dataTags]⟩
    rw [onClose_sent]; simp
  | tick id tickEnv =>
    simp only [step, Except.ok.injEq] at hs
    subst hs
    refine ⟨fun t ht hws => hP t (by rw [tick_timers] at ht; exact ht) hws, ?_⟩
    rcases tick_sent tickEnv s id with h0 | ⟨t, data, ht, hsent⟩
    · exact ⟨[], by rw [h0]; simp, by simp [dataTags]⟩
    · refine ⟨_, hsent, ?_⟩
      intro tag htag
      rw [dataTags_single] at htag
      split at htag
      · rename_i hws
        rw [List.mem_singleton] at htag
        rw [htag, hP t ht hws]
      · cases htag

theorem run_keeps_owner (env : Env) (ws : Conn) (T : Timer) (es : List Event) :
    ∀ {s s2 : Server}, (∀ t ∈ s.timers, t.ws = ws → t = T) →
      (∀ e ∈ es, e.startsOn ws = false) → run env s es = .ok s2 →
      (∀ t ∈ s2.timers, t.ws = ws → t = T) ∧
      ∃ newer, s2.sent = s.sent ++ newer ∧ ∀ tag ∈ dataTags ws newer, tag = T.dataType := by
  induction es with
  | nil =>
    intro s s2 hP _ hr
    simp only [run, Except.ok.injEq] at hr
    subst hr
    exact ⟨hP, [], by simp, by simp [dataTags]⟩
  | cons e es ih =>
    intro s s2 hP hall hr
    simp only [run] at hr
    split at hr
    · cases hr
    · rename_i s1 hs
      obtain ⟨hP1, n1, hn1, ht1⟩ :=
        step_keeps_owner env ws T e hP (hall e (List.mem_cons_self _ _)) hs
      obtain ⟨hP2, n2, hn2, ht2⟩ :=
        ih hP1 (fun e2 he2 => hall e2 (List.mem_cons_of_mem _ he2)) hr
      refine ⟨hP2, n1 ++ n2, by rw [hn2, hn1, List.append_assoc], ?_⟩
      intro tag htag
      rw [dataTags_append, List.mem_append] at htag
      rcases htag with h | h
      · exact ht1 tag h
      · exact ht2 tag h

/-- C3: in every state reached from start-up by any sequence of events (frames,
closes, ticks, on any connections), a connection has at most one live timer
and it is the one whose handle the registry holds. A `start_stream` request
there is handled without error: it cancels the connection's previous timer,
the registry then holds the fresh handle, and the only live timer of the
connection is the new one. Until the next `start_stream` on that connection,
whatever else happens, its live timers stay within that one timer and every
`stream_data` message sent on the connection carries the new `dataType`. -/
theorem one_live_timer_per_connection (env : Env) (events : List Event) (s : Server)
    (hrun : run env Server.init events = .ok s) (ws : Conn) :
    (s.liveTimers ws).length ≤ 1 ∧
    (s.liveTimers ws).map Timer.id = (s.get ws).toList ∧
    ∀ request : JVal, strictEqStr (request.field "action") "start_stream" = true →
      ∃ s1, onMessage env s ws (some request) = .ok s1 ∧
        (∀ t ∈ s.liveTimers ws, t ∉ s1.timers) ∧
        s1.get ws = some (startTimer env s ws request).id ∧
        s1.liveTimers ws = [startTimer env s ws request] ∧
        (startTimer env s ws request).dataType = request.field "dataType" ∧
        ∀ (later : List Event) (s2 : Server), (∀ e ∈ later, e.startsOn ws = false) →
          run env s1 later = .ok s2 →
          (∀ t ∈ s2.liveTimers ws, t = startTimer env s ws request) ∧
          ∃ newer, s2.sent = s1.sent ++ newer ∧
            ∀ tag ∈ dataTags ws newer, tag = request.field "dataType" := by
  have hwf : s.WF := Server.WF.of_run env events Server.WF.of_init hrun
  have hids := hwf.liveTimers_ids ws
  refine ⟨?_, hids, ?_⟩
  · have := congrArg List.length hids
    rw [List.length_map] at this
    rw [this]
    cases s.get ws <;> simp
  · intro request hstart
    have hwf1 : (startStream env s ws request).WF := hwf.of_start env ws request
    have htimers : (startStream env s ws request).timers =
        s.timers.filter (fun t => t.ws ≠ ws) ++ [startTimer env s ws request] := by
      rw [hwf.startStream_eq]
    have hown : ∀ t ∈ (startStream env s ws request).timers, t.ws = ws →
        t = startTimer env s ws request := by
      intro t ht hws
      rw [htimers, List.mem_append, List.mem_singleton] at ht
      rcases ht with h1 | h2
      · have := (List.mem_filter.mp h1).2
        simp [hws] at this
      · exact h2
    refine ⟨startStream env s ws request, onMessage_start env s ws request hstart,
      ?_, ?_, ?_, rfl, ?_⟩
    · intro t ht hmem
      unfold Server.liveTimers at ht
      rw [List.mem_filter] at ht
      have hws : t.ws = ws := by simpa using ht.2
      have := hown t hmem hws
      have hlt := hwf.fresh t ht.1
      rw [this] at hlt
      exact Nat.lt_irrefl _ hlt
    · rw [hwf.startStream_eq]
      exact (Server.get_set s ws ws s.nextTimer).trans (if_pos rfl)
    · unfold Server.liveTimers
      rw [htimers, List.filter_append]
      have h1 : List.filter (fun t => decide (t.ws = ws))
          (List.filter (fun t => decide (t.ws ≠ ws)) s.timers) = [] := by
        rw [List.filter_eq_nil_iff]
        intro t ht
        have := (List.mem_filter.mp ht).2
        simpa using this
      rw [h1]
      simp [startTimer]
    · intro later s2 hall hr
      obtain ⟨hP, newer, hn, ht⟩ :=
        run_keeps_owner env ws (startTimer env s ws request) later hown hall hr
      refine ⟨?_, newer, hn, ht⟩
      intro t ht2
      unfold Server.liveTimers at ht2
      rw [List.mem_filter] at ht2
      exact hP t ht2.1 (by simpa using ht2.2)

/-- Witness of C3: the state after one `start_stream` request on connection 0. -/
theorem one_live_timer_per_connection_witness :
    run sampleEnv Server.init
        [Event.message 0 (some (startRequest (.str "geo") (.num (.fin 500)) (.obj [])))]
      = .ok (startStream sampleEnv Server.init 0
          (startRequest (.str "geo") (.num (.fin 500)) (.obj []))) ∧
    ((startStream sampleEnv Server.init 0
        (startRequest (.str "geo") (.num (.fin 500)) (.obj []))).liveTimers 0).length ≤ 1 :=
  have hrun : run sampleEnv Server.init
        [Event.message 0 (some (startRequest (.str "geo") (.num (.fin 500)) (.obj [])))]
      = .ok (startStream sampleEnv Server.init 0
          (startRequest (.str "geo") (.num (.fin 500)) (.obj []))) := by
    simp only [run, step]
    rw [onMessage_start _ _ _ _ (by decide)]
  ⟨hrun, (one_live_timer_per_connection sampleEnv _ _ hrun 0).1⟩

theorem liveTimers_eq_nil_of_get {s : Server} (h : s.WF) {ws : Conn} (hget : s.get ws = none) :
    s.liveTimers ws = [] := by
  have := h.liveTimers_ids ws
  rw [hget] at this
  exact List.map_eq_nil_iff.mp this

theorem has_eq_false_iff (s : Server) (ws : Conn) : s.has ws = false ↔ s.get ws = none := by
  unfold Server.has
  cases s.get ws <;> simp

theorem filter_ws_filter_ne (l : List Timer) (ws c : Conn) :
    (l.filter (fun t => t.ws ≠ ws)).filter (fun t => t.ws = c) =
      if c = ws then [] else l.filter (fun t => t.ws = c) := by
  rw [List.filter_filter]
  by_cases hc : c = ws
  · rw [if_pos hc, List.filter_eq_nil_iff]
    intro t _
    simp only [Bool.and_eq_true, decide_eq_true_eq, not_and]
    intro h1
    rw [h1, hc]; simp
  · rw [if_neg hc]
    apply List.filter_congr
    intro t _
    by_cases h1 : t.ws = c
    · have : t.ws ≠ ws := by rw [h1]; exact hc
      simp [h1, hc]
    · simp [h1]

/-- The registry and the live timers after the cleanup of `stop_stream`. -/
theorem Server.WF.stopStream_cleanup {s : Server} (h : s.WF) (ws c : Conn) :
    (stopStream s ws).get c = (if c = ws then none else s.get c) ∧
    (stopStream s ws).liveTimers c = (if c = ws then [] else s.liveTimers c) := by
  rw [h.stopStream_eq]
  cases hhas : s.has ws with
  | false =>
    have hget := (has_eq_false_iff s ws).mp hhas
    simp only [Bool.false_eq_true, if_false]
    by_cases hc : c = ws
    · subst hc
      simp only [if_true]
      exact ⟨hget, liveTimers_eq_nil_of_get h hget⟩
    · simp only [if_neg hc, and_self]
  | true =>
    simp only [if_true]
    exact ⟨lookup_filter_ne ws c s.activeStreams, filter_ws_filter_ne s.timers ws c⟩

/-- The registry and the live timers after the cleanup of `close`. -/
theorem Server.WF.onClose_cleanup {s : Server} (h : s.WF) (ws c : Conn) :
    (onClose s ws).get c = (if c = ws then none else s.get c) ∧
    (onClose s ws).liveTimers c = (if c = ws then [] else s.liveTimers c) := by
  rw [h.onClose_eq]
  cases hhas : s.has ws with
  | false =>
    have hget := (has_eq_false_iff s ws).mp hhas
    simp only [Bool.false_eq_true, if_false]
    by_cases hc : c = ws
    · subst hc
      simp only [if_true]
      exact ⟨hget, liveTimers_eq_nil_of_get h hget⟩
    · simp only [if_neg hc, and_self]
  | true =>
    simp only [if_true]
    exact ⟨lookup_filter_ne ws c s.activeStreams, filter_ws_filter_ne s.timers ws c⟩

theorem onMessage_stop (env : Env) (s : Server) (ws : Conn) (request : JVal)
    (h : strictEqStr (request.field "action") "stop_stream" = true) :
    onMessage env s ws (some request) = .ok (stopStream s ws) := by
  have hstart : strictEqStr (request.field "action") "start_stream" = false := by
    rw [strictEqStr_eq h]; decide
  simp only [onMessage, strictEqStr_field_obj h, h, hstart, if_true]
  rfl

theorem stopStream_of_not_has {s : Server} {ws : Conn} (h : s.has ws = false) :
    stopStream s ws = s := by
  unfold stopStream
  rw [h]
  rfl

/-- C4: in every state reached from start-up, a `stop_stream` request on a
connection is handled without error; it sends one `stream_stopped` on that
connection when the connection had a session and sends nothing otherwise;
afterwards the connection has no registry entry and no live timer. A second
`stop_stream` right after it is handled without error and changes nothing, so
the two requests together send exactly one `stream_stopped` when a session
existed (and none when there was none). -/
theorem stop_stream_acknowledged_once (env : Env) (events : List Event) (s : Server)
    (hrun : run env Server.init events = .ok s) (ws : Conn) (request : JVal)
    (hstop : strictEqStr (request.field "action") "stop_stream" = true) :
    ∃ s1, onMessage env s ws (some request) = .ok s1 ∧
      s1.sent = s.sent ++ (if s.has ws then [(ws, ServerMsg.stream_stopped)] else []) ∧
      (stoppedCount ws s1.sent = stoppedCount ws s.sent + 1 ↔ s.has ws = true) ∧
      s1.get ws = none ∧ s1.has ws = false ∧ s1.liveTimers ws = [] ∧
      onMessage env s1 ws (some request) = .ok s1 := by
  have hwf : s.WF := Server.WF.of_run env events Server.WF.of_init hrun
  have hc := hwf.stopStream_cleanup ws ws
  simp only [if_true] at hc
  have hhas : (stopStream s ws).has ws = false := (has_eq_false_iff _ _).mpr hc.1
  refine ⟨stopStream s ws, onMessage_stop env s ws request hstop, stopStream_sent s ws, ?_,
    hc.1, hhas, hc.2, ?_⟩
  · rw [stopStream_sent]
    unfold stoppedCount
    cases s.has ws <;> simp
  · rw [onMessage_stop env _ ws request hstop, stopStream_of_not_has hhas]

/-- Witness of C4: a stop request on connection 0 after it started a stream. -/
theorem stop_stream_acknowledged_once_witness :
    ∃ s1, onMessage sampleEnv (startStream sampleEnv Server.init 0
        (startRequest (.str "geo") (.num (.fin 500)) (.obj []))) 0 (some stopRequest) = .ok s1 ∧
      s1.has 0 = false ∧ s1.liveTimers 0 = [] :=
  have h := stop_stream_acknowledged_once sampleEnv
    [Event.message 0 (some (startRequest (.str "geo") (.num (.fin 500)) (.obj [])))]
    (startStream sampleEnv Server.init 0 (startRequest (.str "geo") (.num (.fin 500)) (.obj [])))
    (by simp only [run, step]; rw [onMessage_start _ _ _ _ (by decide)]) 0 stopRequest
    (by decide)
  ⟨h.choose, h.choose_spec.1, h.choose_spec.2.2.2.2.1, h.choose_spec.2.2.2.2.2.1⟩

/-- C5: in every state reached from start-up, the close handler leaves the
registry and the timers exactly as the `stop_stream` cleanup would (no entry
and no live timer for the closed connection) but sends nothing, and the
registry entry and the live timers of every other connection are unchanged. -/
theorem close_cleans_up_silently (env : Env) (events : List Event) (s : Server)
    (hrun : run env Server.init events = .ok s) (ws : Conn) :
    (onClose s ws).sent = s.sent ∧
    (onClose s ws).activeStreams = (stopStream s ws).activeStreams ∧
    (onClose s ws).timers = (stopStream s ws).timers ∧
    (onClose s ws).get ws = none ∧ (onClose s ws).liveTimers ws = [] ∧
    ∀ c, c ≠ ws → (onClose s ws).get c = s.get c ∧
      (onClose s ws).liveTimers c = s.liveTimers c := by
  have hwf : s.WF := Server.WF.of_run env events Server.WF.of_init hrun
  have hc := hwf.onClose_cleanup ws ws
  simp only [if_true] at hc
  refine ⟨onClose_sent s ws, ?_, ?_, hc.1, hc.2, ?_⟩
  · unfold onClose stopStream
    split <;> rfl
  · unfold onClose stopStream
    split <;> rfl
  · intro c hne
    have := hwf.onClose_cleanup ws c
    simpa only [if_neg hne] using this

/-- Witness of C5: closing connection 0 after it started a stream. -/
theorem close_cleans_up_silently_witness :
    (onClose (startStream sampleEnv Server.init 0
        (startRequest (.str "geo") (.num (.fin 500)) (.obj []))) 0).liveTimers 0 = [] :=
  (close_cleans_up_silently sampleEnv
    [Event.message 0 (some (startRequest (.str "geo") (.num (.fin 500)) (.obj [])))]
    (startStream sampleEnv Server.init 0 (startRequest (.str "geo") (.num (.fin 500)) (.obj [])))
    (by simp only [run, step]; rw [onMessage_start _ _ _ _ (by decide)]) 0).2.2.2.2.1

/-! ## Theorems: malformed frames, the interval clamp, failed ticks -/

/-- C6 (the code at the failing input, and the frames that are ignored): the
frame `null` is valid JSON, and reading `request.action` on it raises a
TypeError that escapes the handler. Every other malformed or unknown frame
(text that is not JSON, or a non-null value whose `action` is neither
`start_stream` nor `stop_stream`) is handled without error and leaves the
whole server state, messages sent included, unchanged. -/
theorem null_frame_escapes_handler (env : Env) (s : Server) (ws : Conn) :
    onMessage env s ws (some JVal.null) = .error .typeError ∧
    onMessage env s ws none = .ok s ∧
    ∀ request : JVal, request ≠ JVal.null →
      strictEqStr (request.field "action") "start_stream" = false →
      strictEqStr (request.field "action") "stop_stream" = false →
      onMessage env s ws (some request) = .ok s := by
  refine ⟨rfl, rfl, ?_⟩
  intro request hnull h1 h2
  have hget : request.getProp "action" = .ok (request.field "action") := by
    cases request <;> first | rfl | exact absurd rfl hnull
  simp only [onMessage, hget, h1, h2, Bool.false_eq_true, if_false]

theorem safeInterval_num (env : Env) (q : ℚ) :
    safeInterval env (some (.num (.fin q))) =
      if q = 0 then .fin 1000 else .fin (max 100 (min 10000 q)) := by
  unfold safeInterval
  by_cases h : q = 0
  · subst h
    simp only [toNumber, JNum.orElse, JNum.truthy, ne_eq, not_true_eq_false, decide_False,
      Bool.false_eq_true, if_false, JNum.min, JNum.max, if_true]
    norm_num
  · simp only [toNumber, JNum.orElse, JNum.truthy, ne_eq, h, not_false_eq_true, decide_True,
      if_true, JNum.min, JNum.max, if_false]

/-- C7 (the code at the failing input, and the clamp elsewhere): a
`start_stream` request with interval 0 gets a timer of 1000 ms, not 100, and
the `stream_started` acknowledgement carries 1000, because `Number(0) || 1000`
is 1000; every other finite numeric interval is clamped to [100, 10000] and
the acknowledgement carries the timer's interval. -/
theorem interval_zero_becomes_default (env : Env) (s : Server) (ws : Conn)
    (dataType options : JVal) :
    (startTimer env s ws (startRequest dataType (.num (.fin 0)) options)).safeInterval
      = .fin 1000 ∧
    (startStream env s ws (startRequest dataType (.num (.fin 0)) options)).sent.getLast?
      = some (ws, .stream_started (some dataType) (.fin 1000)) ∧
    ∀ q : ℚ, q ≠ 0 →
      (startTimer env s ws (startRequest dataType (.num (.fin q)) options)).safeInterval
        = .fin (max 100 (min 10000 q)) ∧
      (startStream env s ws (startRequest dataType (.num (.fin q)) options)).sent.getLast?
        = some (ws, .stream_started (some dataType) (.fin (max 100 (min 10000 q)))) := by
  have hint : ∀ q : ℚ, (startRequest dataType (.num (.fin q)) options).field "interval"
      = some (.num (.fin q)) := by
    intro q
    simp [startRequest, JVal.field, List.lookup]
  have hdt : ∀ q : ℚ, (startRequest dataType (.num (.fin q)) options).field "dataType"
      = some dataType := by
    intro q
    simp [startRequest, JVal.field, List.lookup]
  have hsent : ∀ q : ℚ,
      (startStream env s ws (startRequest dataType (.num (.fin q)) options)).sent.getLast?
        = some (ws, .stream_started (some dataType)
            (safeInterval env (some (.num (.fin q))))) := by
    intro q
    unfold startStream
    simp only [Server.send, hint, hdt, Option.getD_some, List.getLast?_append,
      List.getLast?_singleton, Option.or_some]
  have htimer : ∀ q : ℚ,
      (startTimer env s ws (startRequest dataType (.num (.fin q)) options)).safeInterval
        = safeInterval env (some (.num (.fin q))) := by
    intro q
    simp only [startTimer, hint, Option.getD_some]
  refine ⟨?_, ?_, ?_⟩
  · rw [htimer, safeInterval_num, if_pos rfl]
  · rw [hsent, safeInterval_num, if_pos rfl]
  · intro q hq
    rw [htimer, hsent, safeInterval_num, if_neg hq]
    exact ⟨rfl, rfl⟩

theorem strictEqStr_iff (v : Option JVal) (s : String) :
    strictEqStr v s = true ↔ v = some (.str s) := by
  constructor
  · exact strictEqStr_eq
  · intro h; rw [h]; simp [strictEqStr]

theorem generateData_unrecognised (env : Env) (dataType : Option JVal) (count : ℚ)
    (options : JVal) (h : ¬ recognised dataType) :
    generateData env dataType count options = .error .invalidDataType := by
  have hno : ∀ s ∈ dataTypes, strictEqStr dataType s = false := by
    intro s hs
    cases hb : strictEqStr dataType s with
    | false => rfl
    | true => exact absurd ⟨s, hs, strictEqStr_eq hb⟩ h
  unfold generateData
  simp only [dataTypes, List.mem_cons, List.mem_singleton, List.not_mem_nil, or_false,
    forall_eq_or_imp, forall_eq] at hno
  obtain ⟨h1, h2, h3, h4, h5, h6, h7, h8, h9⟩ := hno
  simp only [h1, h2, h3, h4, h5, h6, h7, h8, h9, Bool.false_eq_true, if_false]

/-- C8: when the generator throws in a tick of a live timer, the tick leaves the
whole server state unchanged (nothing is sent, the timer and the registry
entry stay) and the callback returns normally; a later tick of the same timer
whose generation succeeds sends its record as `stream_data`. An unrecognised
`dataType` is one way for the generator to throw. -/
theorem failed_tick_is_skipped (env1 env2 : Env) (s : Server) (id : Nat) (t : Timer)
    (e : JsErr) (hlive : s.timers.find? (fun u => u.id = id) = some t)
    (hfail : generateSingleData env1 t.dataType t.options = .error e) :
    tick env1 s id = s ∧
    (∀ data, generateSingleData env2 t.dataType t.options = .ok data →
      tick env2 (tick env1 s id) id =
        s.send t.ws (.stream_data t.dataType data env2.timestamp)) ∧
    (¬ recognised t.dataType →
      generateSingleData env1 t.dataType t.options = .error .invalidDataType) := by
  have h1 : tick env1 s id = s := by
    simp only [tick, hlive, tickCallback, hfail]
  refine ⟨h1, ?_, ?_⟩
  · intro data hok
    rw [h1]
    simp only [tick, hlive, tickCallback, hok]
  · intro hnot
    simp only [generateSingleData, generateData_unrecognised env1 t.dataType 1 t.options hnot]

/-- Witness of C8: a stream whose `dataType` is not recognised; its tick is
skipped. -/
theorem failed_tick_is_skipped_witness :
    tick sampleEnv
      (startStream sampleEnv Server.init 0
        (startRequest (.str "nope") (.num (.fin 500)) (.obj []))) 0
      = startStream sampleEnv Server.init 0
          (startRequest (.str "nope") (.num (.fin 500)) (.obj [])) :=
  (failed_tick_is_skipped sampleEnv sampleEnv
    (startStream sampleEnv Server.init 0
      (startRequest (.str "nope") (.num (.fin 500)) (.obj []))) 0
    (startTimer sampleEnv Server.init 0
      (startRequest (.str "nope") (.num (.fin 500)) (.obj [])))
    .invalidDataType
    (by simp [startStream, Server.has, Server.get, Server.init, Server.set, Server.send,
          startTimer, List.find?])
    (by
      have : ¬ recognised (startTimer sampleEnv Server.init 0
          (startRequest (.str "nope") (.num (.fin 500)) (.obj []))).dataType := by
        rintro ⟨s, hs, heq⟩
        simp [startTimer, startRequest, JVal.field, List.lookup] at heq
        subst heq
        simp [dataTypes] at hs
      simp only [generateSingleData, generateData_unrecognised _ _ _ _ this])).1

/-! ## Theorems: the generators and the generate endpoint -/

theorem loopCount_natCast (n : Nat) : loopCount (n : ℚ) = n := Nat.ceil_natCast n

theorem pushEach_length (n : Nat) (body : Nat → JVal) : (pushEach n body).length = n := by
  simp [pushEach]

theorem destructure_ok {options : JVal} (h : options ≠ .null) : destructure options = .ok () := by
  cases options <;> first | rfl | exact absurd rfl h

theorem destructure_null : destructure .null = .error .typeError := rfl

theorem destructure_error {options : JVal} {e : JsErr} (h : destructure options = .error e) :
    e = .typeError := by
  cases options <;> simp [destructure] at h
  exact h.symm

theorem climateLoop_length (env : Env) (intervalHours : JVal) :
    ∀ (n i : Nat) (d : Option Int) (data : List JVal),
      climateLoop env intervalHours n i d = .ok data → data.length = n := by
  intro n
  induction n with
  | zero => intro i d data h; simp only [climateLoop, Except.ok.injEq] at h; rw [← h]; rfl
  | succ n ih =>
    intro i d data h
    cases d with
    | none => simp [climateLoop] at h
    | some t =>
      simp only [climateLoop] at h
      split at h
      · cases h
      · rename_i rest hrest
        simp only [Except.ok.injEq] at h
        rw [← h, List.length_cons, ih _ _ _ hrest]

theorem climateLoop_error (env : Env) (intervalHours : JVal) :
    ∀ (n i : Nat) (d : Option Int) (e : JsErr),
      climateLoop env intervalHours n i d = .error e → e = .rangeError := by
  intro n
  induction n with
  | zero => intro i d e h; simp [climateLoop] at h
  | succ n ih =>
    intro i d e h
    cases d with
    | none => simp only [climateLoop, Except.error.injEq] at h; exact h.symm
    | some t =>
      simp only [climateLoop] at h
      split at h
      · rename_i e2 hrest
        simp only [Except.error.injEq] at h
        rw [← h]; exact ih _ _ _ hrest
      · cases h

theorem climateLoop_total (env : Env) (intervalHours : JVal)
    (hvalid : ∀ t, env.setHours t intervalHours ≠ none) :
    ∀ (n i : Nat) (t : Int), ∃ data, climateLoop env intervalHours n i (some t) = .ok data := by
  intro n
  induction n with
  | zero => intro i t; exact ⟨[], rfl⟩
  | succ n ih =>
    intro i t
    cases hs : env.setHours t intervalHours with
    | none => exact absurd hs (hvalid t)
    | some t2 =>
      obtain ⟨rest, hrest⟩ := ih (i + 1) t2
      exact ⟨climateRecord env i :: rest, by simp only [climateLoop, hs, hrest]⟩

theorem iotLoop_length (env : Env) (types : JVal) :
    ∀ (n i : Nat) (data : List JVal), iotLoop env types n i = .ok data → data.length = n := by
  intro n
  induction n with
  | zero => intro i data h; simp only [iotLoop, Except.ok.injEq] at h; rw [← h]; rfl
  | succ n ih =>
    intro i data h
    simp only [iotLoop] at h
    split at h
    · cases h
    · split at h
      · cases h
      · rename_i rest hrest
        simp only [Except.ok.injEq] at h
        rw [← h, List.length_cons, ih _ _ hrest]

theorem iotLoop_error (env : Env) (types : JVal) :
    ∀ (n i : Nat) (e : JsErr), iotLoop env types n i = .error e → e = .fakerError := by
  intro n
  induction n with
  | zero => intro i e h; simp [iotLoop] at h
  | succ n ih =>
    intro i e h
    simp only [iotLoop] at h
    split at h
    · simp only [Except.error.injEq] at h; exact h.symm
    · split at h
      · rename_i e2 hrest
        simp only [Except.error.injEq] at h
        rw [← h]; exact ih _ _ hrest
      · cases h

theorem iotLoop_total (env : Env) (types : JVal)
    (hdraw : ∀ i, env.arrayElement types i ≠ none) :
    ∀ (n i : Nat), ∃ data, iotLoop env types n i = .ok data := by
  intro n
  induction n with
  | zero => intro i; exact ⟨[], rfl⟩
  | succ n ih =>
    intro i
    cases hs : env.arrayElement types i with
    | none => exact absurd hs (hdraw i)
    | some sensorType =>
      obtain ⟨rest, hrest⟩ := ih (i + 1)
      exact ⟨sensor env i sensorType :: rest, by simp only [iotLoop, hs, hrest]⟩

theorem iotTypes_error {options : JVal} {e : JsErr} (h : iotTypes options = .error e) :
    e = .typeError := by
  unfold iotTypes at h
  simp only at h
  split at h
  · rename_i e2 hidx
    simp only [Except.error.injEq] at h
    rw [← h]
    unfold index0 at hidx
    split at hidx <;> simp at hidx
    exact hidx.symm
  · cases h

theorem generateData_geo (env : Env) (count : ℚ) (options : JVal) :
    generateData env (some (.str "geo")) count options = generateGeoData env count options := by
  simp [generateData, strictEqStr]

theorem generateData_traffic (env : Env) (count : ℚ) (options : JVal) :
    generateData env (some (.str "traffic")) count options =
      generateTrafficData env count options := by
  simp [generateData, strictEqStr]

theorem generateData_social (env : Env) (count : ℚ) (options : JVal) :
    generateData env (some (.str "social")) count options =
      generateSocialData env count options := by
  simp [generateData, strictEqStr]

theorem generateData_demographic (env : Env) (count : ℚ) (options : JVal) :
    generateData env (some (.str "demographic")) count options =
      generateSocialData env count options := by
  simp [generateData, strictEqStr]

theorem generateData_financial (env : Env) (count : ℚ) (options : JVal) :
    generateData env (some (.str "financial")) count options =
      generateFinancialData env count options := by
  simp [generateData, strictEqStr]

theorem generateData_climate (env : Env) (count : ℚ) (options : JVal) :
    generateData env (some (.str "climate")) count options =
      generateClimateData env count options := by
  simp [generateData, strictEqStr]

theorem generateData_iot (env : Env) (count : ℚ) (options : JVal) :
    generateData env (some (.str "iot")) count options = generateIoTData env count options := by
  simp [generateData, strictEqStr]

theorem generateData_transport (env : Env) (count : ℚ) (options : JVal) :
    generateData env (some (.str "transport")) count options =
      generatePublicTransportData env count options := by
  simp [generateData, strictEqStr]

theorem generateData_emergency (env : Env) (count : ℚ) (options : JVal) :
    generateData env (some (.str "emergency")) count options =
      generateEmergencyData env count options := by
  simp [generateData, strictEqStr]

theorem generateGeoData_ok (env : Env) (count : ℚ) {options : JVal} (h : options ≠ .null) :
    generateGeoData env count options =
      .ok (pushEach (loopCount count) (geoPoint env (flagOr options "includeMetadata"))) := by
  simp only [generateGeoData, destructure_ok h]

theorem generateTrafficData_ok (env : Env) (count : ℚ) {options : JVal} (h : options ≠ .null) :
    generateTrafficData env count options =
      .ok (pushEach (loopCount count) (trafficPoint env (flagOr options "includeVehicles"))) := by
  simp only [generateTrafficData, destructure_ok h]

theorem generateSocialData_ok (env : Env) (count : ℚ) {options : JVal} (h : options ≠ .null) :
    generateSocialData env count options =
      .ok (pushEach (loopCount count) (person env (flagOr options "includeDetails"))) := by
  simp only [generateSocialData, destructure_ok h]

theorem generatePublicTransportData_ok (env : Env) (count : ℚ) {options : JVal}
    (h : options ≠ .null) :
    generatePublicTransportData env count options =
      .ok (pushEach (loopCount count) (vehicle env)) := by
  simp only [generatePublicTransportData, destructure_ok h]

theorem generateEmergencyData_ok (env : Env) (count : ℚ) {options : JVal}
    (h : options ≠ .null) :
    generateEmergencyData env count options =
      .ok (pushEach (loopCount count) (incident env)) := by
  simp only [generateEmergencyData, destructure_ok h]

theorem generateFinancialData_ok (env : Env) (n : Nat) {options : JVal} (h : options ≠ .null) :
    ∃ data, generateFinancialData env n options = .ok data ∧
      data.length = financialCount options n := by
  simp only [generateFinancialData, destructure_ok h, financialCount]
  cases hdt : options.field "dataType" with
  | none =>
    refine ⟨pushEach (loopCount (n : ℚ)) (transaction env), by simp [strictEqStr], ?_⟩
    rw [pushEach_length, loopCount_natCast]
  | some v =>
    simp only
    by_cases h1 : strictEqStr (some v) "transactions" = true
    · refine ⟨_, by rw [if_pos h1], ?_⟩
      rw [pushEach_length, loopCount_natCast, if_pos h1]
    · by_cases h2 : strictEqStr (some v) "budget" = true
      · refine ⟨_, by rw [if_neg h1, if_pos h2], ?_⟩
        rw [if_neg h1, if_pos h2]
        simp [budgetCategories]
      · exact ⟨[], by rw [if_neg h1, if_neg h2], by rw [if_neg h1, if_neg h2]; rfl⟩

theorem generateClimateData_ok (env : Env) (count : ℚ) {options : JVal} (h : options ≠ .null) :
    generateClimateData env count options =
      climateLoop env (climateInterval options) (loopCount count) 0 (climateStart env options) := by
  simp only [generateClimateData, destructure_ok h, climateInterval, climateStart]

theorem generateIoTData_ok (env : Env) (count : ℚ) {options types : JVal}
    (h : options ≠ .null) (ht : iotTypes options = .ok types) :
    generateIoTData env count options = iotLoop env types (loopCount count) 0 := by
  simp only [generateIoTData, destructure_ok h, ht]

theorem generator_error_ne (env : Env) (count : ℚ) (options : JVal) :
    generateGeoData env count options ≠ .error .invalidDataType ∧
    generateTrafficData env count options ≠ .error .invalidDataType ∧
    generateSocialData env count options ≠ .error .invalidDataType ∧
    generateFinancialData env count options ≠ .error .invalidDataType ∧
    generateClimateData env count options ≠ .error .invalidDataType ∧
    generateIoTData env count options ≠ .error .invalidDataType ∧
    generatePublicTransportData env count options ≠ .error .invalidDataType ∧
    generateEmergencyData env count options ≠ .error .invalidDataType := by
  by_cases h : options = .null
  · subst h
    refine ⟨?_, ?_, ?_, ?_, ?_, ?_, ?_, ?_⟩ <;>
      simp [generateGeoData, generateTrafficData, generateSocialData, generateFinancialData,
        generateClimateData, generateIoTData, generatePublicTransportData,
        generateEmergencyData, destructure]
  · refine ⟨?_, ?_, ?_, ?_, ?_, ?_, ?_, ?_⟩
    · rw [generateGeoData_ok env count h]; simp
    · rw [generateTrafficData_ok env count h]; simp
    · rw [generateSocialData_ok env count h]; simp
    · simp only [generateFinancialData, destructure_ok h]
      split_ifs <;> simp
    · rw [generateClimateData_ok env count h]
      intro hc
      have := climateLoop_error env _ _ _ _ _ hc
      cases this
    · simp only [generateIoTData, destructure_ok h]
      split
      · rename_i e he
        intro hc
        simp only [Except.error.injEq] at hc
        have := iotTypes_error he
        rw [hc] at this
        cases this
      · intro hc
        have := iotLoop_error env _ _ _ _ hc
        cases this
    · rw [generatePublicTransportData_ok env count h]; simp
    · rw [generateEmergencyData_ok env count h]; simp

theorem generateData_invalid_iff (env : Env) (dataType : Option JVal) (count : ℚ)
    (options : JVal) :
    generateData env dataType count options = .error .invalidDataType ↔
      ¬ recognised dataType := by
  constructor
  · rintro h ⟨s, hs, rfl⟩
    obtain ⟨g1, g2, g3, g4, g5, g6, g7, g8⟩ := generator_error_ne env count options
    simp only [dataTypes, List.mem_cons, List.mem_singleton, List.not_mem_nil, or_false] at hs
    rcases hs with rfl | rfl | rfl | rfl | rfl | rfl | rfl | rfl | rfl
    · rw [generateData_geo] at h; exact g1 h
    · rw [generateData_traffic] at h; exact g2 h
    · rw [generateData_social] at h; exact g3 h
    · rw [generateData_demographic] at h; exact g3 h
    · rw [generateData_financial] at h; exact g4 h
    · rw [generateData_climate] at h; exact g5 h
    · rw [generateData_iot] at h; exact g6 h
    · rw [generateData_transport] at h; exact g7 h
    · rw [generateData_emergency] at h; exact g8 h
  · exact generateData_unrecognised env dataType count options

theorem postGenerate_eq (env : Env) (body : JVal) (dataType : Option JVal)
    (h : body.getProp "dataType" = .ok dataType) :
    postGenerate env body =
      match generateData env dataType (requestCount env body) (requestOptions body) with
      | .ok data => .ok (.success dataType data.length data)
      | .error e => .ok (.badRequest e) := by
  simp only [postGenerate, h, requestCount, requestOptions]

/-- C9 (counterexample): the body with `dataType: "geo"` and `options: null`
names a recognised data type, yet the endpoint answers 400: destructuring the
null options raises a TypeError, which the endpoint also catches. -/
theorem generate_endpoint_rejects_null_options :
    recognised (some (.str "geo")) ∧
    postGenerate sampleEnv (.obj [("dataType", .str "geo"), ("options", .null)])
      = .ok (.badRequest .typeError) := by
  refine ⟨⟨"geo", by simp [dataTypes], rfl⟩, ?_⟩
  rw [postGenerate_eq sampleEnv (.obj [("dataType", .str "geo"), ("options", .null)])
    (some (.str "geo")) (by simp [JVal.getProp, JVal.field, List.lookup]), generateData_geo]
  simp [requestOptions, JVal.field, List.lookup, generateGeoData, destructure]

/-- C9 (amended): `generateData` fails with the error 'Invalid data type' if and
only if `dataType` is not one of the nine recognised strings; the generate
endpoint answers 400 with the error for that failure and for every other
exception of `generateData`, and answers success with the generated records
and their number exactly when `generateData` returns. -/
theorem generate_endpoint_error_handling (env : Env) :
    (∀ (dataType : Option JVal) (count : ℚ) (options : JVal),
      generateData env dataType count options = .error .invalidDataType ↔
        ¬ recognised dataType) ∧
    (∀ (body : JVal) (dataType : Option JVal), body.getProp "dataType" = .ok dataType →
      (¬ recognised dataType → postGenerate env body = .ok (.badRequest .invalidDataType)) ∧
      (∀ e, generateData env dataType (requestCount env body) (requestOptions body) = .error e →
        postGenerate env body = .ok (.badRequest e)) ∧
      (∀ data, generateData env dataType (requestCount env body) (requestOptions body)
          = .ok data →
        postGenerate env body = .ok (.success dataType data.length data))) := by
  refine ⟨generateData_invalid_iff env, ?_⟩
  intro body dataType hdt
  refine ⟨?_, ?_, ?_⟩
  · intro hnot
    rw [postGenerate_eq env body dataType hdt, generateData_unrecognised env _ _ _ hnot]
  · intro e he
    rw [postGenerate_eq env body dataType hdt, he]
  · intro data hd
    rw [postGenerate_eq env body dataType hdt, hd]

theorem requestCount_num (env : Env) (body : JVal) (n : Nat) (hn : 1 ≤ n ∧ n ≤ 10000)
    (h : body.field "count" = some (.num (.fin n))) : requestCount env body = n := by
  have h0 : (n : ℚ) ≠ 0 := by
    have : 0 < n := hn.1
    exact_mod_cast this.ne'
  have h1 : (1 : ℚ) ≤ n := by exact_mod_cast hn.1
  have h2 : (n : ℚ) ≤ 10000 := by exact_mod_cast hn.2
  simp only [requestCount, h, Option.getD_some, clampCount, toNumber, JNum.orElse, JNum.truthy,
    ne_eq, h0, not_false_eq_true, decide_True, if_true, JNum.min, JNum.max, JNum.toRat]
  rw [min_eq_right h2, max_eq_right h1]

theorem postGenerate_count (env : Env) (body : JVal) (dataType : Option JVal) (count : Nat)
    (data : List JVal) (h : postGenerate env body = .ok (.success dataType count data)) :
    count = data.length := by
  unfold postGenerate at h
  split at h
  · cases h
  · split at h
    · simp only [Except.ok.injEq, HttpResponse.success.injEq] at h
      rw [← h.2.1, h.2.2]
    · simp at h

/-- C10 (counterexample): a request for 1 record of the recognised type
`financial` with `options.dataType` 'budget' returns the 8 budget lines, and
the response's count field is 8. -/
theorem budget_generation_ignores_count :
    recognised (some (.str "financial")) ∧
    ∃ data, generateData sampleEnv (some (.str "financial")) 1
        (.obj [("dataType", .str "budget")]) = .ok data ∧ data.length = 8 ∧
      postGenerate sampleEnv (.obj [("dataType", .str "financial"),
          ("count", .num (.fin 1)), ("options", .obj [("dataType", .str "budget")])])
        = .ok (.success (some (.str "financial")) 8 data) := by
  refine ⟨⟨"financial", by simp [dataTypes], rfl⟩, ?_⟩
  have hgen : generateData sampleEnv (some (.str "financial")) 1
      (.obj [("dataType", .str "budget")]) =
      .ok (budgetCategories.enum.map fun p => budgetLine sampleEnv p.1 p.2) := by
    rw [generateData_financial]
    simp [generateFinancialData, destructure, JVal.field, List.lookup, strictEqStr]
  have hlen : (budgetCategories.enum.map fun p => budgetLine sampleEnv p.1 p.2).length = 8 := by
    simp [budgetCategories]
  refine ⟨_, hgen, hlen, ?_⟩
  have hcount : requestCount sampleEnv (.obj [("dataType", .str "financial"),
      ("count", .num (.fin 1)), ("options", .obj [("dataType", .str "budget")])]) = 1 := by
    have := requestCount_num sampleEnv (.obj [("dataType", .str "financial"),
      ("count", .num (.fin 1)), ("options", .obj [("dataType", .str "budget")])]) 1
      ⟨le_refl 1, by decide⟩ (by simp [JVal.field, List.lookup])
    simpa using this
  rw [postGenerate_eq sampleEnv _ (some (.str "financial"))
    (by simp [JVal.getProp, JVal.field, List.lookup]), hcount]
  have hopt : requestOptions (.obj [("dataType", .str "financial"),
      ("count", .num (.fin 1)), ("options", .obj [("dataType", .str "budget")])])
      = .obj [("dataType", .str "budget")] := by
    simp [requestOptions, JVal.field, List.lookup]
  rw [hopt, hgen]
  simp only [hlen]

/-- C10 (amended): for every integer count in [1, 10000] and every options value
other than null, `generateData` returns exactly `count` records for geo,
traffic, social, demographic, transport and emergency; for financial it
returns `count` transactions when `options.dataType` is absent or
'transactions', the 8 budget lines when it is 'budget', and nothing
otherwise; for climate and iot it returns exactly `count` records whenever it
returns, and it does return when no library call throws (climate: the start
date is valid and adding the interval keeps the date valid; iot: the sensor
types can be read and every draw from them succeeds). The endpoint passes a
numeric count in [1, 10000] on unchanged, and the count field of a success
response is the number of records returned. -/
theorem generateData_record_count (env : Env) (n : Nat) (options : JVal)
    (hn : 1 ≤ n ∧ n ≤ 10000) (hopt : options ≠ .null) :
    (∀ s ∈ ["geo", "traffic", "social", "demographic", "transport", "emergency"],
      ∃ data, generateData env (some (.str s)) n options = .ok data ∧ data.length = n) ∧
    (∃ data, generateData env (some (.str "financial")) n options = .ok data ∧
      data.length = financialCount options n) ∧
    (∀ data, generateData env (some (.str "climate")) n options = .ok data →
      data.length = n) ∧
    (climateStart env options ≠ none →
      (∀ t, env.setHours t (climateInterval options) ≠ none) →
      ∃ data, generateData env (some (.str "climate")) n options = .ok data ∧
        data.length = n) ∧
    (∀ data, generateData env (some (.str "iot")) n options = .ok data → data.length = n) ∧
    (∀ types, iotTypes options = .ok types → (∀ i, env.arrayElement types i ≠ none) →
      ∃ data, generateData env (some (.str "iot")) n options = .ok data ∧ data.length = n) ∧
    (∀ body : JVal, body.field "count" = some (.num (.fin n)) → requestCount env body = n) ∧
    (∀ (body : JVal) (dataType : Option JVal) (count : Nat) (data : List JVal),
      postGenerate env body = .ok (.success dataType count data) → count = data.length) := by
  have hlen : ∀ body : Nat → JVal, (pushEach (loopCount (n : ℚ)) body).length = n := by
    intro body
    rw [pushEach_length, loopCount_natCast]
  have hclimate : ∀ data, generateData env (some (.str "climate")) n options = .ok data →
      data.length = n := by
    intro data h
    rw [generateData_climate, generateClimateData_ok env _ hopt] at h
    rw [climateLoop_length env _ _ _ _ _ h, loopCount_natCast]
  have hiot : ∀ data, generateData env (some (.str "iot")) n options = .ok data →
      data.length = n := by
    intro data h
    rw [generateData_iot] at h
    simp only [generateIoTData, destructure_ok hopt] at h
    split at h
    · cases h
    · rw [iotLoop_length env _ _ _ _ h, loopCount_natCast]
  refine ⟨?_, ?_, hclimate, ?_, hiot, ?_, ?_, ?_⟩
  · intro s hs
    simp only [List.mem_cons, List.mem_singleton, List.not_mem_nil, or_false] at hs
    rcases hs with rfl | rfl | rfl | rfl | rfl | rfl
    · exact ⟨_, by rw [generateData_geo, generateGeoData_ok env _ hopt], hlen _⟩
    · exact ⟨_, by rw [generateData_traffic, generateTrafficData_ok env _ hopt], hlen _⟩
    · exact ⟨_, by rw [generateData_social, generateSocialData_ok env _ hopt], hlen _⟩
    · exact ⟨_, by rw [generateData_demographic, generateSocialData_ok env _ hopt], hlen _⟩
    · exact ⟨_, by rw [generateData_transport, generatePublicTransportData_ok env _ hopt],
        hlen _⟩
    · exact ⟨_, by rw [generateData_emergency, generateEmergencyData_ok env _ hopt], hlen _⟩
  · rw [generateData_financial]
    exact generateFinancialData_ok env n hopt
  · intro hstart hvalid
    cases hs : climateStart env options with
    | none => exact absurd hs hstart
    | some t =>
      obtain ⟨data, hd⟩ := climateLoop_total env (climateInterval options) hvalid
        (loopCount (n : ℚ)) 0 t
      have hg : generateData env (some (.str "climate")) n options = .ok data := by
        rw [generateData_climate, generateClimateData_ok env _ hopt, hs, hd]
      exact ⟨data, hg, hclimate data hg⟩
  · intro types htypes hdraw
    obtain ⟨data, hd⟩ := iotLoop_total env types hdraw (loopCount (n : ℚ)) 0
    have hg : generateData env (some (.str "iot")) n options = .ok data := by
      rw [generateData_iot, generateIoTData_ok env _ hopt htypes, hd]
    exact ⟨data, hg, hiot data hg⟩
  · intro body hb
    exact requestCount_num env body n hn hb
  · intro body dataType count data h
    exact postGenerate_count env body dataType count data h

/-- Witness of C10: three geo records for the empty options. -/
theorem generateData_record_count_witness :
    ∃ data, generateData sampleEnv (some (.str "geo")) (3 : Nat) (.obj []) = .ok data ∧
      data.length = 3 :=
  (generateData_record_count sampleEnv 3 (.obj []) ⟨by decide, by decide⟩
    (fun h => JVal.noConfusion h)).1 "geo" (by simp)

/-! ## Theorems: geo records, the marker set and the points view -/

theorem geoPoint_keys (env : Env) (includeMetadata : Bool) (i : Nat) :
    (geoPoint env includeMetadata i).keys =
      ["id", "lat", "lng", "timestamp", "type"] ++
        (if includeMetadata then ["metadata"] else []) := by
  cases includeMetadata <;> simp [geoPoint, drawn, JVal.keys]

theorem mem_pushEach {n : Nat} {body : Nat → JVal} {r : JVal} (h : r ∈ pushEach n body) :
    ∃ i, r = body i := by
  unfold pushEach at h
  obtain ⟨i, _, hi⟩ := List.mem_map.mp h
  exact ⟨i, hi.symm⟩

/-- C11: for every count, when `options.includeMetadata` is `false` the geo
generator returns its records and each has exactly the keys id, lat, lng,
timestamp, type (so no metadata key), whatever the drawn values; when
`includeMetadata` is `true` or absent from a non-null options value, each
record has those keys and the metadata key. The same holds through
`generateData` with data type `geo`. -/
theorem geo_records_keys (env : Env) (count : ℚ) (options : JVal) :
    (options.field "includeMetadata" = some (.bool false) →
      ∃ data, generateGeoData env count options = .ok data ∧
        generateData env (some (.str "geo")) count options = .ok data ∧
        data.length = loopCount count ∧
        ∀ r ∈ data, r.keys = ["id", "lat", "lng", "timestamp", "type"] ∧
          "metadata" ∉ r.keys) ∧
    (options ≠ .null →
      (options.field "includeMetadata" = some (.bool true) ∨
        options.field "includeMetadata" = none) →
      ∃ data, generateGeoData env count options = .ok data ∧
        generateData env (some (.str "geo")) count options = .ok data ∧
        data.length = loopCount count ∧
        ∀ r ∈ data, r.keys = ["id", "lat", "lng", "timestamp", "type", "metadata"]) := by
  constructor
  · intro hf
    have hnull : options ≠ .null := by
      intro h; rw [h] at hf; simp [JVal.field] at hf
    have hflag : flagOr options "includeMetadata" = false := by
      simp [flagOr, hf, JVal.truthy]
    refine ⟨_, generateGeoData_ok env count hnull, ?_, pushEach_length _ _, ?_⟩
    · rw [generateData_geo, generateGeoData_ok env count hnull]
    · intro r hr
      obtain ⟨i, rfl⟩ := mem_pushEach hr
      rw [geoPoint_keys, hflag]
      simp
  · intro hnull hf
    have hflag : flagOr options "includeMetadata" = true := by
      rcases hf with hf | hf <;> simp [flagOr, hf, JVal.truthy]
    refine ⟨_, generateGeoData_ok env count hnull, ?_, pushEach_length _ _, ?_⟩
    · rw [generateData_geo, generateGeoData_ok env count hnull]
    · intro r hr
      obtain ⟨i, rfl⟩ := mem_pushEach hr
      rw [geoPoint_keys, hflag]
      simp

theorem pushCapped_sliceLast {α : Type} (xs : List α) (r : α) :
    (if (sliceLast 1000 xs ++ [r]).length > 1000 then (sliceLast 1000 xs ++ [r]).tail
      else sliceLast 1000 xs ++ [r]) = sliceLast 1000 (xs ++ [r]) := by
  unfold sliceLast
  by_cases h : xs.length < 1000
  · have h0 : xs.length - 1000 = 0 := by omega
    have h1 : (xs ++ [r]).length - 1000 = 0 := by simp; omega
    simp only [h0, h1, List.drop_zero]
    have h2 : ¬ (xs ++ [r]).length > 1000 := by simp; omega
    simp only [h2, if_false]
  · have hlen : (List.drop (xs.length - 1000) xs ++ [r]).length > 1000 := by
      simp only [List.length_append, List.length_drop, List.length_singleton]; omega
    simp only [hlen, if_true]
    have hne : List.drop (xs.length - 1000) xs ≠ [] := by
      intro hnil
      have := congrArg List.length hnil
      simp only [List.length_drop, List.length_nil] at this
      omega
    rw [List.tail_append_of_ne_nil hne, List.tail_drop]
    have h3 : (xs ++ [r]).length - 1000 = xs.length - 1000 + 1 := by
      simp only [List.length_append, List.length_singleton]; omega
    rw [h3, List.drop_append_of_le_length (by omega)]

theorem addMapMarker_mapMarkers (c : Client) (lat lng item : Option JVal) :
    (addMapMarker c lat lng item).mapMarkers =
      if (c.mapMarkers ++ [Primitive.circle lat lng item]).length > 1000 then
        (c.mapMarkers ++ [Primitive.circle lat lng item]).tail
      else c.mapMarkers ++ [Primitive.circle lat lng item] := rfl

theorem addMarkers_mapMarkers (items : List (Option JVal × Option JVal × Option JVal)) :
    ∀ (c : Client) (pre : List Primitive), c.mapMarkers = sliceLast 1000 pre →
      (addMarkers c items).mapMarkers =
        sliceLast 1000 (pre ++ items.map fun m => Primitive.circle m.1 m.2.1 m.2.2) := by
  induction items with
  | nil => intro c pre hc; simpa [addMarkers] using hc
  | cons m ms ih =>
    intro c pre hc
    have hstep : (addMapMarker c m.1 m.2.1 m.2.2).mapMarkers =
        sliceLast 1000 (pre ++ [Primitive.circle m.1 m.2.1 m.2.2]) := by
      rw [addMapMarker_mapMarkers, hc, pushCapped_sliceLast]
    have := ih (addMapMarker c m.1 m.2.1 m.2.2) (pre ++ [Primitive.circle m.1 m.2.1 m.2.2]) hstep
    simpa [addMarkers, List.append_assoc] using this

/-- C12: starting from an empty marker set, after any sequence of N
`addMapMarker` calls the set holds exactly the markers of the most recent
min(N, 1000) calls in push order and has that length; a call on a full set
drops the oldest marker, the head of the set, and appends the new one. -/
theorem marker_set_most_recent (c : Client) (hc : c.mapMarkers = [])
    (items : List (Option JVal × Option JVal × Option JVal)) :
    (addMarkers c items).mapMarkers =
        sliceLast 1000 (items.map fun m => Primitive.circle m.1 m.2.1 m.2.2) ∧
    (addMarkers c items).mapMarkers.length = Nat.min items.length 1000 ∧
    (∀ (full : Client) (lat lng item : Option JVal), full.mapMarkers.length = MAX_MARKERS →
      (addMapMarker full lat lng item).mapMarkers =
        full.mapMarkers.tail ++ [Primitive.circle lat lng item]) := by
  have hmain := addMarkers_mapMarkers items c [] (by rw [hc]; rfl)
  simp only [List.nil_append] at hmain
  refine ⟨hmain, ?_, ?_⟩
  · rw [hmain, sliceLast_length, List.length_map]
  · intro full lat lng item hfull
    have hlen : (full.mapMarkers ++ [Primitive.circle lat lng item]).length > 1000 := by
      rw [List.length_append, hfull, List.length_singleton]; decide
    rw [addMapMarker_mapMarkers, if_pos hlen]
    have hne : full.mapMarkers ≠ [] := by
      intro h; rw [h] at hfull; cases hfull
    exact List.tail_append_of_ne_nil hne

/-- Witness of C12: two markers pushed into the empty set. -/
theorem marker_set_most_recent_witness :
    (addMarkers Client.init [(none, none, none), (none, none, some .null)]).mapMarkers.length
      = Nat.min 2 1000 :=
  (marker_set_most_recent Client.init rfl [(none, none, none), (none, none, some .null)]).2.1

/-! ## Theorems: the throttled view update -/

theorem SameViews.refl (c : Client) : SameViews c c := ⟨rfl, rfl, rfl, rfl, rfl⟩

theorem SameViews.trans {a b c : Client} (h1 : SameViews a b) (h2 : SameViews b c) :
    SameViews a c :=
  ⟨h1.1.trans h2.1, h1.2.1.trans h2.2.1, h1.2.2.1.trans h2.2.2.1,
    h1.2.2.2.1.trans h2.2.2.2.1, h1.2.2.2.2.trans h2.2.2.2.2⟩

theorem addMapMarker_sameViews (c : Client) (lat lng item : Option JVal) :
    SameViews (addMapMarker c lat lng item) c := ⟨rfl, rfl, rfl, rfl, rfl⟩

theorem collectAutoFitPoint_sameViews (c : Client) (lat lng : Option JVal) :
    SameViews (collectAutoFitPoint c lat lng) c := by
  unfold collectAutoFitPoint
  dsimp only
  split
  · exact SameViews.refl c
  · split
    · obtain ⟨h1, _, h3, h4, h5, h6, _⟩ := clearAutoFitTimer_fields
        { tryFitToPoints { c with autoFitPoints := c.autoFitPoints ++ [(lat, lng)] }
            (c.autoFitPoints ++ [(lat, lng)]) with autoFitPending := false }
      refine ⟨h1.trans ?_, h3.trans ?_, h4.trans ?_, h5.trans ?_, h6.trans ?_⟩ <;>
        (unfold tryFitToPoints; split <;> rfl)
    · exact ⟨rfl, rfl, rfl, rfl, rfl⟩

theorem placeStreamMarker_sameViews (c : Client) (lat lng item : Option JVal) :
    SameViews (placeStreamMarker c lat lng item) c := by
  unfold placeStreamMarker
  dsimp only
  split
  · exact (collectAutoFitPoint_sameViews _ lat lng).trans (addMapMarker_sameViews c lat lng item)
  · exact addMapMarker_sameViews c lat lng item

theorem getProp?_record {data : Option JVal} (h : isRecord data) (k : String) :
    getProp? data k = .ok (field? data k) := by
  obtain ⟨v, rfl, hv⟩ := h
  cases v <;> first | rfl | exact absurd rfl hv

theorem getProp?_not_record {data : Option JVal} (h : ¬ isRecord data) (k : String) :
    getProp? data k = .error .typeError := by
  cases data with
  | none => rfl
  | some v =>
    cases v with
    | null => rfl
    | bool b => exact absurd ⟨_, rfl, fun h => JVal.noConfusion h⟩ h
    | num n => exact absurd ⟨_, rfl, fun h => JVal.noConfusion h⟩ h
    | str t => exact absurd ⟨_, rfl, fun h => JVal.noConfusion h⟩ h
    | arr xs => exact absurd ⟨_, rfl, fun h => JVal.noConfusion h⟩ h
    | obj kvs => exact absurd ⟨_, rfl, fun h => JVal.noConfusion h⟩ h

/-- On a record, `updateStreamVisualization` is a marker step that leaves the
views alone, followed by the throttled view update. -/
theorem updateStreamVisualization_record (c : Client) (now : Int) {data : Option JVal}
    (h : isRecord data) :
    ∃ c1, SameViews c1 c ∧ updateStreamVisualization c now data = (throttledViews c1 now, none) := by
  unfold updateStreamVisualization
  rw [getProp?_record h "lat"]
  dsimp only
  split_ifs
  · exact ⟨_, placeStreamMarker_sameViews c _ _ _, rfl⟩
  · exact ⟨_, placeStreamMarker_sameViews c _ _ _, rfl⟩
  · exact ⟨_, placeStreamMarker_sameViews c _ _ _, rfl⟩
  · exact ⟨_, SameViews.refl c, rfl⟩
  · exact ⟨_, SameViews.refl c, rfl⟩

theorem updateStreamVisualization_not_record (c : Client) (now : Int) {data : Option JVal}
    (h : ¬ isRecord data) :
    updateStreamVisualization c now data = (c, some .typeError) := by
  unfold updateStreamVisualization
  rw [getProp?_not_record h "lat"]

theorem onmessage_streamData (c : Client) (now : Int) (frame : Option JVal)
    (h : isStreamData frame) :
    onmessage c now frame =
      updateStreamVisualization { c with currentData := ingest c.currentData (frameData frame) }
        now (frameData frame) := by
  obtain ⟨message, rfl, hnull, htype⟩ := h
  have hget : message.getProp "type" = .ok (message.field "type") := by
    cases message <;> first | rfl | exact absurd rfl hnull
  simp only [onmessage, hget, htype, if_true, frameData, field?]

theorem onmessage_not_streamData (c : Client) (now : Int) (frame : Option JVal)
    (h : ¬ isStreamData frame) : (onmessage c now frame).1 = c := by
  unfold onmessage
  cases frame with
  | none => rfl
  | some message =>
    cases message with
    | null => rfl
    | bool b => simp [JVal.getProp, JVal.field, strictEqStr]
    | num n => simp [JVal.getProp, JVal.field, strictEqStr]
    | str t => simp [JVal.getProp, JVal.field, strictEqStr]
    | arr xs => simp [JVal.getProp, JVal.field, strictEqStr]
    | obj kvs =>
      simp only [JVal.getProp]
      split_ifs with ht
      · exact absurd ⟨_, rfl, fun h => JVal.noConfusion h, ht⟩ h
      · rfl

/-- The throttled view update, by cases on the clock. -/
theorem throttledViews_cases (c : Client) (now : Int) :
    (now - c.lastUiUpdate > 250 →
      (throttledViews c now).lastUiUpdate = now ∧
      (throttledViews c now).chartInput = sliceLast 50 c.currentData ∧
      (throttledViews c now).tableInput = sliceLast 100 c.currentData ∧
      (throttledViews c now).rawInput = sliceLast 100 c.currentData ∧
      (throttledViews c now).currentData = c.currentData) ∧
    (now - c.lastUiUpdate ≤ 250 → throttledViews c now = c) := by
  unfold throttledViews
  constructor
  · intro h
    rw [if_pos h]
    exact ⟨rfl, rfl, rfl, rfl, rfl⟩
  · intro h
    rw [if_neg (by omega)]

/-- The views after a `stream_data` message that carries a record. -/
theorem onmessage_views (c : Client) (now : Int) (frame : Option JVal)
    (hf : isStreamData frame) (hr : isRecord (frameData frame)) :
    (onmessage c now frame).1.currentData = ingest c.currentData (frameData frame) ∧
    (now - c.lastUiUpdate > 250 →
      (onmessage c now frame).1.lastUiUpdate = now ∧
      (onmessage c now frame).1.chartInput = sliceLast 50 (onmessage c now frame).1.currentData ∧
      (onmessage c now frame).1.tableInput = sliceLast 100 (onmessage c now frame).1.currentData ∧
      (onmessage c now frame).1.rawInput = sliceLast 100 (onmessage c now frame).1.currentData) ∧
    (now - c.lastUiUpdate ≤ 250 →
      (onmessage c now frame).1.lastUiUpdate = c.lastUiUpdate ∧
      (onmessage c now frame).1.chartInput = c.chartInput ∧
      (onmessage c now frame).1.tableInput = c.tableInput ∧
      (onmessage c now frame).1.rawInput = c.rawInput) := by
  have hcur := onmessage_currentData c now frame hf
  rw [onmessage_streamData c now frame hf] at hcur ⊢
  obtain ⟨c1, hsame, heq⟩ := updateStreamVisualization_record
    { c with currentData := ingest c.currentData (frameData frame) } now hr
  rw [heq] at hcur ⊢
  obtain ⟨h1, h2, h3, h4, h5⟩ := hsame
  have hlast : c1.lastUiUpdate = c.lastUiUpdate := h2
  refine ⟨hcur, ?_, ?_⟩
  · intro hgt
    have hgt1 : now - c1.lastUiUpdate > 250 := by rw [hlast]; exact hgt
    obtain ⟨a1, a2, a3, a4, a5⟩ := (throttledViews_cases c1 now).1 hgt1
    exact ⟨a1, by rw [a2, a5], by rw [a3, a5], by rw [a4, a5]⟩
  · intro hle
    have hle1 : now - c1.lastUiUpdate ≤ 250 := by rw [hlast]; exact hle
    rw [(throttledViews_cases c1 now).2 hle1]
    exact ⟨h2, h3, h4, h5⟩

/-- After any inbound frame the throttle clock is unchanged, or it is the
clock value of the frame and that value is more than 250 past the old one. -/
theorem onmessage_lastUiUpdate (c : Client) (now : Int) (frame : Option JVal) :
    (onmessage c now frame).1.lastUiUpdate = c.lastUiUpdate ∨
    ((onmessage c now frame).1.lastUiUpdate = now ∧ now - c.lastUiUpdate > 250) := by
  by_cases hf : isStreamData frame
  · by_cases hr : isRecord (frameData frame)
    · obtain ⟨_, hgt, hle⟩ := onmessage_views c now frame hf hr
      by_cases h : now - c.lastUiUpdate > 250
      · exact Or.inr ⟨(hgt h).1, h⟩
      · exact Or.inl (hle (by omega)).1
    · rw [onmessage_streamData c now frame hf, updateStreamVisualization_not_record _ now hr]
      exact Or.inl rfl
  · rw [onmessage_not_streamData c now frame hf]
    exact Or.inl rfl

theorem placePoint_segment (c : Client) :
    ∃ line, placePoint c (some segmentRecord) =
      ({ c with mapMarkers := c.mapMarkers ++ [line] }, none) := by
  refine ⟨Primitive.polyline (some (.num (.fin 50))) (some (.num (.fin 7)))
    (some (.num (.fin 51))) (some (.num (.fin 8))) (some segmentRecord), ?_⟩
  simp [placePoint, segmentRecord, getProp?, JVal.getProp, field?, JVal.field, List.lookup,
    truthy?, JVal.truthy]

theorem placePoints_segments (n : Nat) :
    ∀ c : Client, ∃ c1, placePoints c (List.replicate n (some segmentRecord)) = (c1, none) ∧
      c1.mapMarkers.length = c.mapMarkers.length + n := by
  induction n with
  | zero => intro c; exact ⟨c, rfl, rfl⟩
  | succ n ih =>
    intro c
    obtain ⟨line, hline⟩ := placePoint_segment c
    obtain ⟨c1, h1, h2⟩ := ih { c with mapMarkers := c.mapMarkers ++ [line] }
    refine ⟨c1, ?_, ?_⟩
    · simp only [List.replicate_succ, placePoints, hline, h1]
    · rw [h2]
      simp only [List.length_append, List.length_singleton]
      omega

theorem getMapMode_pointsDom : getMapMode pointsDom = "points" := by
  simp [getMapMode, pointsDom, List.find?]

/-- C13 (the code at the failing input): in points mode, `updateMapView` on 1001
segment records draws 1001 lines and leaves 1001 primitives in the marker
set: the line branch pushes to `mapMarkers` without the `MAX_MARKERS` check
that `addMapMarker` makes. -/
theorem points_view_exceeds_marker_cap (env : Env) (c : Client) :
    getMapMode pointsDom = "points" ∧
    (updateMapView env pointsDom c (List.replicate 1001 (some segmentRecord))).2 = none ∧
    (updateMapView env pointsDom c
      (List.replicate 1001 (some segmentRecord))).1.mapMarkers.length = 1001 := by
  obtain ⟨c1, h1, h2⟩ := placePoints_segments 1001 (clearMapMarkers c)
  have hlen : c1.mapMarkers.length = 1001 := by
    rw [h2]; simp [clearMapMarkers]
  have hpos : c1.mapMarkers.length > 0 := by rw [hlen]; decide
  have hmode : ¬ getMapMode pointsDom = "heatmap" := by
    rw [getMapMode_pointsDom]; decide
  refine ⟨getMapMode_pointsDom, ?_, ?_⟩
  · simp only [updateMapView, hmode, if_false, h1, hpos, if_true]
  · simp only [updateMapView, hmode, if_false, h1, hpos, if_true]
    exact hlen

theorem viewUpdateTimes_spaced (frames : List (Int × Option JVal)) :
    ∀ c : Client,
      List.Pairwise (fun a b : Int => b - a > 250) (viewUpdateTimes c frames) ∧
      ∀ t ∈ viewUpdateTimes c frames, t - c.lastUiUpdate > 250 := by
  induction frames with
  | nil => intro c; exact ⟨List.Pairwise.nil, fun t ht => by cases ht⟩
  | cons f fs ih =>
    intro c
    obtain ⟨hp, hall⟩ := ih (onmessage c f.1 f.2).1
    rcases onmessage_lastUiUpdate c f.1 f.2 with hsame | ⟨hnow, hgt⟩
    · have hnil : (if (onmessage c f.1 f.2).1.lastUiUpdate ≠ c.lastUiUpdate then [f.1] else [])
          = ([] : List Int) := by rw [if_neg (by simp [hsame])]
      simp only [viewUpdateTimes, hnil, List.nil_append]
      refine ⟨hp, ?_⟩
      intro t ht
      have := hall t ht
      rw [hsame] at this
      exact this
    · have hne : (onmessage c f.1 f.2).1.lastUiUpdate ≠ c.lastUiUpdate := by
        rw [hnow]; intro h; rw [h] at hgt; simp at hgt
      simp only [viewUpdateTimes, if_pos hne, List.singleton_append]
      refine ⟨List.Pairwise.cons ?_ hp, ?_⟩
      · intro t ht
        have := hall t ht
        rw [hnow] at this
        exact this
      · intro t ht
        rcases List.mem_cons.mp ht with rfl | ht
        · exact hgt
        · have := hall t ht
          rw [hnow] at this
          omega

theorem length_le_one_of_spaced (w : Int) :
    ∀ l : List Int, List.Pairwise (fun a b : Int => b - a > 250) l →
      (∀ t ∈ l, w ≤ t ∧ t ≤ w + 250) → l.length ≤ 1 := by
  intro l hp hall
  cases l with
  | nil => simp
  | cons a rest =>
    cases rest with
    | nil => simp
    | cons b rest2 =>
      exfalso
      have hab : b - a > 250 := (List.pairwise_cons.mp hp).1 b (List.mem_cons_self _ _)
      have ha := hall a (List.mem_cons_self _ _)
      have hb := hall b (List.mem_cons_of_mem _ (List.mem_cons_self _ _))
      omega

/-- C14: for every client state and every sequence of inbound frames with their
clock values, any two chart/table/raw updates made by
`updateStreamVisualization` are more than 250 ms apart, the earlier one first
(so consecutive updates are), the first one is more than 250 ms after the
previous value of the throttle clock, and no window of 250 ms holds more than
one update. -/
theorem view_updates_spaced (c : Client) (frames : List (Int × Option JVal)) :
    List.Pairwise (fun a b : Int => b - a > 250) (viewUpdateTimes c frames) ∧
    List.Chain' (fun a b : Int => b - a > 250) (viewUpdateTimes c frames) ∧
    (∀ t ∈ viewUpdateTimes c frames, t - c.lastUiUpdate > 250) ∧
    ∀ w : Int, ((viewUpdateTimes c frames).filter
      (fun t => decide (w ≤ t) && decide (t ≤ w + 250))).length ≤ 1 := by
  obtain ⟨hp, hall⟩ := viewUpdateTimes_spaced frames c
  refine ⟨hp, List.Pairwise.chain' hp, hall, ?_⟩
  intro w
  apply length_le_one_of_spaced w
  · exact List.Pairwise.sublist (List.filter_sublist _) hp
  · intro t ht
    have := (List.mem_filter.mp ht).2
    simpa using this

theorem frameData_streamDataFrame (data : JVal) : frameData (streamDataFrame data) = some data := by
  simp [frameData, streamDataFrame, field?, JVal.field, List.lookup]

theorem isRecord_some {v : JVal} (h : v ≠ .null) : isRecord (some v) := ⟨v, rfl, h⟩

/-- Two records in a row on a fresh page: the first at clock 1000 is rendered,
the second, at most 250 ms later, is buffered and not rendered. -/
theorem second_record_not_rendered (r1 r2 : JVal) (h1 : r1 ≠ .null) (h2 : r2 ≠ .null)
    (t2 : Int) (ht : t2 - 1000 ≤ 250) :
    (receiveAll Client.init
      [(1000, streamDataFrame r1), (t2, streamDataFrame r2)]).currentData = [some r1, some r2] ∧
    (receiveAll Client.init
      [(1000, streamDataFrame r1), (t2, streamDataFrame r2)]).tableInput = [some r1] ∧
    (receiveAll Client.init
      [(1000, streamDataFrame r1), (t2, streamDataFrame r2)]).rawInput = [some r1] ∧
    (receiveAll Client.init
      [(1000, streamDataFrame r1), (t2, streamDataFrame r2)]).lastUiUpdate = 1000 := by
  have hf1 := streamDataFrame_isStreamData r1
  have hf2 := streamDataFrame_isStreamData r2
  have hr1 : isRecord (frameData (streamDataFrame r1)) := by
    rw [frameData_streamDataFrame]; exact isRecord_some h1
  have hr2 : isRecord (frameData (streamDataFrame r2)) := by
    rw [frameData_streamDataFrame]; exact isRecord_some h2
  obtain ⟨a1, a2, _⟩ := onmessage_views Client.init 1000 (streamDataFrame r1) hf1 hr1
  have hgt : (1000 : Int) - Client.init.lastUiUpdate > 250 := by
    show (1000 : Int) - 0 > 250
    decide
  obtain ⟨b1, _, b3, b4⟩ := a2 hgt
  have hcur1 : (onmessage Client.init 1000 (streamDataFrame r1)).1.currentData = [some r1] := by
    rw [a1, frameData_streamDataFrame]; rfl
  rw [hcur1] at b3 b4
  obtain ⟨d1, _, d3⟩ := onmessage_views (onmessage Client.init 1000 (streamDataFrame r1)).1
    t2 (streamDataFrame r2) hf2 hr2
  have hle : t2 - (onmessage Client.init 1000 (streamDataFrame r1)).1.lastUiUpdate ≤ 250 := by
    rw [b1]; exact ht
  obtain ⟨e1, _, e3, e4⟩ := d3 hle
  have hrecv : receiveAll Client.init [(1000, streamDataFrame r1), (t2, streamDataFrame r2)]
      = (onmessage (onmessage Client.init 1000 (streamDataFrame r1)).1 t2
          (streamDataFrame r2)).1 := rfl
  rw [hrecv]
  refine ⟨?_, ?_, ?_, ?_⟩
  · rw [d1, hcur1, frameData_streamDataFrame]; rfl
  · rw [e3, b3]; rfl
  · rw [e4, b4]; rfl
  · rw [e1, b1]

/-- C15 (counterexample): a record arriving exactly 250 ms after the last view
update is buffered, but the table and raw views and the throttle clock stay
as they were: the update is deferred although `now − lastUpdate` is not less
than 250. -/
theorem update_at_250_is_deferred :
    ¬ ((1250 : Int) - 1000 < 250) ∧
    (receiveAll Client.init
      [(1000, streamDataFrame (.obj [("id", .str "a")])),
       (1250, streamDataFrame (.obj [("id", .str "b")]))]).currentData
      = [some (.obj [("id", .str "a")]), some (.obj [("id", .str "b")])] ∧
    (receiveAll Client.init
      [(1000, streamDataFrame (.obj [("id", .str "a")])),
       (1250, streamDataFrame (.obj [("id", .str "b")]))]).tableInput
      = [some (.obj [("id", .str "a")])] ∧
    (receiveAll Client.init
      [(1000, streamDataFrame (.obj [("id", .str "a")])),
       (1250, streamDataFrame (.obj [("id", .str "b")]))]).lastUiUpdate = 1000 := by
  obtain ⟨h1, h2, _, h4⟩ := second_record_not_rendered (.obj [("id", .str "a")])
    (.obj [("id", .str "b")]) (fun h => JVal.noConfusion h) (fun h => JVal.noConfusion h)
    1250 (by decide)
  exact ⟨by decide, h1, h2, h4⟩

/-- C15 (amended): on each streamed record the chart/table/raw update is
deferred (the three view inputs and the throttle clock stay as they were) if
and only if `now − lastUpdate` is at most 250 ms; in particular a record
arriving exactly 250 ms after the last update is deferred, and an update runs
(the throttle clock becomes `now`) exactly when the difference is more than
250 ms. -/
theorem view_update_deferred_iff (c : Client) (now : Int) (frame : Option JVal)
    (hf : isStreamData frame) (hr : isRecord (frameData frame)) :
    (((onmessage c now frame).1.lastUiUpdate = c.lastUiUpdate ∧
      (onmessage c now frame).1.chartInput = c.chartInput ∧
      (onmessage c now frame).1.tableInput = c.tableInput ∧
      (onmessage c now frame).1.rawInput = c.rawInput) ↔ now - c.lastUiUpdate ≤ 250) ∧
    (now - c.lastUiUpdate = 250 →
      (onmessage c now frame).1.lastUiUpdate = c.lastUiUpdate ∧
      (onmessage c now frame).1.tableInput = c.tableInput ∧
      (onmessage c now frame).1.rawInput = c.rawInput) ∧
    ((onmessage c now frame).1.lastUiUpdate = now ∧
      (onmessage c now frame).1.lastUiUpdate ≠ c.lastUiUpdate ↔ now - c.lastUiUpdate > 250) := by
  obtain ⟨_, hgt, hle⟩ := onmessage_views c now frame hf hr
  refine ⟨⟨?_, hle⟩, ?_, ⟨?_, ?_⟩⟩
  · rintro ⟨hsame, _⟩
    by_contra hcon
    have hg : now - c.lastUiUpdate > 250 := by omega
    have := (hgt hg).1
    rw [this] at hsame
    rw [hsame] at hg
    simp at hg
  · intro h250
    obtain ⟨a, _, b, d⟩ := hle (by omega)
    exact ⟨a, b, d⟩
  · rintro ⟨_, hne⟩
    by_contra hcon
    exact hne (hle (by omega)).1
  · intro hg
    have := (hgt hg).1
    refine ⟨this, ?_⟩
    rw [this]
    intro h
    rw [h] at hg
    simp at hg

/-- Witness of C15 (amended): the first record on a fresh page, at clock 1000. -/
theorem view_update_deferred_iff_witness :
    (onmessage Client.init 1000 (streamDataFrame (.obj []))).1.lastUiUpdate = 1000 :=
  ((view_update_deferred_iff Client.init 1000 (streamDataFrame (.obj []))
    (streamDataFrame_isStreamData _)
    (by rw [frameData_streamDataFrame]; exact isRecord_some (fun h => JVal.noConfusion h))).2.2.2
    (by show (1000 : Int) - 0 > 250; decide)).1

theorem sliceLast_sliceLast {α : Type} (xs : List α) :
    sliceLast 100 (sliceLast 1000 xs) = sliceLast 100 xs := by
  unfold sliceLast
  rw [List.length_drop, List.drop_drop]
  have h : xs.length - 1000 + (xs.length - (xs.length - 1000) - 100) = xs.length - 100 := by
    omega
  rw [h]

theorem sliceLast_take_self {α : Type} (n : Nat) (xs : List α) :
    (sliceLast n xs).take n = sliceLast n xs := by
  apply List.take_of_length_le
  rw [sliceLast_length]
  exact Nat.min_le_right _ _

theorem receiveAll_views (frames : List (Int × Option JVal)) :
    ∀ (c : Client) (pre : List (Option JVal)),
      (∀ f ∈ frames, isStreamData f.2) →
      c.currentData = sliceLast 1000 pre →
      (∃ k, k ≤ pre.length ∧ c.tableInput = sliceLast 100 (pre.take k) ∧
        c.rawInput = sliceLast 100 (pre.take k)) →
      ∃ k, k ≤ (pre ++ frames.map fun f => frameData f.2).length ∧
        (receiveAll c frames).tableInput =
          sliceLast 100 ((pre ++ frames.map fun f => frameData f.2).take k) ∧
        (receiveAll c frames).rawInput =
          sliceLast 100 ((pre ++ frames.map fun f => frameData f.2).take k) := by
  induction frames with
  | nil =>
    intro c pre _ _ hv
    simpa [receiveAll] using hv
  | cons f fs ih =>
    intro c pre hall hc hv
    have hf : isStreamData f.2 := hall f (List.mem_cons_self _ _)
    have hrest : ∀ g ∈ fs, isStreamData g.2 := fun g hg => hall g (List.mem_cons_of_mem _ hg)
    have hcur : (onmessage c f.1 f.2).1.currentData =
        sliceLast 1000 (pre ++ [frameData f.2]) := by
      rw [onmessage_currentData c f.1 f.2 hf, hc, ingest_sliceLast]
    have hviews : ∃ k, k ≤ (pre ++ [frameData f.2]).length ∧
        (onmessage c f.1 f.2).1.tableInput = sliceLast 100 ((pre ++ [frameData f.2]).take k) ∧
        (onmessage c f.1 f.2).1.rawInput = sliceLast 100 ((pre ++ [frameData f.2]).take k) := by
      obtain ⟨k, hk, ht, hraw⟩ := hv
      have hkeep : (onmessage c f.1 f.2).1.tableInput = c.tableInput →
          (onmessage c f.1 f.2).1.rawInput = c.rawInput →
          ∃ k, k ≤ (pre ++ [frameData f.2]).length ∧
            (onmessage c f.1 f.2).1.tableInput =
              sliceLast 100 ((pre ++ [frameData f.2]).take k) ∧
            (onmessage c f.1 f.2).1.rawInput =
              sliceLast 100 ((pre ++ [frameData f.2]).take k) := by
        intro e1 e2
        refine ⟨k, ?_, ?_, ?_⟩
        · rw [List.length_append]; omega
        · rw [e1, ht, List.take_append_of_le_length hk]
        · rw [e2, hraw, List.take_append_of_le_length hk]
      by_cases hr : isRecord (frameData f.2)
      · obtain ⟨_, hgt, hle⟩ := onmessage_views c f.1 f.2 hf hr
        by_cases hg : f.1 - c.lastUiUpdate > 250
        · obtain ⟨_, _, g3, g4⟩ := hgt hg
          refine ⟨(pre ++ [frameData f.2]).length, le_refl _, ?_, ?_⟩
          · rw [g3, hcur, sliceLast_sliceLast, List.take_length]
          · rw [g4, hcur, sliceLast_sliceLast, List.take_length]
        · obtain ⟨_, _, g3, g4⟩ := hle (by omega)
          exact hkeep g3 g4
      · have hst : onmessage c f.1 f.2 =
            ({ c with currentData := ingest c.currentData (frameData f.2) }, some .typeError) := by
          rw [onmessage_streamData c f.1 f.2 hf, updateStreamVisualization_not_record _ _ hr]
        exact hkeep (by rw [hst]) (by rw [hst])
    have := ih (onmessage c f.1 f.2).1 (pre ++ [frameData f.2]) hrest hcur hviews
    simpa [receiveAll, List.append_assoc] using this

/-- C16 (counterexample): two records 100 ms apart on a fresh page. After both
are processed the buffer holds both, but the table and raw views hold only
the first; no later step of the program renders the second. -/
theorem last_record_left_unrendered :
    (receiveAll Client.init
      [(1000, streamDataFrame (.obj [("id", .str "a")])),
       (1100, streamDataFrame (.obj [("id", .str "b")]))]).currentData
      = [some (.obj [("id", .str "a")]), some (.obj [("id", .str "b")])] ∧
    (receiveAll Client.init
      [(1000, streamDataFrame (.obj [("id", .str "a")])),
       (1100, streamDataFrame (.obj [("id", .str "b")]))]).tableInput
      = [some (.obj [("id", .str "a")])] ∧
    (receiveAll Client.init
      [(1000, streamDataFrame (.obj [("id", .str "a")])),
       (1100, streamDataFrame (.obj [("id", .str "b")]))]).rawInput
      = [some (.obj [("id", .str "a")])] := by
  obtain ⟨h1, h2, h3, _⟩ := second_record_not_rendered (.obj [("id", .str "a")])
    (.obj [("id", .str "b")]) (fun h => JVal.noConfusion h) (fun h => JVal.noConfusion h)
    1100 (by decide)
  exact ⟨h1, h2, h3⟩

/-- C16 (amended): for every finite sequence of streamed records received on a
fresh page, the table and raw views show the most recent min(k, 100) of the
first k records, where k is the position of the last record whose update was
not throttled (k = 0: nothing rendered); they show the most recent
min(n, 100) records of the whole buffer when the last record's update is not
throttled, and a throttled update is dropped, not deferred: the views keep
what they showed. -/
theorem views_show_last_unthrottled_state (frames : List (Int × Option JVal))
    (h : ∀ f ∈ frames, isStreamData f.2) :
    (∃ k, k ≤ frames.length ∧
      (receiveAll Client.init frames).tableInput =
        sliceLast 100 ((frames.map fun f => frameData f.2).take k) ∧
      (receiveAll Client.init frames).rawInput =
        sliceLast 100 ((frames.map fun f => frameData f.2).take k)) ∧
    (∀ (c : Client) (now : Int) (frame : Option JVal), isStreamData frame →
      isRecord (frameData frame) →
      (now - c.lastUiUpdate > 250 →
        (onmessage c now frame).1.tableInput =
          sliceLast 100 (onmessage c now frame).1.currentData ∧
        (onmessage c now frame).1.rawInput =
          sliceLast 100 (onmessage c now frame).1.currentData) ∧
      (now - c.lastUiUpdate ≤ 250 →
        (onmessage c now frame).1.tableInput = c.tableInput ∧
        (onmessage c now frame).1.rawInput = c.rawInput)) := by
  constructor
  · obtain ⟨k, hk, h1, h2⟩ := receiveAll_views frames Client.init [] h rfl
      ⟨0, le_refl _, rfl, rfl⟩
    simp only [List.nil_append, List.length_map] at hk h1 h2
    exact ⟨k, hk, h1, h2⟩
  · intro c now frame hf hr
    obtain ⟨_, hgt, hle⟩ := onmessage_views c now frame hf hr
    exact ⟨fun hg => ⟨(hgt hg).2.2.1, (hgt hg).2.2.2⟩, fun hl => ⟨(hle hl).2.2.1, (hle hl).2.2.2⟩⟩

/-- Witness of C16 (amended): one record received on a fresh page. -/
theorem views_show_last_unthrottled_state_witness :
    ∃ k, k ≤ [((1000 : Int), streamDataFrame (.obj []))].length ∧
      (receiveAll Client.init [(1000, streamDataFrame (.obj []))]).tableInput =
        sliceLast 100 (([((1000 : Int), streamDataFrame (.obj []))].map
          fun f => frameData f.2).take k) ∧
      (receiveAll Client.init [(1000, streamDataFrame (.obj []))]).rawInput =
        sliceLast 100 (([((1000 : Int), streamDataFrame (.obj []))].map
          fun f => frameData f.2).take k) :=
  (views_show_last_unthrottled_state [(1000, streamDataFrame (.obj []))]
    (by
      intro f hf
      simp only [List.mem_singleton] at hf
      rw [hf]
      exact streamDataFrame_isStreamData _)).1

/-- C17: whenever a streamed record's update is not throttled, the chart input is
the most recent min(n, 50) records of the buffer (the new record included),
and the table input, the rows the table renders and the raw view input are all
the most recent min(n, 100) records of the buffer, in buffer order. -/
theorem unthrottled_update_windows (c : Client) (now : Int) (frame : Option JVal)
    (hf : isStreamData frame) (hr : isRecord (frameData frame))
    (hgt : now - c.lastUiUpdate > 250) :
    (onmessage c now frame).1.currentData = ingest c.currentData (frameData frame) ∧
    (onmessage c now frame).1.chartInput = sliceLast 50 (onmessage c now frame).1.currentData ∧
    (onmessage c now frame).1.chartInput.length =
      Nat.min (onmessage c now frame).1.currentData.length 50 ∧
    (onmessage c now frame).1.tableInput = sliceLast 100 (onmessage c now frame).1.currentData ∧
    tableRows (onmessage c now frame).1 = sliceLast 100 (onmessage c now frame).1.currentData ∧
    (onmessage c now frame).1.rawInput = sliceLast 100 (onmessage c now frame).1.currentData ∧
    (tableRows (onmessage c now frame).1).length =
      Nat.min (onmessage c now frame).1.currentData.length 100 := by
  obtain ⟨hcur, hup, _⟩ := onmessage_views c now frame hf hr
  obtain ⟨_, h2, h3, h4⟩ := hup hgt
  have hrows : tableRows (onmessage c now frame).1 =
      sliceLast 100 (onmessage c now frame).1.currentData := by
    unfold tableRows
    rw [h3]
    exact sliceLast_take_self 100 _
  refine ⟨hcur, h2, ?_, h3, hrows, h4, ?_⟩
  · rw [h2, sliceLast_length]
  · rw [hrows, sliceLast_length]

/-- Witness of C17: the first record on a fresh page, at clock 1000. -/
theorem unthrottled_update_windows_witness :
    (onmessage Client.init 1000 (streamDataFrame (.obj []))).1.tableInput =
      sliceLast 100 (onmessage Client.init 1000 (streamDataFrame (.obj []))).1.currentData :=
  (unthrottled_update_windows Client.init 1000 (streamDataFrame (.obj []))
    (streamDataFrame_isStreamData _)
    (by rw [frameData_streamDataFrame]; exact isRecord_some (fun h => JVal.noConfusion h))
    (by show (1000 : Int) - 0 > 250; decide)).2.2.2.1

/-! ## Theorems: position lookup and the map mode -/

theorem throttledViews_mapMarkers (c : Client) (now : Int) :
    (throttledViews c now).mapMarkers = c.mapMarkers := by
  unfold throttledViews
  split <;> rfl

theorem collectAutoFitPoint_mapMarkers (c : Client) (lat lng : Option JVal) :
    (collectAutoFitPoint c lat lng).mapMarkers = c.mapMarkers := by
  unfold collectAutoFitPoint
  dsimp only
  split
  · rfl
  · split
    · rw [(clearAutoFitTimer_fields _).2.1]
      unfold tryFitToPoints
      split <;> rfl
    · rfl

theorem placeStreamMarker_mapMarkers (c : Client) (lat lng item : Option JVal) :
    (placeStreamMarker c lat lng item).mapMarkers = (addMapMarker c lat lng item).mapMarkers := by
  unfold placeStreamMarker
  dsimp only
  split
  · rw [collectAutoFitPoint_mapMarkers]
  · rfl

/-- The marker step of `updateStreamVisualization` on a record, by the shape
found; the clock plays no part. -/
theorem updateStreamVisualization_mapMarkers (c : Client) (now : Int) {data : Option JVal}
    (hr : isRecord data) :
    (updateStreamVisualization c now data).2 = none ∧
    ((truthy? (field? data "lat") && truthy? (field? data "lng")) = true →
      (updateStreamVisualization c now data).1.mapMarkers =
        (addMapMarker c (field? data "lat") (field? data "lng") data).mapMarkers) ∧
    ((truthy? (field? data "lat") && truthy? (field? data "lng")) = false →
      truthy? (field? data "location") = true →
      (updateStreamVisualization c now data).1.mapMarkers =
        (addMapMarker c (field? (field? data "location") "lat")
          (field? (field? data "location") "lng") data).mapMarkers) ∧
    ((truthy? (field? data "lat") && truthy? (field? data "lng")) = false →
      truthy? (field? data "location") = false →
      truthy? (field? data "coordinates") = true →
      truthy? (field? (field? data "coordinates") "start") = true →
      (updateStreamVisualization c now data).1.mapMarkers =
        (addMapMarker c (field? (field? (field? data "coordinates") "start") "lat")
          (field? (field? (field? data "coordinates") "start") "lng") data).mapMarkers) ∧
    ((truthy? (field? data "lat") && truthy? (field? data "lng")) = false →
      truthy? (field? data "location") = false →
      truthy? (field? data "coordinates") = false →
      (updateStreamVisualization c now data).1.mapMarkers = c.mapMarkers) := by
  unfold updateStreamVisualization
  rw [getProp?_record hr "lat"]
  dsimp only
  refine ⟨rfl, ?_, ?_, ?_, ?_⟩
  · intro h1
    rw [if_pos h1, throttledViews_mapMarkers, placeStreamMarker_mapMarkers]
  · intro h1 h2
    rw [if_neg (by rw [h1]; decide), if_pos h2, throttledViews_mapMarkers,
      placeStreamMarker_mapMarkers]
  · intro h1 h2 h3 h4
    rw [if_neg (by rw [h1]; decide), if_neg (by rw [h2]; decide), if_pos h3, if_pos h4,
      throttledViews_mapMarkers, placeStreamMarker_mapMarkers]
  · intro h1 h2 h3
    rw [if_neg (by rw [h1]; decide), if_neg (by rw [h2]; decide), if_neg (by rw [h3]; decide),
      throttledViews_mapMarkers]

/-- C18 (the code at the failing input, and the shapes that are handled): a
streamed public-transport record, whose position is under
`current_location`, gets no map marker: `updateStreamVisualization` has no
branch for that shape (the points branch of `updateMapView` has one). For a
record with a truthy direct `lat`/`lng`, else a truthy `location`, else a
truthy `coordinates.start`, a marker at that position is added at once,
whatever the clock. -/
theorem streamed_transport_record_gets_no_marker (c : Client) (now : Int) :
    (onmessage c now (streamDataFrame transportRecord)).1.mapMarkers = c.mapMarkers ∧
    (onmessage c now (streamDataFrame transportRecord)).2 = none ∧
    (∀ frame : Option JVal, isStreamData frame → isRecord (frameData frame) →
      ((truthy? (field? (frameData frame) "lat") &&
          truthy? (field? (frameData frame) "lng")) = true →
        (onmessage c now frame).1.mapMarkers =
          (addMapMarker c (field? (frameData frame) "lat") (field? (frameData frame) "lng")
            (frameData frame)).mapMarkers) ∧
      ((truthy? (field? (frameData frame) "lat") &&
          truthy? (field? (frameData frame) "lng")) = false →
        truthy? (field? (frameData frame) "location") = true →
        (onmessage c now frame).1.mapMarkers =
          (addMapMarker c (field? (field? (frameData frame) "location") "lat")
            (field? (field? (frameData frame) "location") "lng")
            (frameData frame)).mapMarkers) ∧
      ((truthy? (field? (frameData frame) "lat") &&
          truthy? (field? (frameData frame) "lng")) = false →
        truthy? (field? (frameData frame) "location") = false →
        truthy? (field? (frameData frame) "coordinates") = true →
        truthy? (field? (field? (frameData frame) "coordinates") "start") = true →
        (onmessage c now frame).1.mapMarkers =
          (addMapMarker c (field? (field? (field? (frameData frame) "coordinates") "start") "lat")
            (field? (field? (field? (frameData frame) "coordinates") "start") "lng")
            (frameData frame)).mapMarkers)) := by
  have hf := streamDataFrame_isStreamData transportRecord
  have hr : isRecord (frameData (streamDataFrame transportRecord)) := by
    rw [frameData_streamDataFrame]
    exact isRecord_some (fun h => JVal.noConfusion h)
  refine ⟨?_, ?_, ?_⟩
  · rw [onmessage_streamData c now _ hf]
    obtain ⟨_, _, _, _, h5⟩ := updateStreamVisualization_mapMarkers
      { c with currentData := ingest c.currentData (frameData (streamDataFrame transportRecord)) }
      now hr
    rw [h5]
    · simp [frameData_streamDataFrame, transportRecord, field?, JVal.field, List.lookup, truthy?]
    · simp [frameData_streamDataFrame, transportRecord, field?, JVal.field, List.lookup, truthy?]
    · simp [frameData_streamDataFrame, transportRecord, field?, JVal.field, List.lookup, truthy?]
  · rw [onmessage_streamData c now _ hf]
    exact (updateStreamVisualization_mapMarkers _ now hr).1
  · intro frame hfr hrec
    rw [onmessage_streamData c now _ hfr]
    obtain ⟨_, h2, h3, h4, _⟩ := updateStreamVisualization_mapMarkers
      { c with currentData := ingest c.currentData (frameData frame) } now hrec
    exact ⟨h2, h3, h4⟩

theorem getMapMode_heatDom : getMapMode heatDom = "heatmap" := by
  simp [getMapMode, heatDom, List.find?]

theorem heatPoint_none_of_position {env : Env} {item : Option JVal}
    (h : heatPosition item = (none, none)) : heatPoint env item = none := by
  simp [heatPoint, h, truthy?]

/-- C19 (the code at the failing input, and the lookup order elsewhere): in
heatmap mode a record whose direct `lat` is the number 0 contributes no point,
because the shape tests and the final `if (lat && lng)` are truthiness tests.
For truthy coordinates the order is direct `lat`/`lng`, then `location`, then
`coordinates.start`, then `current_location`, and a record with none of the
four shapes contributes no point. -/
theorem heatmap_drops_zero_coordinate (env : Env) (c : Client) :
    heatPoint env (some equatorRecord) = none ∧
    (updateMapView env heatDom c [some equatorRecord]).1.heatmapLayer = none ∧
    (∀ item : Option JVal,
      (truthy? (field? item "lat") && truthy? (field? item "lng")) = true →
      heatPosition item = (field? item "lat", field? item "lng") ∧
      (heatPoint env item).map (fun p => (p.lat, p.lng)) =
        some (field? item "lat", field? item "lng")) ∧
    (∀ item : Option JVal,
      (truthy? (field? item "lat") && truthy? (field? item "lng")) = false →
      truthy? (field? item "location") = true →
      heatPosition item =
        (field? (field? item "location") "lat", field? (field? item "location") "lng")) ∧
    (∀ item : Option JVal,
      (truthy? (field? item "lat") && truthy? (field? item "lng")) = false →
      truthy? (field? item "location") = false →
      (truthy? (field? item "coordinates") &&
        truthy? (field? (field? item "coordinates") "start")) = true →
      heatPosition item =
        (field? (field? (field? item "coordinates") "start") "lat",
         field? (field? (field? item "coordinates") "start") "lng")) ∧
    (∀ item : Option JVal,
      (truthy? (field? item "lat") && truthy? (field? item "lng")) = false →
      truthy? (field? item "location") = false →
      (truthy? (field? item "coordinates") &&
        truthy? (field? (field? item "coordinates") "start")) = false →
      truthy? (field? item "current_location") = true →
      heatPosition item =
        (field? (field? item "current_location") "lat",
         field? (field? item "current_location") "lng")) ∧
    (∀ item : Option JVal,
      (field? item "lat" = none ∨ field? item "lng" = none) →
      field? item "location" = none → field? item "coordinates" = none →
      field? item "current_location" = none →
      heatPoint env item = none) := by
  have heq : heatPoint env (some equatorRecord) = none := by
    simp [heatPoint, heatPosition, equatorRecord, field?, JVal.field, List.lookup, truthy?,
      JVal.truthy, JNum.truthy]
  refine ⟨heq, ?_, ?_, ?_, ?_, ?_, ?_⟩
  · have hg : getProp? (some equatorRecord) "lat" = .ok (field? (some equatorRecord) "lat") :=
      getProp?_record (isRecord_some (fun h => JVal.noConfusion h)) "lat"
    have hd : heatmapData env [some equatorRecord] = .ok [] := by
      simp only [heatmapData, hg, heq]
      rfl
    simp [updateMapView, getMapMode_heatDom, hd, clearMapMarkers]
  · intro item h
    have hp : heatPosition item = (field? item "lat", field? item "lng") := by
      unfold heatPosition
      dsimp only
      rw [if_pos h]
    refine ⟨hp, ?_⟩
    unfold heatPoint
    dsimp only
    rw [hp]
    simp [h]
  · intro item h1 h2
    unfold heatPosition
    dsimp only
    rw [if_neg (by rw [h1]; decide), if_pos h2]
  · intro item h1 h2 h3
    unfold heatPosition
    dsimp only
    rw [if_neg (by rw [h1]; decide), if_neg (by rw [h2]; decide), if_pos h3]
  · intro item h1 h2 h3 h4
    unfold heatPosition
    dsimp only
    rw [if_neg (by rw [h1]; decide), if_neg (by rw [h2]; decide), if_neg (by rw [h3]; decide),
      if_pos h4]
  · intro item h1 h2 h3 h4
    apply heatPoint_none_of_position
    have hd : (truthy? (field? item "lat") && truthy? (field? item "lng")) = false := by
      rcases h1 with h | h <;> simp [h, truthy?]
    unfold heatPosition
    dsimp only
    rw [if_neg (by rw [hd]; decide), h2, h3, h4]
    simp [truthy?]

theorem getMapMode_maybeSwitchToHeatmap (dom : Dom) (dataType : String) (count : Nat) :
    getMapMode (maybeSwitchToHeatmap dom dataType count) = getMapMode dom := by
  unfold maybeSwitchToHeatmap
  split
  · rfl
  · split <;> rfl

theorem generateStatic_dom (env : Env) (dom : Dom) (c : Client) (dataType : String)
    (data : List (Option JVal)) :
    (generateStatic env dom c dataType data).1 =
      maybeSwitchToHeatmap dom dataType data.length := rfl

theorem generateStatic_client (env : Env) (dom : Dom) (c : Client) (dataType : String)
    (data : List (Option JVal)) :
    (generateStatic env dom c dataType data).2 =
      visualizeData env (maybeSwitchToHeatmap dom dataType data.length)
        (storeGenerated c data) data := rfl

/-- C20 (the code at the failing input, and the cases where nothing changes):
`maybeSwitchToHeatmap` writes only the value of the element
`mapVisualizationMode`, which `getMapMode` never reads, so the mode that
`updateMapView` reads is the same before and after it for every page, data
type and count. After a one-shot generation of 2500 traffic records on a
page in points mode the selector shows heatmap, but `getMapMode` still
returns points and the map is drawn in points mode. -/
theorem auto_switch_does_not_reach_map_mode (env : Env) (c : Client) :
    (∀ (dom : Dom) (dataType : String) (count : Nat),
      getMapMode (maybeSwitchToHeatmap dom dataType count) = getMapMode dom) ∧
    getMapMode pointsDom = "points" ∧
    (generateStatic env pointsDom c "traffic"
      (List.replicate 2500 (some segmentRecord))).1.mapModeSelect = some "heatmap" ∧
    getMapMode (generateStatic env pointsDom c "traffic"
      (List.replicate 2500 (some segmentRecord))).1 = "points" ∧
    (generateStatic env pointsDom c "traffic"
      (List.replicate 2500 (some segmentRecord))).2.1.heatmapLayer = none ∧
    (generateStatic env pointsDom c "traffic"
      (List.replicate 2500 (some segmentRecord))).2.1.mapMarkers.length = 2500 := by
  have hmode : ∀ n, getMapMode (maybeSwitchToHeatmap pointsDom "traffic" n) = "points" := by
    intro n
    rw [getMapMode_maybeSwitchToHeatmap, getMapMode_pointsDom]
  have hnot : ∀ n, ¬ getMapMode (maybeSwitchToHeatmap pointsDom "traffic" n) = "heatmap" := by
    intro n
    rw [hmode n]
    decide
  obtain ⟨c1, h1, h2⟩ := placePoints_segments 2500
    (clearMapMarkers (storeGenerated c (List.replicate 2500 (some segmentRecord))))
  have hlen : c1.mapMarkers.length = 2500 := by
    rw [h2]
    show (0 : Nat) + 2500 = 2500
    rfl
  have hpos : c1.mapMarkers.length > 0 := by rw [hlen]; exact Nat.succ_pos _
  have hheat : c1.heatmapLayer = none := by
    have hkeep : ∀ (n : Nat) (a b : Client),
        placePoints a (List.replicate n (some segmentRecord)) = (b, none) →
        b.heatmapLayer = a.heatmapLayer := by
      intro n
      induction n with
      | zero =>
        intro a b h
        simp only [List.replicate_zero, placePoints, Prod.mk.injEq, and_true] at h
        rw [h]
      | succ n ih =>
        intro a b h
        obtain ⟨line, hline⟩ := placePoint_segment a
        simp only [List.replicate_succ, placePoints, hline] at h
        have := ih _ _ h
        exact this
    exact hkeep 2500 _ _ h1
  refine ⟨getMapMode_maybeSwitchToHeatmap, getMapMode_pointsDom, ?_, ?_, ?_, ?_⟩
  · rw [generateStatic_dom, List.length_replicate]
    simp [maybeSwitchToHeatmap, pointsDom, pointHeavyTypes]
  · rw [generateStatic_dom]
    exact hmode _
  · rw [generateStatic_client]
    simp only [visualizeData, updateMapView, hnot, if_false, h1, hpos, if_true]
    exact hheat
  · rw [generateStatic_client]
    simp only [visualizeData, updateMapView, hnot, if_false, h1, hpos, if_true]
    exact hlen

/-! ## Theorems: heat weights and the heat layer -/

theorem heatPoint_weight {env : Env} {item : Option JVal} {p : HeatPoint}
    (h : heatPoint env item = some p) :
    p.weight = JNum.min (heatIntensity env item) (.fin 10) := by
  unfold heatPoint at h
  dsimp only at h
  split at h
  · simp only [Option.some.injEq] at h
    rw [← h]
  · cases h

theorem min_fin_ten_bounds (n : JNum) :
    (∀ q, JNum.min n (.fin 10) = .fin q → q ≤ 10) ∧ JNum.min n (.fin 10) ≠ .posInf ∧
    (∀ q, n = .fin q → JNum.min n (.fin 10) = .fin (min q 10)) := by
  cases n with
  | nan => simp [JNum.min]
  | negInf => simp [JNum.min]
  | posInf => simp [JNum.min]
  | fin x =>
    refine ⟨?_, by simp [JNum.min], ?_⟩
    · intro q hq
      simp only [JNum.min, JNum.fin.injEq] at hq
      rw [← hq]
      exact min_le_right _ _
    · intro q hq
      cases hq
      rfl

/-- C23 (counterexample): a record with a position and a temperature of 5
contributes a heat point of weight -10: the intensity (5 − 10) × 2 is only
capped from above. -/
theorem cold_record_has_negative_weight :
    ∃ p, heatPoint sampleEnv (some coldRecord) = some p ∧ p.weight = .fin (-10) := by
  refine ⟨{ lat := some (.num (.fin 50)), lng := some (.num (.fin 7)), weight := .fin (-10) },
    ?_, rfl⟩
  simp [heatPoint, heatPosition, heatIntensity, coldRecord, field?, JVal.field, List.lookup,
    truthy?, JVal.truthy, JNum.truthy, toNumber, JNum.subConst, JNum.mulPos, JNum.min]
  norm_num

/-- C23 (amended): for every record that contributes a heatmap point, the weight
passed to the heat layer is `Math.min(intensity, 10)`: it is never above 10
and never +Infinity, and for a finite intensity it lies in [0, 10] exactly
when the intensity is not negative (a temperature below 10 gives a negative
weight). -/
theorem heat_weight_capped_above (env : Env) (item : Option JVal) (p : HeatPoint)
    (h : heatPoint env item = some p) :
    p.weight = JNum.min (heatIntensity env item) (.fin 10) ∧
    (∀ q, p.weight = .fin q → q ≤ 10) ∧
    p.weight ≠ .posInf ∧
    (∀ q, heatIntensity env item = .fin q →
      p.weight = .fin (min q 10) ∧ (0 ≤ min q 10 ↔ 0 ≤ q)) := by
  have hw := heatPoint_weight h
  obtain ⟨h1, h2, h3⟩ := min_fin_ten_bounds (heatIntensity env item)
  rw [hw]
  refine ⟨rfl, h1, h2, ?_⟩
  intro q hq
  refine ⟨h3 q hq, ?_⟩
  constructor
  · intro h0
    exact le_trans h0 (min_le_left _ _)
  · intro h0
    exact le_min h0 (by norm_num)

/-- Witness of C23 (amended): the record with a temperature of 5. -/
theorem heat_weight_capped_above_witness :
    ({ lat := some (.num (.fin 50)), lng := some (.num (.fin 7)),
       weight := .fin (-10) } : HeatPoint).weight =
      JNum.min (heatIntensity sampleEnv (some coldRecord)) (.fin 10) :=
  (heat_weight_capped_above sampleEnv (some coldRecord)
    { lat := some (.num (.fin 50)), lng := some (.num (.fin 7)), weight := .fin (-10) }
    (by
      simp [heatPoint, heatPosition, heatIntensity, coldRecord, field?, JVal.field, List.lookup,
        truthy?, JVal.truthy, JNum.truthy, toNumber, JNum.subConst, JNum.mulPos, JNum.min]
      norm_num)).1

/-- C24 (the code at the failing input, and the order elsewhere): a record with
a position and `congestion_level` 0 gets intensity and weight 1, not 0 × 10:
the first four fields are tested for truthiness, so a value of 0 counts as
absent (only `occupancy` is tested against `undefined`). For a non-zero
numeric value the first field present in the order population_density,
congestion_level, temperature, air_quality_index, occupancy gives the
intensity (/100, ×10, (t − 10) × 2, /20, /10), an occupancy of 0 counts, and
a record with none of the fields has intensity 1. -/
theorem zero_congestion_counts_as_absent (env : Env) :
    heatIntensity env (some freeFlowRecord) = .fin 1 ∧
    (∃ p, heatPoint env (some freeFlowRecord) = some p ∧ p.weight = .fin 1) ∧
    (∀ (item : Option JVal) (q : ℚ), q ≠ 0 →
      field? item "population_density" = some (.num (.fin q)) →
      heatIntensity env item = .fin (q / 100)) ∧
    (∀ (item : Option JVal) (q : ℚ), q ≠ 0 →
      truthy? (field? item "population_density") = false →
      field? item "congestion_level" = some (.num (.fin q)) →
      heatIntensity env item = .fin (q * 10)) ∧
    (∀ (item : Option JVal) (q : ℚ), q ≠ 0 →
      truthy? (field? item "population_density") = false →
      truthy? (field? item "congestion_level") = false →
      field? item "temperature" = some (.num (.fin q)) →
      heatIntensity env item = .fin ((q - 10) * 2)) ∧
    (∀ (item : Option JVal) (q : ℚ), q ≠ 0 →
      truthy? (field? item "population_density") = false →
      truthy? (field? item "congestion_level") = false →
      truthy? (field? item "temperature") = false →
      field? item "air_quality_index" = some (.num (.fin q)) →
      heatIntensity env item = .fin (q / 20)) ∧
    (∀ (item : Option JVal) (q : ℚ),
      truthy? (field? item "population_density") = false →
      truthy? (field? item "congestion_level") = false →
      truthy? (field? item "temperature") = false →
      truthy? (field? item "air_quality_index") = false →
      field? item "occupancy" = some (.num (.fin q)) →
      heatIntensity env item = .fin (q / 10)) ∧
    (∀ item : Option JVal,
      field? item "population_density" = none → field? item "congestion_level" = none →
      field? item "temperature" = none → field? item "air_quality_index" = none →
      field? item "occupancy" = none →
      heatIntensity env item = .fin 1) := by
  have hint : heatIntensity env (some freeFlowRecord) = .fin 1 := by
    simp [heatIntensity, freeFlowRecord, field?, JVal.field, List.lookup, truthy?, JVal.truthy,
      JNum.truthy]
  have htruthy : ∀ q : ℚ, q ≠ 0 → truthy? (some (.num (.fin q))) = true := by
    intro q hq
    simp [truthy?, JVal.truthy, JNum.truthy, hq]
  refine ⟨hint, ?_, ?_, ?_, ?_, ?_, ?_, ?_⟩
  · refine ⟨{ lat := some (.num (.fin 50)), lng := some (.num (.fin 7)), weight := .fin 1 },
      ?_, rfl⟩
    have hpos : heatPosition (some freeFlowRecord) =
        (some (.num (.fin 50)), some (.num (.fin 7))) := by
      simp [heatPosition, freeFlowRecord, field?, JVal.field, List.lookup, truthy?, JVal.truthy,
        JNum.truthy]
    simp only [heatPoint, hpos, hint]
    simp [truthy?, JVal.truthy, JNum.truthy, JNum.min]
  · intro item q hq h1
    unfold heatIntensity
    rw [if_pos (by rw [h1]; exact htruthy q hq), h1]
    rfl
  · intro item q hq h1 h2
    unfold heatIntensity
    rw [if_neg (by rw [h1]; decide), if_pos (by rw [h2]; exact htruthy q hq), h2]
    rfl
  · intro item q hq h1 h2 h3
    unfold heatIntensity
    rw [if_neg (by rw [h1]; decide), if_neg (by rw [h2]; decide),
      if_pos (by rw [h3]; exact htruthy q hq), h3]
    rfl
  · intro item q hq h1 h2 h3 h4
    unfold heatIntensity
    rw [if_neg (by rw [h1]; decide), if_neg (by rw [h2]; decide), if_neg (by rw [h3]; decide),
      if_pos (by rw [h4]; exact htruthy q hq), h4]
    rfl
  · intro item q h1 h2 h3 h4 h5
    unfold heatIntensity
    rw [if_neg (by rw [h1]; decide), if_neg (by rw [h2]; decide), if_neg (by rw [h3]; decide),
      if_neg (by rw [h4]; decide), if_pos (by rw [h5]; rfl), h5]
    rfl
  · intro item h1 h2 h3 h4 h5
    unfold heatIntensity
    rw [h1, h2, h3, h4, h5]
    rfl

theorem limitHeat_eq (heat : List HeatPoint) : limitHeat heat = sliceLast 5000 heat := by
  unfold limitHeat
  split
  · rfl
  · rename_i h
    have h0 : heat.length - 5000 = 0 := by omega
    unfold sliceLast
    rw [h0, List.drop_zero]

/-- C25: in heatmap mode, when the records give n weighted points, `updateMapView`
returns normally and leaves the buffer unchanged; for n > 0 the heat layer holds
exactly the last min(n, 5000) points in order (all of them when n ≤ 5000) and
the map is framed to the coordinates of those same points; for n = 0 there is
no layer and the map is centred on the default location. -/
theorem heat_layer_last_5000 (env : Env) (dom : Dom) (c : Client)
    (data : List (Option JVal)) (heat : List HeatPoint)
    (hmode : getMapMode dom = "heatmap") (hd : heatmapData env data = .ok heat) :
    (updateMapView env dom c data).2 = none ∧
    (updateMapView env dom c data).1.currentData = c.currentData ∧
    (heat ≠ [] →
      (updateMapView env dom c data).1.heatmapLayer = some (sliceLast 5000 heat) ∧
      (updateMapView env dom c data).1.mapFrames =
        c.mapFrames ++ [Framing.toPoints ((sliceLast 5000 heat).map fun p => (p.lat, p.lng))] ∧
      (sliceLast 5000 heat).length = Nat.min heat.length 5000 ∧
      (heat.length ≤ 5000 → sliceLast 5000 heat = heat)) ∧
    (heat = [] →
      (updateMapView env dom c data).1.heatmapLayer = none ∧
      (updateMapView env dom c data).1.mapFrames = c.mapFrames ++ [Framing.toCenter]) := by
  by_cases hne : heat = []
  · subst hne
    have hlen : ¬ ([] : List HeatPoint).length > 0 := by simp
    have hu : updateMapView env dom c data =
        ({ clearMapMarkers c with
            mapFrames := (clearMapMarkers c).mapFrames ++ [Framing.toCenter] }, none) := by
      simp only [updateMapView, hmode, if_true, hd, hlen, if_false]
    rw [hu]
    exact ⟨rfl, rfl, fun h => absurd rfl h, fun _ => ⟨rfl, rfl⟩⟩
  · have hlen : heat.length > 0 := List.length_pos.mpr hne
    have hu : updateMapView env dom c data =
        ({ clearMapMarkers c with
            heatmapLayer := some (sliceLast 5000 heat),
            mapFrames := (clearMapMarkers c).mapFrames ++
              [Framing.toPoints ((sliceLast 5000 heat).map fun p => (p.lat, p.lng))] },
         none) := by
      simp only [updateMapView, hmode, if_true, hd, hlen, limitHeat_eq]
    rw [hu]
    refine ⟨rfl, rfl, fun _ => ⟨rfl, rfl, sliceLast_length 5000 heat, ?_⟩, fun h => absurd h hne⟩
    intro hle
    have h0 : heat.length - 5000 = 0 := by omega
    unfold sliceLast
    rw [h0, List.drop_zero]

/-- Witness of C25: one record with a position, in heatmap mode. -/
theorem heat_layer_last_5000_witness :
    (updateMapView sampleEnv heatDom Client.init [some coldRecord]).2 = none :=
  (heat_layer_last_5000 sampleEnv heatDom Client.init [some coldRecord]
    [{ lat := some (.num (.fin 50)), lng := some (.num (.fin 7)), weight := .fin (-10) }]
    getMapMode_heatDom
    (by
      have hp : heatPoint sampleEnv (some coldRecord) =
          some { lat := some (.num (.fin 50)), lng := some (.num (.fin 7)),
                 weight := .fin (-10) } := by
        simp [heatPoint, heatPosition, heatIntensity, coldRecord, field?, JVal.field,
          List.lookup, truthy?, JVal.truthy, JNum.truthy, toNumber, JNum.subConst,
          JNum.mulPos, JNum.min]
        norm_num
      have hg : getProp? (some coldRecord) "lat" = .ok (field? (some coldRecord) "lat") :=
        getProp?_record (isRecord_some (fun h => JVal.noConfusion h)) "lat"
      simp only [heatmapData, hg, hp]
      rfl)).1

/-! ## Theorems: the stream interval and the buttons -/

theorem clamp_range (env : Env) (v : Option JVal) :
    ∃ q : ℚ, clamp env v 100 10000 = .fin q ∧ 100 ≤ q ∧ q ≤ 10000 := by
  unfold clamp
  dsimp only
  cases hn : toNumber env v with
  | nan => exact ⟨100, by simp, le_refl _, by norm_num⟩
  | negInf => exact ⟨100, by simp [JNum.min, JNum.max], le_refl _, by norm_num⟩
  | posInf =>
    refine ⟨10000, ?_, by norm_num, le_refl _⟩
    simp [JNum.min, JNum.max]
    norm_num
  | fin x =>
    refine ⟨max 100 (min 10000 x), by simp [JNum.min, JNum.max], le_max_left _ _, ?_⟩
    exact max_le (by norm_num) (min_le_left _ _)

theorem clamp_nan (env : Env) (v : Option JVal) (h : toNumber env v = .nan) :
    clamp env v 100 10000 = .fin 100 := by
  unfold clamp
  dsimp only
  rw [if_pos h]

theorem safeInterval_fixed (env : Env) (q : ℚ) (h1 : 100 ≤ q) (h2 : q ≤ 10000) :
    safeInterval env (some (.num (.fin q))) = .fin q := by
  rw [safeInterval_num, if_neg (by intro h0; rw [h0] at h1; norm_num at h1),
    min_eq_right h2, max_eq_right h1]

/-- C30: for every value of the interval input field, the client's
`clamp(v, 100, 10000)` is a number in [100, 10000] (100 when `Number(v)` is
NaN), the server's clamp returns that number unchanged, and the number that
`ws.onopen` writes back to the input field is the interval of the timer that
the server installs for the request sent on open. -/
theorem client_and_server_intervals_agree (clientEnv serverEnv : Env) (c : Client)
    (v : String) (dataType options : JVal) (s : Server) (ws : Conn) :
    ∃ q : ℚ, clamp clientEnv (some (.str v)) 100 10000 = .fin q ∧ 100 ≤ q ∧ q ≤ 10000 ∧
      (clientEnv.stringToNumber v = .nan → q = 100) ∧
      safeInterval serverEnv (some (.num (.fin q))) = .fin q ∧
      (c.onopen clientEnv v dataType options).inputValue = .fin q ∧
      (c.onopen clientEnv v dataType options).request
        = startRequest dataType (.num (.fin q)) options ∧
      (startTimer serverEnv s ws (c.onopen clientEnv v dataType options).request).safeInterval
        = .fin q := by
  obtain ⟨q, hq, h1, h2⟩ := clamp_range clientEnv (some (.str v))
  have hreq : (c.onopen clientEnv v dataType options).request =
      startRequest dataType (.num (.fin q)) options := by
    simp only [Client.onopen, hq]
  have hin : (c.onopen clientEnv v dataType options).inputValue = .fin q := by
    simp only [Client.onopen, hq]
  refine ⟨q, hq, h1, h2, ?_, safeInterval_fixed serverEnv q h1 h2, hin, hreq, ?_⟩
  · intro hnan
    have := clamp_nan clientEnv (some (.str v)) hnan
    rw [hq] at this
    exact JNum.fin.inj this
  · rw [hreq]
    have hint : (startRequest dataType (.num (.fin q)) options).field "interval"
        = some (.num (.fin q)) := by
      simp [startRequest, JVal.field, List.lookup]
    simp only [startTimer, hint, Option.getD_some]
    exact safeInterval_fixed serverEnv q h1 h2

/-- C27: `setButtonsEnabled(enabled)` sets the generate button's `disabled` to
`!enabled`, so an existing generate button is disabled exactly when the server
is unreachable (`enabled` false), and it never disables the stop button while
`ws` is non-null; with no connection the stop button follows `!enabled`. -/
theorem buttons_follow_reachability (b : Buttons) (enabled : Bool) (ws : Option Nat) :
    (setButtonsEnabled b enabled ws).generateDisabled
      = b.generateDisabled.map (fun _ => !enabled) ∧
    (b.generateDisabled.isSome = true →
      ((setButtonsEnabled b enabled ws).generateDisabled = some true ↔ enabled = false)) ∧
    (ws.isSome = true → (setButtonsEnabled b enabled ws).stopDisabled ≠ some true) ∧
    (ws = none → b.stopDisabled.isSome = true →
      (setButtonsEnabled b enabled ws).stopDisabled = some (!enabled)) := by
  refine ⟨rfl, ?_, ?_, ?_⟩
  · intro hb
    cases hg : b.generateDisabled with
    | none => rw [hg] at hb; cases hb
    | some x => cases enabled <;> simp [setButtonsEnabled, hg]
  · intro hws
    cases ws with
    | none => cases hws
    | some w => cases hs : b.stopDisabled <;> simp [setButtonsEnabled, hs]
  · intro hws hb
    subst hws
    cases hs : b.stopDisabled with
    | none => rw [hs] at hb; cases hb
    | some x => simp [setButtonsEnabled, hs]

/-! ## Theorems: the record of a stream tick -/

theorem loopCount_one : loopCount 1 = 1 := by
  have h := loopCount_natCast 1
  rw [Nat.cast_one] at h
  exact h

theorem head?_of_length_one {α : Type} {data : List α} (h : data.length = 1) :
    ∃ r, data.head? = some r := by
  cases data with
  | nil => cases h
  | cons r rest => exact ⟨r, rfl⟩

theorem pushEach_one_head (body : Nat → JVal) :
    ∃ r, (pushEach (loopCount 1) body).head? = some r :=
  head?_of_length_one (by rw [pushEach_length, loopCount_one])

/-- Where `generateSingleData` returns a record, for options other than `null`:
always for geo, traffic, social, demographic, transport and emergency; for
financial when `options.dataType` is absent, 'transactions' or 'budget', and
`undefined` for any other value; for climate and iot whenever it returns. The
`stream_data` message of a tick carries what `generateSingleData` returned. -/
theorem generateSingleData_cases (env : Env) (options : JVal) (h : options ≠ .null) :
    (∀ s ∈ ["geo", "traffic", "social", "demographic", "transport", "emergency"],
      ∃ r, generateSingleData env (some (.str s)) options = .ok (some r)) ∧
    (financialCount options 1 ≠ 0 →
      ∃ r, generateSingleData env (some (.str "financial")) options = .ok (some r)) ∧
    (financialCount options 1 = 0 →
      generateSingleData env (some (.str "financial")) options = .ok none) ∧
    (∀ s ∈ ["climate", "iot"], ∀ d,
      generateSingleData env (some (.str s)) options = .ok d → ∃ r, d = some r) ∧
    (∀ (s : Server) (t : Timer) (d : Option JVal),
      generateSingleData env t.dataType t.options = .ok d →
      tickCallback env s t = s.send t.ws (.stream_data t.dataType d env.timestamp)) := by
  refine ⟨?_, ?_, ?_, ?_, ?_⟩
  · intro s hs
    simp only [List.mem_cons, List.mem_singleton, List.mem_nil_iff, or_false] at hs
    rcases hs with hs | hs | hs | hs | hs | hs <;> subst hs <;> unfold generateSingleData
    · rw [generateData_geo, generateGeoData_ok env 1 h]
      obtain ⟨r, hr⟩ := pushEach_one_head (geoPoint env (flagOr options "includeMetadata"))
      exact ⟨r, by simp only [hr]⟩
    · rw [generateData_traffic, generateTrafficData_ok env 1 h]
      obtain ⟨r, hr⟩ := pushEach_one_head (trafficPoint env (flagOr options "includeVehicles"))
      exact ⟨r, by simp only [hr]⟩
    · rw [generateData_social, generateSocialData_ok env 1 h]
      obtain ⟨r, hr⟩ := pushEach_one_head (person env (flagOr options "includeDetails"))
      exact ⟨r, by simp only [hr]⟩
    · rw [generateData_demographic, generateSocialData_ok env 1 h]
      obtain ⟨r, hr⟩ := pushEach_one_head (person env (flagOr options "includeDetails"))
      exact ⟨r, by simp only [hr]⟩
    · rw [generateData_transport, generatePublicTransportData_ok env 1 h]
      obtain ⟨r, hr⟩ := pushEach_one_head (vehicle env)
      exact ⟨r, by simp only [hr]⟩
    · rw [generateData_emergency, generateEmergencyData_ok env 1 h]
      obtain ⟨r, hr⟩ := pushEach_one_head (incident env)
      exact ⟨r, by simp only [hr]⟩
  · intro hc
    obtain ⟨data, hdata, hlen⟩ := generateFinancialData_ok env 1 h
    rw [Nat.cast_one] at hdata
    unfold generateSingleData
    rw [generateData_financial, hdata]
    cases data with
    | nil => exact absurd hlen.symm hc
    | cons r rest => exact ⟨r, rfl⟩
  · intro hc
    obtain ⟨data, hdata, hlen⟩ := generateFinancialData_ok env 1 h
    rw [Nat.cast_one] at hdata
    unfold generateSingleData
    rw [generateData_financial, hdata]
    rw [hc] at hlen
    cases data with
    | nil => rfl
    | cons r rest => cases hlen
  · intro s hs d hd
    simp only [List.mem_cons, List.mem_singleton, List.mem_nil_iff, or_false] at hs
    rcases hs with hs | hs <;> subst hs <;> unfold generateSingleData at hd
    · rw [generateData_climate, generateClimateData_ok env 1 h] at hd
      split at hd
      · cases hd
      · rename_i data hdata
        have hlen := climateLoop_length env _ _ _ _ _ hdata
        rw [loopCount_one] at hlen
        obtain ⟨r, hr⟩ := head?_of_length_one hlen
        simp only [Except.ok.injEq] at hd
        exact ⟨r, by rw [← hd, hr]⟩
    · rw [generateData_iot] at hd
      cases ht : iotTypes options with
      | error e =>
        simp only [generateIoTData, destructure_ok h, ht] at hd
        cases hd
      | ok types =>
        rw [generateIoTData_ok env 1 h ht] at hd
        split at hd
        · cases hd
        · rename_i data hdata
          have hlen := iotLoop_length env _ _ _ _ hdata
          rw [loopCount_one] at hlen
          obtain ⟨r, hr⟩ := head?_of_length_one hlen
          simp only [Except.ok.injEq] at hd
          exact ⟨r, by rw [← hd, hr]⟩
  · intro s t d hd
    simp only [tickCallback, hd]

/-- C28 (the code at the failing input, and the record elsewhere): for the
recognised type `financial` with `options.dataType` 'other', the generation is
empty, so `generateSingleData` returns `undefined` where the claim says a
record; the tick of a timer with that type and those options sends a
`stream_data` message without a record, the frame the client parses has no
`data` key, and the client pushes `undefined` into its buffer and throws a
TypeError reading `newData.lat`. For options other than `null`, the six simple
types always give a record, financial gives one when `options.dataType` is
absent, 'transactions' or 'budget', climate and iot give one whenever they
return, and the message of a tick carries what `generateSingleData`
returned. -/
theorem financial_tick_sends_no_record (env : Env) :
    recognised (some (.str "financial")) ∧
    generateSingleData env (some (.str "financial")) (.obj [("dataType", .str "other")])
      = .ok none ∧
    (∀ (s : Server) (ws : Conn) (id : Nat) (interval : JNum),
      tickCallback env s
          { id := id, ws := ws, dataType := some (.str "financial"),
            options := .obj [("dataType", .str "other")], safeInterval := interval }
        = s.send ws (.stream_data (some (.str "financial")) none env.timestamp)) ∧
    (ServerMsg.stream_data (some (.str "financial")) none env.timestamp).toFrame
      = .obj [("type", .str "stream_data"), ("dataType", .str "financial"),
              ("timestamp", env.timestamp)] ∧
    (∀ (c : Client) (now : Int),
      onmessage c now
          (some (ServerMsg.stream_data (some (.str "financial")) none env.timestamp).toFrame)
        = ({ c with currentData := ingest c.currentData none }, some .typeError)) ∧
    (∀ options : JVal, options ≠ .null →
      (∀ s ∈ ["geo", "traffic", "social", "demographic", "transport", "emergency"],
        ∃ r, generateSingleData env (some (.str s)) options = .ok (some r)) ∧
      (financialCount options 1 ≠ 0 →
        ∃ r, generateSingleData env (some (.str "financial")) options = .ok (some r)) ∧
      (financialCount options 1 = 0 →
        generateSingleData env (some (.str "financial")) options = .ok none) ∧
      (∀ s ∈ ["climate", "iot"], ∀ d,
        generateSingleData env (some (.str s)) options = .ok d → ∃ r, d = some r)) ∧
    (∀ (s : Server) (t : Timer) (d : Option JVal),
      generateSingleData env t.dataType t.options = .ok d →
      tickCallback env s t = s.send t.ws (.stream_data t.dataType d env.timestamp)) := by
  have hgen : generateSingleData env (some (.str "financial"))
      (.obj [("dataType", .str "other")]) = .ok none := by
    unfold generateSingleData
    rw [generateData_financial]
    simp [generateFinancialData, destructure, JVal.field, List.lookup, strictEqStr]
  have hframe : (ServerMsg.stream_data (some (.str "financial")) none env.timestamp).toFrame
      = .obj [("type", .str "stream_data"), ("dataType", .str "financial"),
              ("timestamp", env.timestamp)] := rfl
  refine ⟨⟨"financial", by simp [dataTypes], rfl⟩, hgen, ?_, hframe, ?_, ?_, ?_⟩
  · intro s ws id interval
    simp only [tickCallback, hgen]
  · intro c now
    rw [hframe]
    simp [onmessage, JVal.getProp, JVal.field, List.lookup, strictEqStr,
      updateStreamVisualization, getProp?]
  · intro options h
    obtain ⟨h1, h2, h3, h4, _⟩ := generateSingleData_cases env options h
    exact ⟨h1, h2, h3, h4⟩
  · intro s t d hd
    simp only [tickCallback, hd]

/-! ## Theorems: the auto-fit controller of a stream session -/

theorem autoFitState_throttledViews (c : Client) (now : Int) :
    autoFitState (throttledViews c now) = autoFitState c := by
  unfold throttledViews
  split <;> rfl

theorem autoFitState_collect_congr {a b : Client} (h : autoFitState a = autoFitState b)
    (lat lng : Option JVal) :
    autoFitState (collectAutoFitPoint a lat lng) = autoFitState (collectAutoFitPoint b lat lng) := by
  simp only [autoFitState, Prod.mk.injEq] at h
  obtain ⟨h1, h2, h3, h4, h5⟩ := h
  unfold collectAutoFitPoint
  dsimp only
  rw [h2]
  split_ifs
  · simp only [autoFitState, h1, h2, h3, h4, h5]
  · unfold tryFitToPoints clearAutoFitTimer
    dsimp only
    rw [h5]
    split_ifs
    · dsimp only
      rw [h3, h4]
      cases b.autoFitTimer <;> rfl
    · dsimp only
      rw [h3, h4]
      cases b.autoFitTimer <;> rfl
  · simp only [autoFitState, h1, h2, h3, h4, h5]

theorem autoFitState_offer_congr {a b : Client} (h : autoFitState a = autoFitState b)
    (lat lng : Option JVal) :
    autoFitState (if a.autoFitPending then collectAutoFitPoint a lat lng else a) =
      autoFitState (if b.autoFitPending then collectAutoFitPoint b lat lng else b) := by
  have hp : a.autoFitPending = b.autoFitPending := congrArg Prod.fst h
  rw [hp]
  by_cases hb : b.autoFitPending = true
  · rw [if_pos hb, if_pos hb]
    exact autoFitState_collect_congr h lat lng
  · rw [if_neg hb, if_neg hb]
    exact h

theorem autoFitState_placeStreamMarker (c : Client) (lat lng item : Option JVal) :
    autoFitState (placeStreamMarker c lat lng item) =
      autoFitState (if c.autoFitPending then collectAutoFitPoint c lat lng else c) := by
  unfold placeStreamMarker
  dsimp only
  have hp : (addMapMarker c lat lng item).autoFitPending = c.autoFitPending := rfl
  rw [hp]
  cases c.autoFitPending
  · rfl
  · simp only [if_true]
    have hm : autoFitState (addMapMarker c lat lng item) = autoFitState c := rfl
    exact autoFitState_collect_congr hm lat lng

theorem collectAutoFitPoint_not_finite (c : Client) (lat lng : Option JVal)
    (h : (isFiniteNumber lat && isFiniteNumber lng) = false) :
    collectAutoFitPoint c lat lng = c := by
  unfold collectAutoFitPoint
  rw [if_pos]
  cases h1 : isFiniteNumber lat <;> cases h2 : isFiniteNumber lng <;> simp_all

theorem autoFitState_updateStreamVisualization (c : Client) (now : Int) {data : Option JVal}
    (h : isRecord data) :
    autoFitState (updateStreamVisualization c now data).1 =
      match streamPosition data with
      | some p => autoFitState (if c.autoFitPending then collectAutoFitPoint c p.1 p.2 else c)
      | none => autoFitState c := by
  unfold updateStreamVisualization streamPosition
  rw [getProp?_record h "lat"]
  dsimp only
  split_ifs <;>
    simp [autoFitState_throttledViews, autoFitState_placeStreamMarker, *]

theorem streamPosition_not_record {data : Option JVal} (h : ¬ isRecord data) :
    streamPosition data = none := by
  cases data with
  | none => rfl
  | some v =>
    cases v with
    | null => rfl
    | bool b => exact absurd ⟨_, rfl, fun h => JVal.noConfusion h⟩ h
    | num n => exact absurd ⟨_, rfl, fun h => JVal.noConfusion h⟩ h
    | str t => exact absurd ⟨_, rfl, fun h => JVal.noConfusion h⟩ h
    | arr xs => exact absurd ⟨_, rfl, fun h => JVal.noConfusion h⟩ h
    | obj kvs => exact absurd ⟨_, rfl, fun h => JVal.noConfusion h⟩ h

theorem frameCoords_not_streamData {frame : Option JVal} (h : ¬ isStreamData frame) :
    frameCoords frame = [] := by
  unfold frameCoords
  rw [if_neg]
  intro ht
  apply h
  cases frame with
  | none => simp [field?, strictEqStr] at ht
  | some message =>
    refine ⟨message, rfl, ?_, ht⟩
    intro hn
    subst hn
    simp [field?, JVal.field, strictEqStr] at ht

theorem frameCoords_streamData {frame : Option JVal} (h : isStreamData frame) :
    frameCoords frame =
      match streamPosition (frameData frame) with
      | some p => if isFiniteNumber p.1 && isFiniteNumber p.2 then [p] else []
      | none => [] := by
  obtain ⟨message, rfl, _, ht⟩ := h
  have ht2 : strictEqStr (field? (some message) "type") "stream_data" = true := ht
  unfold frameCoords
  rw [if_pos ht2]

/-- The effect of one inbound frame on the auto-fit controller: a frame that
offers no finite coordinate leaves it alone, a frame that offers one hands it
to `collectAutoFitPoint` while the controller is pending. -/
theorem autoFitState_onmessage (c : Client) (now : Int) (frame : Option JVal) :
    (frameCoords frame = [] ∧ autoFitState (onmessage c now frame).1 = autoFitState c) ∨
    (∃ p, frameCoords frame = [p] ∧ isFiniteNumber p.1 = true ∧ isFiniteNumber p.2 = true ∧
      autoFitState (onmessage c now frame).1 =
        autoFitState (if c.autoFitPending then collectAutoFitPoint c p.1 p.2 else c)) := by
  by_cases hs : isStreamData frame
  · rw [onmessage_streamData c now frame hs, frameCoords_streamData hs]
    by_cases hr : isRecord (frameData frame)
    · have hU : autoFitState (updateStreamVisualization
          { c with currentData := ingest c.currentData (frameData frame) } now
          (frameData frame)).1 =
          match streamPosition (frameData frame) with
          | some p =>
            autoFitState (if c.autoFitPending then collectAutoFitPoint c p.1 p.2 else c)
          | none => autoFitState c := by
        rw [autoFitState_updateStreamVisualization _ now hr]
        cases streamPosition (frameData frame) with
        | none => rfl
        | some p =>
          have hc : autoFitState { c with currentData := ingest c.currentData (frameData frame) }
              = autoFitState c := rfl
          exact autoFitState_offer_congr hc p.1 p.2
      rw [hU]
      cases hp : streamPosition (frameData frame) with
      | none => exact Or.inl ⟨rfl, rfl⟩
      | some p =>
        dsimp only
        cases hf : (isFiniteNumber p.1 && isFiniteNumber p.2) with
        | false =>
          left
          refine ⟨by simp, ?_⟩
          rw [collectAutoFitPoint_not_finite c p.1 p.2 hf, ite_self]
        | true =>
          right
          simp only [Bool.and_eq_true] at hf
          exact ⟨p, by simp, hf.1, hf.2, rfl⟩
    · rw [updateStreamVisualization_not_record _ now hr, streamPosition_not_record hr]
      exact Or.inl ⟨rfl, rfl⟩
  · rw [onmessage_not_streamData c now frame hs, frameCoords_not_streamData hs]
    exact Or.inl ⟨rfl, rfl⟩

theorem autoFitState_collect (c : Client) (lat lng : Option JVal)
    (hf : isFiniteNumber lat = true) (hg : isFiniteNumber lng = true) :
    autoFitState (collectAutoFitPoint c lat lng) =
      if 12 ≤ c.autoFitPoints.length + 1 then
        (false, c.autoFitPoints ++ [(lat, lng)], none, (clearAutoFitTimer c).timeouts,
          c.fitCalls ++ [c.autoFitPoints ++ [(lat, lng)]])
      else
        (c.autoFitPending, c.autoFitPoints ++ [(lat, lng)], c.autoFitTimer, c.timeouts,
          c.fitCalls) := by
  unfold collectAutoFitPoint
  simp only [hf, hg, Bool.not_true, Bool.or_self, Bool.false_eq_true, if_false,
    List.length_append, List.length_singleton, ge_iff_le]
  split_ifs with h12
  · unfold tryFitToPoints clearAutoFitTimer
    simp only [List.length_append, List.length_singleton, Nat.add_one_ne_zero, if_false]
    cases c.autoFitTimer <;> rfl
  · rfl

theorem frameCoords_length_le (frame : Option JVal) : (frameCoords frame).length ≤ 1 := by
  unfold frameCoords
  split_ifs
  · split
    · split_ifs <;> simp
    · simp
  · simp

/-- One inbound frame while the controller is pending. -/
theorem autoFitState_message_pending (c : Client) (now : Int) (frame : Option JVal)
    (hp : c.autoFitPending = true) :
    autoFitState (onmessage c now frame).1 =
      if (frameCoords frame).length = 0 then autoFitState c
      else if 12 ≤ c.autoFitPoints.length + 1 then
        (false, c.autoFitPoints ++ frameCoords frame, none, (clearAutoFitTimer c).timeouts,
          c.fitCalls ++ [c.autoFitPoints ++ frameCoords frame])
      else
        (true, c.autoFitPoints ++ frameCoords frame, c.autoFitTimer, c.timeouts, c.fitCalls) := by
  rcases autoFitState_onmessage c now frame with ⟨h0, h⟩ | ⟨p, h1, hf, hg, h⟩
  · rw [h, h0]
    exact (if_pos rfl).symm
  · rw [h, if_pos hp, autoFitState_collect c p.1 p.2 hf hg, h1, hp]
    simp only [Prod.mk.eta, List.length_singleton, one_ne_zero, if_false]

/-- One inbound frame once the controller is no longer pending. -/
theorem autoFitState_message_settled (c : Client) (now : Int) (frame : Option JVal)
    (hp : c.autoFitPending = false) :
    autoFitState (onmessage c now frame).1 = autoFitState c := by
  rcases autoFitState_onmessage c now frame with ⟨_, h⟩ | ⟨p, _, _, _, h⟩
  · exact h
  · rw [h, hp]
    rfl

theorem autoFitState_fireTimeout (c : Client) (handle : Nat) :
    autoFitState (c.fireTimeout handle) =
      if handle ∈ c.timeouts then
        if c.autoFitPending = true ∧ 0 < c.autoFitPoints.length then
          (false, c.autoFitPoints, c.autoFitTimer, c.timeouts.filter (fun h => h ≠ handle),
            c.fitCalls ++ [c.autoFitPoints])
        else
          (c.autoFitPending, c.autoFitPoints, c.autoFitTimer,
            c.timeouts.filter (fun h => h ≠ handle), c.fitCalls)
      else autoFitState c := by
  unfold Client.fireTimeout
  by_cases hm : handle ∈ c.timeouts
  · rw [if_pos hm, if_pos hm]
    by_cases hc : c.autoFitPending = true ∧ 0 < c.autoFitPoints.length
    · rw [if_pos hc]
      obtain ⟨hp, hlen⟩ := hc
      unfold Client.fallbackAutoFit tryFitToPoints
      simp only [hp, gt_iff_lt, hlen, decide_True, Bool.and_self, if_true]
      rw [if_neg (by omega)]
      rfl
    · rw [if_neg hc]
      unfold Client.fallbackAutoFit
      rw [if_neg]
      · rfl
      · intro hh
        simp only [Bool.and_eq_true, decide_eq_true_eq] at hh
        exact hc ⟨hh.1, hh.2⟩
  · rw [if_neg hm, if_neg hm]

theorem autoFitState_onclose (c : Client) :
    autoFitState c.onclose =
      (false, c.autoFitPoints, none, (clearAutoFitTimer c).timeouts, c.fitCalls) := by
  unfold Client.onclose clearAutoFitTimer
  cases h : c.autoFitTimer <;> simp [autoFitState, h]

theorem clearAutoFitTimer_timeouts (c : Client) :
    (∀ h, c.autoFitTimer = some h → h ∉ (clearAutoFitTimer c).timeouts) ∧
    (∀ h, h ∈ (clearAutoFitTimer c).timeouts → h ∈ c.timeouts) := by
  unfold clearAutoFitTimer
  cases ht : c.autoFitTimer with
  | none => exact ⟨fun h hh => (by cases hh), fun h hh => hh⟩
  | some t =>
    refine ⟨?_, ?_⟩
    · intro h hh
      cases hh
      simp
    · intro h hh
      exact (List.mem_filter.mp hh).1

/-- Once the controller is not pending, no session event collects a point or
fits the map. -/
theorem settled_step (c : Client) (e : SessionEvent) (hp : c.autoFitPending = false) :
    (sessionStep c e).autoFitPending = false ∧
    (sessionStep c e).autoFitPoints = c.autoFitPoints ∧
    (sessionStep c e).fitCalls = c.fitCalls := by
  cases e with
  | message now frame =>
    have h := autoFitState_message_settled c now frame hp
    simp only [autoFitState, Prod.mk.injEq] at h
    exact ⟨h.1.trans hp, h.2.1, h.2.2.2.2⟩
  | timeout handle =>
    have h := autoFitState_fireTimeout c handle
    have hno : ¬ (c.autoFitPending = true ∧ 0 < c.autoFitPoints.length) := by
      rw [hp]
      intro hh
      cases hh.1
    rw [if_neg hno] at h
    split_ifs at h
    · simp only [autoFitState, Prod.mk.injEq] at h
      exact ⟨h.1.trans hp, h.2.1, h.2.2.2.2⟩
    · simp only [autoFitState, Prod.mk.injEq] at h
      exact ⟨h.1.trans hp, h.2.1, h.2.2.2.2⟩
  | close =>
    have h := autoFitState_onclose c
    simp only [autoFitState, Prod.mk.injEq] at h
    exact ⟨h.1, h.2.1, h.2.2.2.2⟩

theorem settled_run (es : List SessionEvent) :
    ∀ c : Client, c.autoFitPending = false →
      (runSession c es).autoFitPending = false ∧
      (runSession c es).autoFitPoints = c.autoFitPoints ∧
      (runSession c es).fitCalls = c.fitCalls := by
  induction es with
  | nil => intro c hp; exact ⟨hp, rfl, rfl⟩
  | cons e rest ih =>
    intro c hp
    obtain ⟨h1, h2, h3⟩ := settled_step c e hp
    obtain ⟨k1, k2, k3⟩ := ih (sessionStep c e) h1
    exact ⟨k1, k2.trans h2, k3.trans h3⟩

theorem runSession_append (c : Client) (es1 es2 : List SessionEvent) :
    runSession c (es1 ++ es2) = runSession (runSession c es1) es2 := by
  simp only [runSession, List.foldl_append]

theorem sessionCoords_messageEvents_cons (f : Int × Option JVal)
    (rest : List (Int × Option JVal)) :
    sessionCoords (messageEvents (f :: rest)) =
      frameCoords f.2 ++ sessionCoords (messageEvents rest) := rfl

/-- A run of inbound frames from a pending controller with fewer than 12
points: every finite coordinate is collected in arrival order until the 12th,
which triggers the one fit with exactly those 12 and cancels the timer. -/
theorem messages_run (frames : List (Int × Option JVal)) :
    ∀ c : Client, c.autoFitPending = true → c.autoFitPoints.length < 12 →
      ((c.autoFitPoints ++ sessionCoords (messageEvents frames)).length < 12 →
        autoFitState (runSession c (messageEvents frames)) =
          (true, c.autoFitPoints ++ sessionCoords (messageEvents frames), c.autoFitTimer,
            c.timeouts, c.fitCalls)) ∧
      (12 ≤ (c.autoFitPoints ++ sessionCoords (messageEvents frames)).length →
        (runSession c (messageEvents frames)).autoFitPending = false ∧
        (runSession c (messageEvents frames)).autoFitPoints =
          (c.autoFitPoints ++ sessionCoords (messageEvents frames)).take 12 ∧
        (runSession c (messageEvents frames)).fitCalls =
          c.fitCalls ++ [(c.autoFitPoints ++ sessionCoords (messageEvents frames)).take 12]) := by
  induction frames with
  | nil =>
    intro c hp hlt
    refine ⟨?_, ?_⟩
    · intro _
      simp only [messageEvents, List.map_nil, sessionCoords, List.append_nil, runSession,
        List.foldl_nil, autoFitState, hp]
    · intro h12
      simp only [messageEvents, List.map_nil, sessionCoords, List.append_nil] at h12
      omega
  | cons f rest ih =>
    intro c hp hlt
    have hrun : runSession c (messageEvents (f :: rest)) =
        runSession (onmessage c f.1 f.2).1 (messageEvents rest) := rfl
    have hstep := autoFitState_message_pending c f.1 f.2 hp
    have hlen := frameCoords_length_le f.2
    rw [hrun, sessionCoords_messageEvents_cons]
    by_cases h0 : (frameCoords f.2).length = 0
    · rw [if_pos h0] at hstep
      simp only [autoFitState, Prod.mk.injEq] at hstep
      obtain ⟨s1, s2, s3, s4, s5⟩ := hstep
      have ih2 := ih (onmessage c f.1 f.2).1 (s1.trans hp) (by rw [s2]; exact hlt)
      rw [s2, s3, s4, s5] at ih2
      rw [List.length_eq_zero.mp h0, List.nil_append]
      exact ih2
    · rw [if_neg h0] at hstep
      by_cases h12 : 12 ≤ c.autoFitPoints.length + 1
      · rw [if_pos h12] at hstep
        simp only [autoFitState, Prod.mk.injEq] at hstep
        obtain ⟨s1, s2, s3, s4, s5⟩ := hstep
        obtain ⟨k1, k2, k3⟩ := settled_run (messageEvents rest) (onmessage c f.1 f.2).1 s1
        have hone : (frameCoords f.2).length = 1 := by omega
        have htake : (c.autoFitPoints ++ (frameCoords f.2 ++ sessionCoords (messageEvents rest))).take 12
            = c.autoFitPoints ++ frameCoords f.2 := by
          rw [← List.append_assoc]
          apply List.take_left'
          rw [List.length_append, hone]
          omega
        refine ⟨?_, ?_⟩
        · intro hl
          simp only [List.length_append, hone] at hl
          omega
        · intro _
          rw [htake]
          exact ⟨k1, k2.trans s2, k3.trans s5⟩
      · rw [if_neg h12] at hstep
        simp only [autoFitState, Prod.mk.injEq] at hstep
        obtain ⟨s1, s2, s3, s4, s5⟩ := hstep
        have hone : (frameCoords f.2).length = 1 := by omega
        have ih2 := ih (onmessage c f.1 f.2).1 s1
          (by rw [s2, List.length_append, hone]; omega)
        rw [s2, s3, s4, s5, List.append_assoc] at ih2
        exact ih2

theorem sessionCoords_cons (e : SessionEvent) (rest : List SessionEvent) :
    sessionCoords (e :: rest) = sessionCoords [e] ++ sessionCoords rest := by
  cases e <;> simp [sessionCoords]

theorem sessionCoords_append (es1 es2 : List SessionEvent) :
    sessionCoords (es1 ++ es2) = sessionCoords es1 ++ sessionCoords es2 := by
  induction es1 with
  | nil => rfl
  | cons e rest ih =>
    rw [List.cons_append, sessionCoords_cons, ih, sessionCoords_cons e rest, List.append_assoc]

theorem AutoFitInv.after_step {base : List (List (Option JVal × Option JVal))}
    {coords : List (Option JVal × Option JVal)} {c : Client} (h : AutoFitInv base coords c)
    (e : SessionEvent) : AutoFitInv base (coords ++ sessionCoords [e]) (sessionStep c e) := by
  cases hp : c.autoFitPending with
  | false =>
    obtain ⟨h1, h2, h3⟩ := settled_step c e hp
    obtain ⟨t, ht⟩ := h.collected
    refine ⟨⟨t ++ sessionCoords [e], ?_⟩, ?_, ?_, ?_⟩
    · rw [h2, ht, List.append_assoc]
    · rw [h2]
      exact h.bounded
    · intro hpend
      rw [h1] at hpend
      cases hpend
    · rw [h2, h3, h1]
      rcases h.once with ho | ho
      · exact Or.inl ho
      · exact Or.inr ⟨ho.1, ho.2.1, rfl⟩
  | true =>
    obtain ⟨hc, hlt, hb⟩ := h.pending hp
    cases e with
    | message now frame =>
      have hs : sessionCoords [SessionEvent.message now frame] = frameCoords frame := by
        simp [sessionCoords]
      have hstep := autoFitState_message_pending c now frame hp
      have hlen := frameCoords_length_le frame
      rw [hs]
      show AutoFitInv base (coords ++ frameCoords frame) (onmessage c now frame).1
      by_cases h0 : (frameCoords frame).length = 0
      · rw [if_pos h0] at hstep
        simp only [autoFitState, Prod.mk.injEq] at hstep
        obtain ⟨s1, s2, s3, s4, s5⟩ := hstep
        rw [List.length_eq_zero.mp h0, List.append_nil]
        refine ⟨⟨[], ?_⟩, ?_, ?_, ?_⟩
        · rw [s2, List.append_nil, hc]
        · rw [s2]
          exact h.bounded
        · intro _
          rw [s2, s5]
          exact ⟨hc, hlt, hb⟩
        · rw [s5]
          exact Or.inl hb
      · rw [if_neg h0] at hstep
        have hone : (frameCoords frame).length = 1 := by omega
        by_cases h12 : 12 ≤ c.autoFitPoints.length + 1
        · rw [if_pos h12] at hstep
          simp only [autoFitState, Prod.mk.injEq] at hstep
          obtain ⟨s1, s2, s3, s4, s5⟩ := hstep
          refine ⟨⟨[], ?_⟩, ?_, ?_, ?_⟩
          · rw [s2, List.append_nil, hc]
          · rw [s2, List.length_append, hone]
            omega
          · intro hpend
            rw [s1] at hpend
            cases hpend
          · right
            refine ⟨?_, ?_, s1⟩
            · rw [s5, s2, hb]
            · rw [s2, List.length_append, hone]
              omega
        · rw [if_neg h12] at hstep
          simp only [autoFitState, Prod.mk.injEq] at hstep
          obtain ⟨s1, s2, s3, s4, s5⟩ := hstep
          refine ⟨⟨[], ?_⟩, ?_, ?_, ?_⟩
          · rw [s2, List.append_nil, hc]
          · rw [s2, List.length_append, hone]
            omega
          · intro _
            refine ⟨?_, ?_, ?_⟩
            · rw [s2, hc]
            · rw [s2, List.length_append, hone]
              omega
            · rw [s5]
              exact hb
          · rw [s5]
            exact Or.inl hb
    | timeout handle =>
      have hs : sessionCoords [SessionEvent.timeout handle] = [] := rfl
      have hstep := autoFitState_fireTimeout c handle
      rw [hs, List.append_nil]
      show AutoFitInv base coords (c.fireTimeout handle)
      by_cases hm : handle ∈ c.timeouts
      · rw [if_pos hm] at hstep
        by_cases hfit : c.autoFitPending = true ∧ 0 < c.autoFitPoints.length
        · rw [if_pos hfit] at hstep
          simp only [autoFitState, Prod.mk.injEq] at hstep
          obtain ⟨s1, s2, s3, s4, s5⟩ := hstep
          refine ⟨⟨[], ?_⟩, ?_, ?_, ?_⟩
          · rw [s2, List.append_nil, hc]
          · rw [s2]
            exact h.bounded
          · intro hpend
            rw [s1] at hpend
            cases hpend
          · right
            refine ⟨?_, ?_, s1⟩
            · rw [s5, s2, hb]
            · rw [s2]
              exact hfit.2
        · rw [if_neg hfit] at hstep
          simp only [autoFitState, Prod.mk.injEq] at hstep
          obtain ⟨s1, s2, s3, s4, s5⟩ := hstep
          refine ⟨⟨[], ?_⟩, ?_, ?_, ?_⟩
          · rw [s2, List.append_nil, hc]
          · rw [s2]
            exact h.bounded
          · intro _
            rw [s2, s5]
            exact ⟨hc, hlt, hb⟩
          · rw [s5]
            exact Or.inl hb
      · rw [if_neg hm] at hstep
        simp only [autoFitState, Prod.mk.injEq] at hstep
        obtain ⟨s1, s2, s3, s4, s5⟩ := hstep
        refine ⟨⟨[], ?_⟩, ?_, ?_, ?_⟩
        · rw [s2, List.append_nil, hc]
        · rw [s2]
          exact h.bounded
        · intro _
          rw [s2, s5]
          exact ⟨hc, hlt, hb⟩
        · rw [s5]
          exact Or.inl hb
    | close =>
      have hs : sessionCoords [SessionEvent.close] = [] := rfl
      have hstep := autoFitState_onclose c
      rw [hs, List.append_nil]
      show AutoFitInv base coords c.onclose
      simp only [autoFitState, Prod.mk.injEq] at hstep
      obtain ⟨s1, s2, s3, s4, s5⟩ := hstep
      refine ⟨⟨[], ?_⟩, ?_, ?_, ?_⟩
      · rw [s2, List.append_nil, hc]
      · rw [s2]
        exact h.bounded
      · intro hpend
        rw [s1] at hpend
        cases hpend
      · rw [s5]
        exact Or.inl hb

theorem AutoFitInv.after_run {base : List (List (Option JVal × Option JVal))}
    (es : List SessionEvent) :
    ∀ {coords : List (Option JVal × Option JVal)} {c : Client}, AutoFitInv base coords c →
      AutoFitInv base (coords ++ sessionCoords es) (runSession c es) := by
  induction es with
  | nil =>
    intro coords c h
    rw [show sessionCoords [] = [] from rfl, List.append_nil]
    exact h
  | cons e rest ih =>
    intro coords c h
    have h2 := ih (h.after_step e)
    rw [List.append_assoc, ← sessionCoords_cons] at h2
    exact h2

theorem clearAutoFitTimer_session (c : Client) :
    (clearAutoFitTimer c).fitCalls = c.fitCalls ∧ (clearAutoFitTimer c).ws = c.ws ∧
    (clearAutoFitTimer c).nextSocket = c.nextSocket ∧
    (clearAutoFitTimer c).nextHandle = c.nextHandle := by
  unfold clearAutoFitTimer
  cases c.autoFitTimer <;> exact ⟨rfl, rfl, rfl, rfl⟩

/-- The client after `startStream` and the open event: the controller is armed
with no points, and the fallback timeout is scheduled under the handle that
`setTimeout` returned. -/
theorem openStream_armed (env : Env) (c0 : Client) (v : String) (dataType options : JVal) :
    (openStream env c0 v dataType options).autoFitPending = true ∧
    (openStream env c0 v dataType options).autoFitPoints = [] ∧
    (openStream env c0 v dataType options).fitCalls = c0.fitCalls ∧
    (openStream env c0 v dataType options).autoFitTimer = some c0.nextHandle ∧
    c0.nextHandle ∈ (openStream env c0 v dataType options).timeouts ∧
    (openStream env c0 v dataType options).ws = some c0.nextSocket := by
  unfold openStream Client.onopen Client.startStream clearAutoFitTimer
  cases c0.autoFitTimer <;> simp

theorem openStream_inv (env : Env) (c0 : Client) (v : String) (dataType options : JVal) :
    AutoFitInv c0.fitCalls [] (openStream env c0 v dataType options) := by
  obtain ⟨h1, h2, h3, _⟩ := openStream_armed env c0 v dataType options
  refine ⟨⟨[], ?_⟩, ?_, ?_, Or.inl h3⟩
  · rw [h2]
    rfl
  · rw [h2]
    exact Nat.zero_le _
  · intro _
    rw [h2]
    exact ⟨rfl, Nat.succ_pos _, h3⟩

/-- C21: in a stream session (after `startStream` and the open event), for every
sequence of inbound frames, timeouts and close events the map is auto-fitted at
most once, with the points collected, which are the first of the session's
finite coordinates and at most 12; once the frames have delivered 12 finite
coordinates the fit has been made with exactly the first 12, whatever follows;
when the fallback timeout fires after 1 to 11 coordinates the fit is made with
those; before either, no fit has been made and every coordinate is collected;
and once the controller is not pending, nothing is collected or fitted. -/
theorem auto_fit_at_most_once (env : Env) (c0 : Client) (v : String)
    (dataType options : JVal) :
    (∀ es : List SessionEvent,
      ((runSession (openStream env c0 v dataType options) es).fitCalls = c0.fitCalls ∨
        ((runSession (openStream env c0 v dataType options) es).fitCalls =
            c0.fitCalls ++ [(runSession (openStream env c0 v dataType options) es).autoFitPoints] ∧
          0 < (runSession (openStream env c0 v dataType options) es).autoFitPoints.length ∧
          (runSession (openStream env c0 v dataType options) es).autoFitPending = false)) ∧
      (∃ t, sessionCoords es =
        (runSession (openStream env c0 v dataType options) es).autoFitPoints ++ t) ∧
      (runSession (openStream env c0 v dataType options) es).autoFitPoints.length ≤ 12) ∧
    (∀ (frames : List (Int × Option JVal)) (es : List SessionEvent),
      12 ≤ (sessionCoords (messageEvents frames)).length →
      (runSession (openStream env c0 v dataType options) (messageEvents frames ++ es)).fitCalls =
        c0.fitCalls ++ [(sessionCoords (messageEvents frames)).take 12]) ∧
    (∀ (frames : List (Int × Option JVal)) (es : List SessionEvent),
      0 < (sessionCoords (messageEvents frames)).length →
      (sessionCoords (messageEvents frames)).length < 12 →
      (runSession (openStream env c0 v dataType options)
          (messageEvents frames ++ SessionEvent.timeout c0.nextHandle :: es)).fitCalls =
        c0.fitCalls ++ [sessionCoords (messageEvents frames)]) ∧
    (∀ frames : List (Int × Option JVal),
      (sessionCoords (messageEvents frames)).length < 12 →
      (runSession (openStream env c0 v dataType options) (messageEvents frames)).fitCalls =
        c0.fitCalls ∧
      (runSession (openStream env c0 v dataType options) (messageEvents frames)).autoFitPending =
        true ∧
      (runSession (openStream env c0 v dataType options) (messageEvents frames)).autoFitPoints =
        sessionCoords (messageEvents frames)) ∧
    (∀ (c : Client) (es : List SessionEvent), c.autoFitPending = false →
      (runSession c es).fitCalls = c.fitCalls ∧
      (runSession c es).autoFitPoints = c.autoFitPoints) := by
  obtain ⟨a1, a2, a3, a4, a5, _⟩ := openStream_armed env c0 v dataType options
  have hmsg := fun frames => messages_run frames (openStream env c0 v dataType options) a1
    (by rw [a2]; exact Nat.succ_pos _)
  simp only [a2, a3, a4, List.nil_append] at hmsg
  refine ⟨?_, ?_, ?_, ?_, ?_⟩
  · intro es
    have hinv := (openStream_inv env c0 v dataType options).after_run es
    rw [List.nil_append] at hinv
    exact ⟨hinv.once, hinv.collected, hinv.bounded⟩
  · intro frames es h12
    obtain ⟨k1, k2, k3⟩ := (hmsg frames).2 h12
    rw [runSession_append, (settled_run es _ k1).2.2, k3]
  · intro frames es hpos hlt
    have hst := (hmsg frames).1 hlt
    simp only [autoFitState, Prod.mk.injEq] at hst
    obtain ⟨s1, s2, s3, s4, s5⟩ := hst
    have hfire := autoFitState_fireTimeout
      (runSession (openStream env c0 v dataType options) (messageEvents frames)) c0.nextHandle
    rw [if_pos (by rw [s4]; exact a5), if_pos ⟨s1, by rw [s2]; exact hpos⟩] at hfire
    simp only [autoFitState, Prod.mk.injEq] at hfire
    obtain ⟨f1, f2, f3, f4, f5⟩ := hfire
    rw [runSession_append]
    show (runSession (sessionStep _ (SessionEvent.timeout c0.nextHandle)) es).fitCalls = _
    have hset := settled_run es
      ((runSession (openStream env c0 v dataType options) (messageEvents frames)).fireTimeout
        c0.nextHandle) f1
    show (runSession (Client.fireTimeout _ c0.nextHandle) es).fitCalls = _
    rw [hset.2.2, f5, s5, s2]
  · intro frames hlt
    have hst := (hmsg frames).1 hlt
    simp only [autoFitState, Prod.mk.injEq] at hst
    exact ⟨hst.2.2.2.2, hst.1, hst.2.1⟩
  · intro c es hp
    exact ⟨(settled_run es c hp).2.2, (settled_run es c hp).2.1⟩

/-- C22: when the connection closes before the frames have delivered 12 finite
coordinates and before the fallback timeout has fired, the timeout is
cancelled, the controller is no longer pending, no fit has been made, and no
fit is made afterwards whatever frames, timeouts or close events follow. -/
theorem close_before_fit_cancels (env : Env) (c0 : Client) (v : String)
    (dataType options : JVal) (frames : List (Int × Option JVal))
    (hlt : (sessionCoords (messageEvents frames)).length < 12) :
    (runSession (openStream env c0 v dataType options)
      (messageEvents frames ++ [SessionEvent.close])).autoFitTimer = none ∧
    c0.nextHandle ∉ (runSession (openStream env c0 v dataType options)
      (messageEvents frames ++ [SessionEvent.close])).timeouts ∧
    (runSession (openStream env c0 v dataType options)
      (messageEvents frames ++ [SessionEvent.close])).autoFitPending = false ∧
    (runSession (openStream env c0 v dataType options)
      (messageEvents frames ++ [SessionEvent.close])).fitCalls = c0.fitCalls ∧
    ∀ es : List SessionEvent,
      (runSession (openStream env c0 v dataType options)
        (messageEvents frames ++ SessionEvent.close :: es)).fitCalls = c0.fitCalls ∧
      (runSession (openStream env c0 v dataType options)
        (messageEvents frames ++ SessionEvent.close :: es)).autoFitPending = false := by
  obtain ⟨a1, a2, a3, a4, a5, _⟩ := openStream_armed env c0 v dataType options
  have hmsg := (messages_run frames (openStream env c0 v dataType options) a1
    (by rw [a2]; exact Nat.succ_pos _)).1
  simp only [a2, a3, a4, List.nil_append] at hmsg
  have hst := hmsg hlt
  simp only [autoFitState, Prod.mk.injEq] at hst
  obtain ⟨s1, s2, s3, s4, s5⟩ := hst
  have hclose := autoFitState_onclose
    (runSession (openStream env c0 v dataType options) (messageEvents frames))
  simp only [autoFitState, Prod.mk.injEq] at hclose
  obtain ⟨k1, k2, k3, k4, k5⟩ := hclose
  have hrun : runSession (openStream env c0 v dataType options)
      (messageEvents frames ++ [SessionEvent.close]) =
      (runSession (openStream env c0 v dataType options) (messageEvents frames)).onclose := by
    rw [runSession_append]
    rfl
  refine ⟨?_, ?_, ?_, ?_, ?_⟩
  · rw [hrun]
    exact k3
  · rw [hrun, k4]
    exact (clearAutoFitTimer_timeouts _).1 c0.nextHandle s3
  · rw [hrun]
    exact k1
  · rw [hrun, k5]
    exact s5
  · intro es
    have hrun2 : runSession (openStream env c0 v dataType options)
        (messageEvents frames ++ SessionEvent.close :: es) =
        runSession (runSession (openStream env c0 v dataType options)
          (messageEvents frames)).onclose es := by
      rw [runSession_append]
      rfl
    obtain ⟨r1, _, r3⟩ := settled_run es _ k1
    rw [hrun2, r3, k5]
    exact ⟨s5, r1⟩

/-- Witness of C22: the connection closes before any frame arrived. -/
theorem close_before_fit_cancels_witness :
    (runSession (openStream sampleEnv Client.init "1000" (.str "geo") (.obj []))
      (messageEvents [] ++ [SessionEvent.close])).autoFitPending = false :=
  (close_before_fit_cancels sampleEnv Client.init "1000" (.str "geo") (.obj []) []
    (by decide)).2.2.1

/-- C29 (the code at the failing input): after `startStream` has replaced a
connection, the close event of the replaced connection runs `ws.onclose` on the
globals of the new session. When it comes after the new socket opened, the
pending flag is cleared and the new session's fallback timeout is cancelled;
when it comes before, the pending flag is already cleared when the new socket
opens. Either way the new connection is still held and no auto-fit is made in
the new session, whatever frames and timeouts follow. -/
theorem replaced_socket_close_disarms (env : Env) (c0 : Client) (v : String)
    (dataType options : JVal) :
    ((openStream env c0 v dataType options).autoFitPending = true ∧
      c0.nextHandle ∈ (openStream env c0 v dataType options).timeouts) ∧
    ((openStream env c0 v dataType options).onclose.autoFitPending = false ∧
      (openStream env c0 v dataType options).onclose.autoFitTimer = none ∧
      c0.nextHandle ∉ (openStream env c0 v dataType options).onclose.timeouts ∧
      (openStream env c0 v dataType options).onclose.ws = some c0.nextSocket ∧
      ∀ es : List SessionEvent,
        (runSession (openStream env c0 v dataType options).onclose es).fitCalls
          = c0.fitCalls) ∧
    ((c0.startStream.onclose.onopen env v dataType options).client.autoFitPending = false ∧
      (c0.startStream.onclose.onopen env v dataType options).client.ws = some c0.nextSocket ∧
      ∀ es : List SessionEvent,
        (runSession (c0.startStream.onclose.onopen env v dataType options).client es).fitCalls
          = c0.fitCalls) := by
  obtain ⟨a1, a2, a3, a4, a5, a6⟩ := openStream_armed env c0 v dataType options
  have hclose := autoFitState_onclose (openStream env c0 v dataType options)
  simp only [autoFitState, Prod.mk.injEq] at hclose
  obtain ⟨k1, k2, k3, k4, k5⟩ := hclose
  refine ⟨⟨a1, a5⟩, ⟨k1, k3, ?_, ?_, ?_⟩, ?_⟩
  · rw [k4]
    exact (clearAutoFitTimer_timeouts _).1 c0.nextHandle a4
  · rw [← a6]
    unfold Client.onclose clearAutoFitTimer
    cases (openStream env c0 v dataType options).autoFitTimer <;> rfl
  · intro es
    rw [(settled_run es _ k1).2.2, k5, a3]
  · have hp : (c0.startStream.onclose.onopen env v dataType options).client.autoFitPending
        = false := rfl
    have hf : (c0.startStream.onclose.onopen env v dataType options).client.fitCalls
        = c0.fitCalls := by
      show (clearAutoFitTimer c0.startStream).fitCalls = c0.fitCalls
      rw [(clearAutoFitTimer_session _).1]
      exact (clearAutoFitTimer_session c0).1
    have hw : (c0.startStream.onclose.onopen env v dataType options).client.ws
        = some c0.nextSocket := by
      show (clearAutoFitTimer c0.startStream).ws = some c0.nextSocket
      rw [(clearAutoFitTimer_session _).2.1]
      rfl
    refine ⟨hp, hw, ?_⟩
    intro es
    rw [(settled_run es _ hp).2.2, hf]

/-! ## Theorems: the rows of the CSV export -/

theorem setProp_fresh (flat : List (String × JVal)) (k : String) (v : JVal)
    (h : ∀ p ∈ flat, p.1 ≠ k) : setProp flat k v = flat ++ [(k, v)] := by
  unfold setProp
  rw [if_neg]
  intro hany
  rw [List.any_eq_true] at hany
  obtain ⟨p, hp, hk⟩ := hany
  exact h p hp (of_decide_eq_true hk)

theorem flattenInto_fresh (stringify : JVal → String) (flat : List (String × JVal))
    (entry : String × JVal)
    (hfresh : ∀ p ∈ flat, ∀ q ∈ columnsOf stringify entry, p.1 ≠ q.1)
    (hdistinct : ((columnsOf stringify entry).map Prod.fst).Nodup) :
    flattenInto stringify flat entry = flat ++ columnsOf stringify entry := by
  unfold flattenInto
  unfold columnsOf at hfresh hdistinct ⊢
  split_ifs with hobj
  · rw [if_pos hobj] at hfresh hdistinct
    split
    · rename_i lat lng hlat hlng
      simp only [hlat, hlng] at hfresh hdistinct
      rw [setProp_fresh flat (entry.1 ++ "_lat") lat
          (fun p hp => hfresh p hp (entry.1 ++ "_lat", lat) (by simp)),
        setProp_fresh _ (entry.1 ++ "_lng") lng, List.append_assoc]
      · rfl
      · intro p hp
        rw [List.mem_append, List.mem_singleton] at hp
        rcases hp with hp | hp
        · exact hfresh p hp (entry.1 ++ "_lng", lng) (by simp)
        · rw [hp]
          simp only [List.map_cons, List.map_nil, List.nodup_cons, List.mem_singleton,
            List.not_mem_nil, not_false_eq_true, List.nodup_nil, and_true] at hdistinct
          exact hdistinct
    · exact setProp_fresh flat _ _
        (fun p hp => hfresh p hp (entry.1, JVal.str (stringify entry.2)) (by simp))
  · rw [if_neg hobj] at hfresh
    exact setProp_fresh flat _ _ (fun p hp => hfresh p hp (entry.1, entry.2) (by simp))

theorem flatten_fold (stringify : JVal → String) (kvs : List (String × JVal)) :
    ∀ flat : List (String × JVal),
      ((flat ++ kvs.flatMap (columnsOf stringify)).map Prod.fst).Nodup →
      kvs.foldl (flattenInto stringify) flat = flat ++ kvs.flatMap (columnsOf stringify) := by
  induction kvs with
  | nil => intro flat _; simp
  | cons entry rest ih =>
    intro flat hnd
    rw [List.flatMap_cons, ← List.append_assoc] at hnd
    have hnd2 := hnd
    rw [List.map_append, List.nodup_append] at hnd2
    obtain ⟨hleft, _, _⟩ := hnd2
    rw [List.map_append, List.nodup_append] at hleft
    obtain ⟨_, hcols, hdisj⟩ := hleft
    have hstep : flattenInto stringify flat entry = flat ++ columnsOf stringify entry := by
      apply flattenInto_fresh stringify flat entry _ hcols
      intro p hp q hq hpq
      exact hdisj (List.mem_map_of_mem Prod.fst hp) (hpq ▸ List.mem_map_of_mem Prod.fst hq)
    rw [List.foldl_cons, hstep, ih _ hnd, List.flatMap_cons, List.append_assoc]

/-- C26 (counterexample): in the record with `location_lat` 3 followed by a
nested position `location` (50, 7), the scalar field is not copied: the row is
`location_lat` 50, `location_lng` 7. -/
theorem overlapping_column_is_overwritten :
    flattenItem (fun _ => "") (some overlappingRow) =
      [("location_lat", .num (.fin 50)), ("location_lng", .num (.fin 7))] := by
  simp [flattenItem, ownEntries, overlappingRow, flattenInto, isObject, JVal.field,
    List.lookup, setProp]

/-- C26 (amended): for every record whose flattened column names are pairwise
distinct, the row of the CSV export is the concatenation, in field order, of
the columns of each field: `<field>_lat` and `<field>_lng` for a nested object
or array having both `lat` and `lng`, one cell with the JSON string for any
other nested object or array, and the value itself under the field's name for
a scalar or `null`; and the export has one row per record. -/
theorem csv_row_columns (stringify : JVal → String) (kvs : List (String × JVal))
    (hcols : ((kvs.flatMap (columnsOf stringify)).map Prod.fst).Nodup) :
    flattenItem stringify (some (.obj kvs)) = kvs.flatMap (columnsOf stringify) ∧
    (∀ entry ∈ kvs, ∀ lat lng, isObject entry.2 = true →
      entry.2.field "lat" = some lat → entry.2.field "lng" = some lng →
      columnsOf stringify entry = [(entry.1 ++ "_lat", lat), (entry.1 ++ "_lng", lng)]) ∧
    (∀ entry ∈ kvs, isObject entry.2 = true →
      (entry.2.field "lat" = none ∨ entry.2.field "lng" = none) →
      columnsOf stringify entry = [(entry.1, .str (stringify entry.2))]) ∧
    (∀ entry ∈ kvs, isObject entry.2 = false → columnsOf stringify entry = [(entry.1, entry.2)]) ∧
    (∀ c : Client, (flattenedData stringify c).length = c.currentData.length) := by
  refine ⟨?_, ?_, ?_, ?_, ?_⟩
  · have h := flatten_fold stringify kvs [] (by rw [List.nil_append]; exact hcols)
    rw [List.nil_append] at h
    exact h
  · intro entry _ lat lng hobj hlat hlng
    unfold columnsOf
    rw [if_pos hobj, hlat, hlng]
  · intro entry _ hobj hno
    unfold columnsOf
    rw [if_pos hobj]
    rcases hno with hno | hno
    · rw [hno]
    · rw [hno]
      cases entry.2.field "lat" <;> rfl
  · intro entry _ hobj
    unfold columnsOf
    rw [if_neg (by rw [hobj]; decide)]
  · intro c
    unfold flattenedData
    rw [List.length_map]

/-- Witness of C26 (amended): a record with a scalar field, a nested position
and a nested list. -/
theorem csv_row_columns_witness :
    flattenItem (fun _ => "[1]") (some incidentRow) =
      (ownEntries (some incidentRow)).flatMap (columnsOf (fun _ => "[1]")) :=
  (csv_row_columns (fun _ => "[1]")
    [("status", .str "reported"),
     ("location", .obj [("lat", .num (.fin 50)), ("lng", .num (.fin 7))]),
     ("units", .arr [.num (.fin 1)])]
    (by simp [columnsOf, isObject, JVal.field, List.lookup])).1

end SmartCity
